import Mathlib

/-!
# libopenspotify: playlist retrieval, artists, albums and the session

A shallow embedding of `libopenspotify/playlist.c` (playlist container and
playlist loading, the two checksum routines, the channel callbacks, the
senders and the browse of a playlist's tracks), of the handle functions of
`sp_artist.c` and `sp_album.c` and of `sp_session_init`,
`sp_session_player_load` and `sp_session_process_events` of `sp_session.c`,
together with the properties of them that the specification states.

Conventions of the embedding

* a byte (`unsigned char`) is a `Nat`; a C string is the `List Char` of its
  characters before the terminating zero;
* a pointer to a heap object is the index of the object in the heap list of
  its kind (`malloc` appends to the heap); allocation is taken to succeed;
* an `int` that only counts (`num_tracks`, `num_playlists`, `position`,
  `ref_count`) is a `Nat`; an `int` that receives a scanned number or a time
  in milliseconds is an `Int` reduced to 32 bits two's complement.
-/

namespace OpenSpotify

/-! ## Data model -/

/-- The `sp_error` codes of `libspotify/api.h` that the specification lists. -/
inductive sp_error where
  | SP_ERROR_OK
  | SP_ERROR_BAD_API_VERSION
  | SP_ERROR_API_INITIALIZATION_FAILED
  | SP_ERROR_TRACK_NOT_PLAYABLE
  | SP_ERROR_RESOURCE_NOT_LOADED
  | SP_ERROR_BAD_APPLICATION_KEY
  | SP_ERROR_BAD_USER_AGENT
  | SP_ERROR_INVALID_INDATA
  | SP_ERROR_OTHER_PERMANENT
  | SP_ERROR_OTHER_TRANSIENT
  | SP_ERROR_IS_LOADING
  deriving DecidableEq, Repr, Inhabited

/-- The request types of `request.h` that `playlist.c` and `sp_session.c` name. -/
inductive request_type where
  | REQ_TYPE_LOGIN
  | REQ_TYPE_LOGOUT
  | REQ_TYPE_PLAY_TOKEN_LOST
  | REQ_TYPE_NOTIFY
  | REQ_TYPE_PC_LOAD
  | REQ_TYPE_PC_PLAYLIST_ADD
  | REQ_TYPE_PLAYLIST_RENAME
  | REQ_TYPE_PLAYLIST_STATE_CHANGED
  | REQ_TYPE_PLAYLIST_LOAD
  | REQ_TYPE_PLAYLIST_CHANGE
  | REQ_TYPE_USER
  | REQ_TYPE_ALBUMBROWSE
  | REQ_TYPE_ARTISTBROWSE
  | REQ_TYPE_BROWSE_ALBUM
  | REQ_TYPE_BROWSE_ARTIST
  | REQ_TYPE_BROWSE_TRACK
  | REQ_TYPE_BROWSE_PLAYLIST_TRACKS
  | REQ_TYPE_TOPLISTBROWSE
  | REQ_TYPE_SEARCH
  | REQ_TYPE_IMAGE
  | REQ_TYPE_CACHE_PERIODIC
  deriving DecidableEq, Repr, Inhabited

/-- The states of a request (`request.h`). -/
inductive request_state where
  | REQ_STATE_NEW
  | REQ_STATE_RUNNING
  | REQ_STATE_RETURNED
  | REQ_STATE_PROCESSED
  deriving DecidableEq, Repr, Inhabited

/-- The states of a playlist. -/
inductive playlist_state where
  | PLAYLIST_STATE_ADDED
  | PLAYLIST_STATE_LISTED
  | PLAYLIST_STATE_LOADED
  deriving DecidableEq, Repr, Inhabited

/-- The states in which a channel callback is invoked (`channel.h`). -/
inductive channel_state where
  | CHANNEL_HEADER
  | CHANNEL_DATA
  | CHANNEL_ERROR
  | CHANNEL_END
  deriving DecidableEq, Repr, Inhabited

/-- A track (`struct sp_track` of `sp_opaque.h`, which is not part of the
sources at hand): the members the playlist code touches. `id` is taken to be
the first member of the structure, 16 bytes long. -/
structure sp_track where
  id : List Nat
  is_loaded : Bool
  is_available : Bool
  ref_count : Nat
  deriving DecidableEq, Repr, Inhabited

/-- A user (`struct sp_user`): the members read by `sp_user.c`. -/
structure sp_user where
  canonical_name : List Char
  display_name : Option (List Char)
  is_loaded : Bool
  ref_count : Nat
  deriving DecidableEq, Repr, Inhabited

/-- A playlist (`struct sp_playlist`), with the members `playlist_create`
initialises. `tracks` holds pointers into the track heap, `owner` a pointer
into the user heap, `buf` the pending payload (`none` is `NULL`). -/
structure sp_playlist where
  id : List Nat
  name : List Char
  description : Option (List Char)
  image_id : List Nat
  owner : Option Nat
  position : Nat
  shared : Int
  is_dirty : Bool
  revision : Int
  checksum : Int
  num_tracks : Nat
  tracks : List Nat
  state : playlist_state
  num_callbacks : Nat
  buf : Option (List Char)
  deriving DecidableEq, Repr, Inhabited

/-- The playlist container (`struct sp_playlistcontainer`). `playlists` holds
pointers into the playlist heap. -/
structure sp_playlistcontainer where
  is_dirty : Bool
  revision : Int
  checksum : Int
  buf : Option (List Char)
  num_playlists : Nat
  playlists : List Nat
  num_callbacks : Nat
  deriving DecidableEq, Repr, Inhabited

/-- An artist (`struct sp_artist`), with the members `sp_artist.c` touches;
the member `hashtable` always points to the artist table of the session and
is left out. -/
structure sp_artist where
  id : List Nat
  name : Option (List Char)
  is_loaded : Bool
  ref_count : Nat
  deriving DecidableEq, Repr, Inhabited

/-- An album (`struct sp_album`), with the members `sp_album.c` touches. -/
structure sp_album where
  id : List Nat
  name : Option (List Char)
  artist : Option Nat
  year : Int
  image_id : List Nat
  is_loaded : Bool
  ref_count : Nat
  deriving DecidableEq, Repr, Inhabited

/-- The commands of the player thread that `sp_session.c` pushes (`player.h`). -/
inductive player_command_type where
  | PLAYER_LOAD
  | PLAYER_UNLOAD
  | PLAYER_PLAY
  | PLAYER_PAUSE
  | PLAYER_SEEK
  deriving DecidableEq, Repr, Inhabited

/-- A command pushed to the player with `player_push`: the command, the track
its data points to (`none` for `NULL`) and the last argument. -/
structure player_command where
  cmd : player_command_type
  data : Option Nat
  len : Int
  deriving DecidableEq, Repr, Inhabited

/-- The channel callbacks of `playlist.c`. -/
inductive channel_callback where
  | playlistcontainer_callback
  | playlist_callback
  deriving DecidableEq, Repr, Inhabited

/-- A command sent to the service, with the channel registered for the reply:
the arguments of `cmd_getplaylist` and of `cmd_changeplaylist`; `req` is the
request of the callback context. -/
inductive command where
  | getplaylist (id : List Nat) (revision : Nat) (callback : channel_callback) (req : Nat)
  | changeplaylist (id : List Nat) (xml : List Char) (revision : Int) (num_tracks : Nat)
      (checksum : Int) (shared : Int) (callback : channel_callback) (req : Nat)
  deriving DecidableEq, Repr, Inhabited

/-- The context of a browse request (`struct browse_callback_ctx` of
`browse.h`), with the members `osfy_playlist_browse` fills in. -/
structure browse_callback_ctx where
  type : request_type
  playlist : Nat
  num_total : Nat
  num_browsed : Nat
  num_in_request : Nat
  deriving DecidableEq, Repr, Inhabited

/-- What the `void *` input or output of a request points to. -/
inductive request_data where
  | null
  | position (value : Nat)
  | playlist (ptr : Nat)
  | playlistcontainer
  | user (ptr : Nat)
  | browse (brctx : browse_callback_ctx)
  | id (bytes : List Nat)
  deriving DecidableEq, Repr, Inhabited

/-- A request of the queue shared by the two threads (`struct request`). -/
structure request where
  type : request_type
  state : request_state
  input : request_data
  output : request_data
  error : sp_error
  next_timeout : Int
  deriving DecidableEq, Repr, Inhabited

/-- The part of `sp_session` the code at hand works on: the container, the
heaps of playlists, tracks and users, the track and user tables (key and
pointer, in insertion order) and the request queue; the heaps of artists and
albums (`none` for a freed object) with their tables; the commands pushed to
the player and the commands sent to the service, oldest first; the pointers
of the tracks that have been freed, oldest first. A request pointer is the
index of the request in `requests`. -/
structure sp_session where
  playlistcontainer : sp_playlistcontainer
  playlists : List sp_playlist
  tracks : List sp_track
  hashtable_tracks : List (List Nat × Nat)
  users : List sp_user
  hashtable_users : List (List Char × Nat)
  requests : List request
  artists : List (Option sp_artist)
  hashtable_artists : List (List Nat × Nat)
  albums : List (Option sp_album)
  hashtable_albums : List (List Nat × Nat)
  player : List player_command
  commands : List command
  freed_tracks : List Nat
  deriving DecidableEq, Repr, Inhabited

/-- A `track` element of a browse reply, seen through the lookups of
`osfy_playlist_browse_callback`: the text of its `id` element (`none` when
there is none) and the texts of its `redirect` elements, in document order. -/
structure track_node where
  id : Option (List Char)
  redirect : List (List Char)
  deriving DecidableEq, Repr, Inhabited

/-- The tree `ezxml_parse_str` returns, seen through the lookups the parsers
make: the text of the node each `ezxml_get` call returns, `none` when the
call returns `NULL`. `txt` is the text of the root element itself, which the
call `ezxml_get(root, 0, "confirm", 0, "version", -1)` of `playlist_parse_xml`
reads: its first name is 0, and that ends the path at the root.
`confirm_version` is the text of the element `confirm/version` of the reply,
which the specification names and no lookup of the program returns. `tracks`
holds the `track` elements under `tracks`, which the browse parser walks (a
playlist reply has none). -/
structure ezxml_root where
  name : Option (List Char)
  pub : Option (List Char)
  items : Option (List Char)
  user : Option (List Char)
  version : Option (List Char)
  confirm_version : Option (List Char)
  tracks : List track_node := []
  txt : List Char := ['\n']
  deriving DecidableEq, Repr, Inhabited

/-- Values of locals that are read before the program assigns them: the `id`
buffers of the two parsers, the four `int`s `playlist_parse_xml` hands to
`sscanf`, and the `id` buffer of the browse parser. -/
structure stack_values where
  id : List Nat
  track_id : List Nat
  revision : Int
  num_items : Int
  checksum : Int
  shared : Int
  browse_id : List Nat
  deriving DecidableEq, Repr, Inhabited

/-- What the code takes from outside the sources at hand: the XML parser
(`ezxml_parse_str`, `none` for a `NULL` root), the clock (`get_millisecs`),
the constants `PLAYLIST_RETRY_TIMEOUT` (seconds) and `INT_MAX`, the size of
the `name` array of `sp_playlist`, the stack contents, the status the
command encoders `cmd_getplaylist` and `cmd_changeplaylist` return, and the
decompression of a browse payload (`despotify_inflate`, `none` for `NULL`). -/
structure environment where
  ezxml_parse_str : List Char → Option ezxml_root
  get_millisecs : Int
  PLAYLIST_RETRY_TIMEOUT : Int
  INT_MAX : Int
  sizeof_name : Nat
  stack : stack_values
  cmd_status : Int
  despotify_inflate : List Nat → Option (List Char)

/-! ## Adler-32 and the two checksums -/

/-- Largest prime below 65536 (`BASE` of zlib's `adler32.c`). -/
def BASE : Nat := 65521

/-- One byte fed to the pair of running sums of Adler-32. -/
def adler32_step (s : Nat × Nat) (b : Nat) : Nat × Nat :=
  ((s.1 + b) % BASE, (s.2 + (s.1 + b) % BASE) % BASE)

/-- Modelled from the spec: Adler-32 (`adler32` of zlib, which `playlist.c`
links against and which is not part of the sources at hand). The state is
split into its two 16-bit sums, every byte is added to the first sum and the
first sum to the second, both modulo 65521, and the sums are packed again,
the second in the upper half. -/
def adler32 (adler : Nat) (buf : List Nat) : Nat :=
  let s := buf.foldl adler32_step (adler &&& 0xffff, (adler >>> 16) &&& 0xffff)
  s.1 ||| (s.2 <<< 16)

/-- The object a track pointer designates (the default object for a pointer
outside the heap, which the program never forms). -/
def track_at (tracks : List sp_track) (ptr : Nat) : sp_track :=
  tracks.getD ptr default

/-- The object a playlist pointer designates. -/
def playlist_at (playlists : List sp_playlist) (ptr : Nat) : sp_playlist :=
  playlists.getD ptr default

/-- The loop of `playlist_checksum`: `i` runs over `0 .. num_tracks - 1`; the
first 16 bytes of the track object (its id) are copied to `id`, `id[16]` is
set to `0x01` and the 17 bytes are fed to `adler32`; the result is stored in
an `unsigned int`. -/
def playlist_checksum_loop (tracks : List sp_track) (playlist : sp_playlist)
    (checksum : Nat) (i : Nat) : Nat :=
  let id := (track_at tracks (playlist.tracks.getD i 0)).id.take 16 ++ [0x01]
  adler32 checksum id % 2 ^ 32

/-- Calculate a playlist checksum (`playlist_checksum`); `none` is the `NULL`
playlist. -/
def playlist_checksum (tracks : List sp_track) (playlist : Option sp_playlist) : Nat :=
  match playlist with
  | none => 1
  | some p => (List.range p.num_tracks).foldl (playlist_checksum_loop tracks p) 1

/-- The loop of `playlistcontainer_checksum`: the first 16 bytes of the
playlist's id are copied, `id[16]` is set to `0x02`. -/
def playlistcontainer_checksum_loop (playlists : List sp_playlist)
    (pc : sp_playlistcontainer) (checksum : Nat) (i : Nat) : Nat :=
  let id := (playlist_at playlists (pc.playlists.getD i 0)).id.take 16 ++ [0x02]
  adler32 checksum id % 2 ^ 32

/-- Calculate a playlist container checksum (`playlistcontainer_checksum`). -/
def playlistcontainer_checksum (playlists : List sp_playlist)
    (pc : Option sp_playlistcontainer) : Nat :=
  match pc with
  | none => 1
  | some c => (List.range c.num_playlists).foldl (playlistcontainer_checksum_loop playlists c) 1

/-! ## Text scanning -/

/-- The delimiters of the id lists, `",\n"`. -/
def is_delim (c : Char) : Bool := c == ',' || c == '\n'

/-- The tokens `strtok(txt, ",\n")`, `strtok(NULL, ",\n")`, ... return until
`NULL`: the maximal runs of characters that are not delimiters. `tok` holds
the characters of the token being read. -/
def strtok_loop : List Char → List Char → List (List Char)
  | [], tok => if tok.isEmpty then [] else [tok]
  | c :: cs, tok =>
    if is_delim c then
      if tok.isEmpty then strtok_loop cs [] else tok :: strtok_loop cs []
    else strtok_loop cs (tok ++ [c])

/-- All tokens of a text, in order. -/
def strtok (txt : List Char) : List (List Char) := strtok_loop txt []

/-- The value of a hexadecimal digit, of either case. -/
def hex_value (c : Char) : Option Nat :=
  if 48 ≤ c.toNat ∧ c.toNat ≤ 57 then some (c.toNat - 48)
  else if 97 ≤ c.toNat ∧ c.toNat ≤ 102 then some (c.toNat - 87)
  else if 65 ≤ c.toNat ∧ c.toNat ≤ 70 then some (c.toNat - 55)
  else none

/-- Modelled from the spec: `hex_ascii_to_bytes(ascii, bytes, len)` of
`util.c` (not part of the sources at hand), the decoding half of the hex
codec: `len` bytes are read, two hexadecimal digits each, the high one first.
`none` when the text has fewer than `2 * len` characters or one of them is no
hexadecimal digit. -/
def hex_ascii_to_bytes : List Char → Nat → Option (List Nat)
  | _, 0 => some []
  | hi :: lo :: rest, len + 1 =>
    match hex_value hi, hex_value lo, hex_ascii_to_bytes rest len with
    | some h, some l, some bytes => some ((16 * h + l) :: bytes)
    | _, _, _ => none
  | _, _ + 1 => none

/-- The destination buffer after `hex_ascii_to_bytes(ascii, bytes, len)`, whose
return value the callers ignore: the decoded bytes, or the former contents
when the text does not decode. -/
def hex_ascii_to_buffer (ascii : List Char) (bytes : List Nat) (len : Nat) : List Nat :=
  (hex_ascii_to_bytes ascii len).getD bytes

/-- White space as `isspace` of the C library sees it. -/
def isspace (c : Char) : Bool :=
  c == ' ' || c == '\t' || c == '\n' || c == '\x0b' || c == '\x0c' || c == '\r'

/-- The value of an `int` expression whose mathematical value is `v`: 32 bits
two's complement, wrapping around. -/
def int_wrap (v : Int) : Int :=
  (v + 2 ^ 31) % 2 ^ 32 - 2 ^ 31

/-- The `int` a `%d` conversion stores for the number read: `strtol` range
(64 bits, saturating) narrowed to 32 bits two's complement. -/
def int_store (v : Int) : Int :=
  let long := max (-(2 ^ 63)) (min v (2 ^ 63 - 1))
  (long + 2 ^ 31) % 2 ^ 32 - 2 ^ 31

/-- Read at most `width` decimal digits, continuing the number `acc`. -/
def scan_digits : Nat → Nat → List Char → Nat × List Char
  | 0, acc, s => (acc, s)
  | _ + 1, acc, [] => (acc, [])
  | w + 1, acc, c :: cs =>
    if c.isDigit then scan_digits w (10 * acc + (c.toNat - 48)) cs else (acc, c :: cs)

/-- One `%d` conversion of `sscanf`, with a maximum field width (`%010d` has
width 10) or without (`%d`): white space is skipped, an optional sign and then
decimal digits are read, at least one, within the width. The result is the
`int` stored and the rest of the input, `none` on a matching failure. -/
def scan_int (width : Option Nat) (s : List Char) : Option (Int × List Char) :=
  let s := s.dropWhile isspace
  let w := width.getD s.length
  match s with
  | [] => none
  | c :: cs =>
    if c = '-' ∨ c = '+' then
      match cs with
      | [] => none
      | d :: _ =>
        if d.isDigit ∧ 2 ≤ w then
          let r := scan_digits (w - 1) 0 cs
          some (int_store (if c = '-' then -(r.1 : Int) else r.1), r.2)
        else none
    else if c.isDigit ∧ 1 ≤ w then
      let r := scan_digits w 0 (c :: cs)
      some (int_store r.1, r.2)
    else none

/-- The values `sscanf` stores for a format of `%d` conversions separated by
a literal comma, such as `"%010d,%010d,%010d,%d"`: `widths` lists the field
widths of the conversions. Scanning stops at the first conversion or comma
that does not match; the values converted until then have been stored. -/
def sscanf_ints : List (Option Nat) → List Char → List Int
  | [], _ => []
  | w :: ws, s =>
    match scan_int w s with
    | none => []
    | some (v, rest) =>
      match rest with
      | ',' :: rest => v :: sscanf_ints ws rest
      | _ => [v]

/-- Modelled from the spec: `buf_append_data` of `buf.c` (not part of the
sources at hand) appends bytes to a growable buffer; a `NULL` buffer, which
the program does not pass, is left as it is. -/
def buf_append_data (buf : Option (List Char)) (data : List Char) : Option (List Char) :=
  buf.map (· ++ data)

/-- The call `ezxml_get(root, path..., -1)` followed by `node->txt`: `NULL`
for a `NULL` root. -/
def ezxml_get (root : Option ezxml_root) (path : ezxml_root → Option (List Char)) :
    Option (List Char) :=
  root.bind path

/-! ## The request queue -/

/-- Modelled from the spec: `request_post` of `request.c` (not part of the
sources at hand) appends a new request in state NEW with
`next_timeout = now`. -/
def request_post (now : Int) (session : sp_session) (type : request_type)
    (input : request_data) : sp_session :=
  let req : request :=
    { type := type, state := .REQ_STATE_NEW, input := input, output := .null,
      error := .SP_ERROR_OK, next_timeout := now }
  { session with requests := session.requests ++ [req] }

/-- Modelled from the spec: `request_post_result` of `request.c` (not part of
the sources at hand) creates an already completed request, one in state
RETURNED that carries the error and a copy of the output. -/
def request_post_result (session : sp_session) (type : request_type) (error : sp_error)
    (output : request_data) : sp_session :=
  let req : request :=
    { type := type, state := .REQ_STATE_RETURNED, input := .null, output := output,
      error := error, next_timeout := 0 }
  { session with requests := session.requests ++ [req] }

/-- Modelled from the spec: `request_set_result` of `request.c` (not part of
the sources at hand) stores error and output in the request and moves it to
RETURNED. -/
def request_set_result (session : sp_session) (req : Nat) (error : sp_error)
    (output : request_data) : sp_session :=
  match session.requests[req]? with
  | none => session
  | some r =>
    let r := { r with error := error, output := output, state := .REQ_STATE_RETURNED }
    { session with requests := session.requests.set req r }

/-! ## The playlist container -/

/-- Store a new value in the playlist a pointer designates. -/
def playlist_store (session : sp_session) (ptr : Nat) (f : sp_playlist → sp_playlist) :
    sp_session :=
  match session.playlists[ptr]? with
  | none => session
  | some p => { session with playlists := session.playlists.set ptr (f p) }

/-- Initialize a playlist context (`playlistcontainer_create`). -/
def playlistcontainer_create (session : sp_session) : sp_session :=
  let pc : sp_playlistcontainer :=
    { is_dirty := false, revision := 0, checksum := 0, buf := none,
      num_playlists := 0, playlists := [], num_callbacks := 0 }
  { session with playlistcontainer := pc }

/-- Add a playlist to the playlist container and notify the main thread
(`playlistcontainer_add_playlist`): the array is reallocated to hold
`1 + num_playlists` pointers, the pointer is stored at index `num_playlists`,
the playlist's position is set to that index, the count is incremented and a
`REQ_TYPE_PC_PLAYLIST_ADD` result is posted with the position. -/
def playlistcontainer_add_playlist (session : sp_session) (playlist : Nat) : sp_session :=
  let pc := session.playlistcontainer
  let pc := { pc with playlists := pc.playlists.take pc.num_playlists ++ [playlist] }
  let session := { session with playlistcontainer := pc }
  let session := playlist_store session playlist
    (fun p => { p with position := session.playlistcontainer.num_playlists })
  let pc := session.playlistcontainer
  let pc := { pc with num_playlists := pc.num_playlists + 1 }
  let session := { session with playlistcontainer := pc }
  request_post_result session .REQ_TYPE_PC_PLAYLIST_ADD .SP_ERROR_OK
    (.position (playlist_at session.playlists playlist).position)

/-- Allocate a playlist (`playlist_create`): the new object is appended to
the playlist heap and its pointer returned. -/
def playlist_create (session : sp_session) (id : List Nat) : Nat × sp_session :=
  let playlist : sp_playlist :=
    { id := id.take 17, name := [], description := none, image_id := [],
      owner := none, position := 0, shared := 0, is_dirty := false, revision := 0,
      checksum := 0, num_tracks := 0, tracks := [],
      state := .PLAYLIST_STATE_ADDED, num_callbacks := 0, buf := none }
  (session.playlists.length, { session with playlists := session.playlists ++ [playlist] })

/-- The loop body of `playlistcontainer_parse_xml`: the token is decoded into
the 17-byte buffer `id`, a playlist is created from the buffer and added to
the container. The state is the buffer and the session. -/
def playlistcontainer_parse_item (st : List Nat × sp_session) (idstr : List Char) :
    List Nat × sp_session :=
  let id := hex_ascii_to_buffer idstr st.1 17
  let created := playlist_create st.2 id
  (id, playlistcontainer_add_playlist created.2 created.1)

/-- The tree `playlistcontainer_parse_xml` works on: the closing element is
appended to the container's buffer and the buffer parsed. -/
def playlistcontainer_parse_root (env : environment) (session : sp_session) :
    Option ezxml_root :=
  env.ezxml_parse_str
    ((buf_append_data session.playlistcontainer.buf "</playlist>".toList).getD [])

/-- The loop of `playlistcontainer_parse_xml` over the tokens of
`next-change/change/ops/add/items`. -/
def playlistcontainer_parse_items (env : environment) (root : Option ezxml_root)
    (session : sp_session) : sp_session :=
  match ezxml_get root (·.items) with
  | some id_list =>
    ((strtok id_list).foldl playlistcontainer_parse_item (env.stack.id, session)).2
  | none => session

/-- The version section of `playlistcontainer_parse_xml`:
`next-change/version` is scanned with `"%010d,%010d,%010d,0"` into the
container's revision, the local `num_items` and the container's checksum. -/
def playlistcontainer_parse_version (root : Option ezxml_root) (session : sp_session) :
    sp_session :=
  match ezxml_get root (·.version) with
  | some txt =>
    let vals := sscanf_ints [some 10, some 10, some 10] txt
    let pc := session.playlistcontainer
    let pc := { pc with revision := vals.getD 0 pc.revision,
                        checksum := vals.getD 2 pc.checksum }
    { session with playlistcontainer := pc }
  | none => session

/-- Parse the reply to the container request (`playlistcontainer_parse_xml`):
a playlist is added for every id listed, then the version is stored.
Returns 0. -/
def playlistcontainer_parse_xml (env : environment) (session : sp_session) :
    Int × sp_session :=
  let root := playlistcontainer_parse_root env session
  let pc := session.playlistcontainer
  let pc := { pc with buf := buf_append_data pc.buf "</playlist>".toList }
  let session := { session with playlistcontainer := pc }
  let session := playlistcontainer_parse_items env root session
  let session := playlistcontainer_parse_version root session
  (0, session)

/-- Create new requests for each playlist in the container
(`playlistcontainer_request_playlists`). -/
def playlistcontainer_request_playlists (env : environment) (session : sp_session) :
    sp_session :=
  (List.range session.playlistcontainer.num_playlists).foldl
    (fun s i => request_post env.get_millisecs s .REQ_TYPE_PLAYLIST_LOAD
      (.playlist (s.playlistcontainer.playlists.getD i 0)))
    session

/-- Callback for playlist container buffering (`playlistcontainer_callback`);
`req` is the request of the callback context, `state` the channel's state. -/
def playlistcontainer_callback (env : environment) (session : sp_session) (req : Nat)
    (state : channel_state) (payload : List Char) : Int × sp_session :=
  match state with
  | .CHANNEL_DATA =>
    let pc := session.playlistcontainer
    let pc := { pc with buf := buf_append_data pc.buf payload }
    (0, { session with playlistcontainer := pc })
  | .CHANNEL_ERROR =>
    let session :=
      match session.requests[req]? with
      | none => session
      | some r =>
        let r := { r with
          next_timeout :=
            int_wrap (env.get_millisecs + int_wrap (env.PLAYLIST_RETRY_TIMEOUT * 1000)) }
        { session with requests := session.requests.set req r }
    let pc := session.playlistcontainer
    let pc := { pc with buf := none }
    (0, { session with playlistcontainer := pc })
  | .CHANNEL_END =>
    let parsed := playlistcontainer_parse_xml env session
    let session :=
      if parsed.1 = 0 then
        let session := playlistcontainer_request_playlists env parsed.2
        request_set_result session req .SP_ERROR_OK .playlistcontainer
      else parsed.2
    let pc := session.playlistcontainer
    let pc := { pc with buf := none }
    (0, { session with playlistcontainer := pc })
  | _ => (0, session)

/-! ## Playlists -/

/-- Set name of playlist and notify main thread (`playlist_set_name`):
`strncpy` of `sizeof(playlist->name) - 1` bytes and a terminating zero, then a
`REQ_TYPE_PLAYLIST_RENAME` result with the playlist. -/
def playlist_set_name (env : environment) (session : sp_session) (playlist : Nat)
    (name : List Char) : sp_session :=
  let session := playlist_store session playlist
    (fun p => { p with name := name.take (env.sizeof_name - 1) })
  request_post_result session .REQ_TYPE_PLAYLIST_RENAME .SP_ERROR_OK (.playlist playlist)

/-- Look a key up in one of the session's tables. -/
def hashtable_find {κ : Type} [DecidableEq κ] (table : List (κ × Nat)) (key : κ) :
    Option Nat :=
  (table.find? (fun e => decide (e.1 = key))).map (·.2)

/-- Modelled from the spec: `osfy_track_add` of `track.c` (not part of the
sources at hand) interns a track by its 16-byte id, as `osfy_artist_add` does
for artists: the handle of the table when there is one, else a new track with
that id, not loaded, `ref_count` 0, inserted in the table. -/
def osfy_track_add (session : sp_session) (id : List Nat) : Nat × sp_session :=
  match hashtable_find session.hashtable_tracks (id.take 16) with
  | some track => (track, session)
  | none =>
    let track : sp_track :=
      { id := id.take 16, is_loaded := false, is_available := false, ref_count := 0 }
    let ptr := session.tracks.length
    (ptr, { session with tracks := session.tracks ++ [track],
                         hashtable_tracks := session.hashtable_tracks ++ [(id.take 16, ptr)] })

/-- Modelled from the spec: `sp_track_add_ref` of `sp_track.c` (not part of
the sources at hand) increments the track's `ref_count`, as
`sp_artist_add_ref` does for artists. -/
def sp_track_add_ref (session : sp_session) (track : Nat) : sp_session :=
  match session.tracks[track]? with
  | none => session
  | some t =>
    let t := { t with ref_count := t.ref_count + 1 }
    { session with tracks := session.tracks.set track t }

/-- Modelled from the spec: `user_add` of `user.c` (not part of the sources at
hand) interns a user by canonical name. -/
def user_add (session : sp_session) (name : List Char) : Nat × sp_session :=
  match hashtable_find session.hashtable_users name with
  | some user => (user, session)
  | none =>
    let user : sp_user :=
      { canonical_name := name, display_name := none, is_loaded := false, ref_count := 0 }
    let ptr := session.users.length
    (ptr, { session with users := session.users ++ [user],
                         hashtable_users := session.hashtable_users ++ [(name, ptr)] })

/-- The loaded flag of a user (`sp_user_is_loaded`). -/
def sp_user_is_loaded (session : sp_session) (user : Nat) : Bool :=
  (session.users.getD user default).is_loaded

/-- Modelled from the spec: `user_lookup` of `user.c` (not part of the sources
at hand) posts a lookup request for the user. -/
def user_lookup (env : environment) (session : sp_session) (user : Nat) : sp_session :=
  request_post env.get_millisecs session .REQ_TYPE_USER (.user user)

/-- The loop body of the track loop of `playlist_parse_xml`: the token is
decoded into the 16-byte buffer `track_id`, the track interned, its pointer
stored at index `num_tracks` of the reallocated array, the count incremented
and a reference added. -/
def playlist_parse_item (playlist : Nat) (st : List Nat × sp_session) (idstr : List Char) :
    List Nat × sp_session :=
  let track_id := hex_ascii_to_buffer idstr st.1 16
  let added := osfy_track_add st.2 track_id
  let session := playlist_store added.2 playlist
    (fun p => { p with tracks := p.tracks.take p.num_tracks ++ [added.1],
                       num_tracks := p.num_tracks + 1 })
  (track_id, sp_track_add_ref session added.1)

/-- The name section of `playlist_parse_xml`: `next-change/change/ops/name`
sets the playlist name and notifies the main thread. -/
def playlist_parse_name (env : environment) (root : Option ezxml_root)
    (session : sp_session) (playlist : Nat) : sp_session :=
  match ezxml_get root (·.name) with
  | some txt => playlist_set_name env session playlist txt
  | none => session

/-- The section "Collaborative playlist?" of `playlist_parse_xml`: `shared` is
cleared and set again when `next-change/change/ops/pub` is the text `"1"`. -/
def playlist_parse_pub (root : Option ezxml_root) (session : sp_session) (playlist : Nat) :
    sp_session :=
  let session := playlist_store session playlist (fun p => { p with shared := 0 })
  match ezxml_get root (·.pub) with
  | some txt =>
    if txt = ['1'] then playlist_store session playlist (fun p => { p with shared := 1 })
    else session
  | none => session

/-- The track loop of `playlist_parse_xml` over the tokens of
`next-change/change/ops/add/items`. -/
def playlist_parse_items (env : environment) (root : Option ezxml_root)
    (session : sp_session) (playlist : Nat) : sp_session :=
  match ezxml_get root (·.items) with
  | some id_list =>
    ((strtok id_list).foldl (playlist_parse_item playlist) (env.stack.track_id, session)).2
  | none => session

/-- The owner section of `playlist_parse_xml`: `next-change/change/user` is
interned as the owner and looked up when it is not loaded. -/
def playlist_parse_user (env : environment) (root : Option ezxml_root)
    (session : sp_session) (playlist : Nat) : sp_session :=
  match ezxml_get root (·.user) with
  | some txt =>
    let added := user_add session txt
    let session := playlist_store added.2 playlist (fun p => { p with owner := some added.1 })
    if sp_user_is_loaded session added.1 then session
    else user_lookup env session added.1
  | none => session

/-- The text the version section of `playlist_parse_xml` scans: that of
`next-change/version`, and when that node is `NULL` that of the node the call
`ezxml_get(root, 0, "confirm", 0, "version", -1)` returns. The first name of
that call is 0, where `ezxml_get` (ezxml is not part of the sources at hand)
stops and returns the node it was given: the root, whose text is scanned, or
`NULL` for a `NULL` root. The element `confirm/version` is not looked at. -/
def playlist_version_node (root : Option ezxml_root) : Option (List Char) :=
  match ezxml_get root (·.version) with
  | some txt => some txt
  | none => ezxml_get root (fun r => some r.txt)

/-- The version section of `playlist_parse_xml`: the text is scanned with
`"%010d,%010d,%010d,%d"` into the locals `revision`, `num_items`, `checksum`
and `shared`, which are not initialised; when the playlist's revision is 0
the three values are stored in the playlist, else nothing is done ("Need to
merge"). -/
def playlist_parse_version (env : environment) (root : Option ezxml_root)
    (session : sp_session) (playlist : Nat) : sp_session :=
  match playlist_version_node root with
  | some txt =>
    let vals := sscanf_ints [some 10, some 10, some 10, none] txt
    let revision := vals.getD 0 env.stack.revision
    let checksum := vals.getD 2 env.stack.checksum
    let shared := vals.getD 3 env.stack.shared
    if (playlist_at session.playlists playlist).revision = 0 then
      playlist_store session playlist
        (fun p => { p with revision := revision, checksum := checksum, shared := shared })
    else session
  | none => session

/-- The tree `playlist_parse_xml` works on: the closing element is appended to
the playlist's buffer and the buffer parsed. -/
def playlist_parse_root (env : environment) (session : sp_session) (playlist : Nat) :
    Option ezxml_root :=
  env.ezxml_parse_str
    ((buf_append_data (playlist_at session.playlists playlist).buf "</playlist>".toList).getD [])

/-- Parse the reply to a playlist request or change (`playlist_parse_xml`):
name, shared flag, tracks, owner and version, in this order. Returns 0. -/
def playlist_parse_xml (env : environment) (session : sp_session) (playlist : Nat) :
    Int × sp_session :=
  let root := playlist_parse_root env session playlist
  let session := playlist_store session playlist
    (fun p => { p with buf := buf_append_data p.buf "</playlist>".toList })
  let session := playlist_parse_name env root session playlist
  let session := playlist_parse_pub root session playlist
  let session := playlist_parse_items env root session playlist
  let session := playlist_parse_user env root session playlist
  let session := playlist_parse_version env root session playlist
  (0, session)

/-- Initiate track browsing of a single playlist (`osfy_playlist_browse`): a
reference is added to each of the `num_tracks` tracks and a
`REQ_TYPE_BROWSE_PLAYLIST_TRACKS` request posted with the browse context. -/
def osfy_playlist_browse (env : environment) (session : sp_session) (playlist : Nat) :
    sp_session :=
  let p := playlist_at session.playlists playlist
  let session := (List.range p.num_tracks).foldl
    (fun s i => sp_track_add_ref s (p.tracks.getD i 0)) session
  let brctx : browse_callback_ctx :=
    { type := .REQ_TYPE_BROWSE_PLAYLIST_TRACKS, playlist := playlist,
      num_total := p.num_tracks, num_browsed := 0, num_in_request := 0 }
  request_post env.get_millisecs session brctx.type (.browse brctx)

/-- Callback for playlist buffering (`playlist_callback`); `req` is the
request of the callback context, whose input holds the playlist pointer. -/
def playlist_callback (env : environment) (session : sp_session) (req : Nat)
    (state : channel_state) (payload : List Char) : Int × sp_session :=
  match session.requests[req]? with
  | none => (0, session)
  | some r =>
    match r.input with
    | .playlist playlist =>
      match state with
      | .CHANNEL_DATA =>
        (0, playlist_store session playlist
          (fun p => { p with buf := buf_append_data p.buf payload }))
      | .CHANNEL_ERROR =>
        let r := { r with
          next_timeout :=
            int_wrap (env.get_millisecs + int_wrap (env.PLAYLIST_RETRY_TIMEOUT * 1000)) }
        let session := { session with requests := session.requests.set req r }
        (0, playlist_store session playlist (fun p => { p with buf := none }))
      | .CHANNEL_END =>
        let parsed := playlist_parse_xml env session playlist
        let session :=
          if parsed.1 = 0 then
            let session := playlist_store parsed.2 playlist
              (fun p => { p with state := .PLAYLIST_STATE_LISTED })
            let session := osfy_playlist_browse env session playlist
            request_set_result session req .SP_ERROR_OK (.playlist playlist)
          else parsed.2
        (0, playlist_store session playlist (fun p => { p with buf := none }))
      | _ => (0, session)
    | _ => (0, session)

/-- The declaration and opening root element the senders put in front of a
reply (`decl_and_root`). -/
def decl_and_root : List Char :=
  "<?xml version=\"1.0\" encoding=\"utf-8\" ?>\n<playlist>\n".toList

/-! ## Sending requests -/

/-- Modelled from the spec: `buf_new` of `buf.c` (not part of the sources at
hand) makes an empty growable buffer. -/
def buf_new : Option (List Char) := some []

/-- Modelled from the spec: `cmd_getplaylist` of `commands.c` (not part of the
sources at hand) writes a GETPLAYLIST command with the 17-byte id and the
revision mask and registers a channel with the callback and its context. The
status it returns is taken from the environment. -/
def cmd_getplaylist (env : environment) (session : sp_session) (id : List Nat)
    (revision : Nat) (callback : channel_callback) (req : Nat) : Int × sp_session :=
  (env.cmd_status,
   { session with commands := session.commands ++
       [command.getplaylist (id.take 17) revision callback req] })

/-- Modelled from the spec: `cmd_changeplaylist` of `commands.c` (not part of
the sources at hand) writes a CHANGEPLAYLIST command with the id, the XML of
the change, the base revision, the track count, the checksum and the shared
flag, and registers a channel with the callback and its context. -/
def cmd_changeplaylist (env : environment) (session : sp_session) (id : List Nat)
    (xml : List Char) (revision : Int) (num_tracks : Nat) (checksum : Int) (shared : Int)
    (callback : channel_callback) (req : Nat) : Int × sp_session :=
  (env.cmd_status,
   { session with commands := session.commands ++
       [command.changeplaylist (id.take 17) xml revision num_tracks checksum shared
         callback req] })

/-- Request playlist container (`playlistcontainer_send_request`): a new
buffer with the declaration, and `cmd_getplaylist` for the id of 17 zero
bytes with the mask `~0`. -/
def playlistcontainer_send_request (env : environment) (session : sp_session) (req : Nat) :
    Int × sp_session :=
  let pc := session.playlistcontainer
  let pc := { pc with buf := buf_append_data buf_new decl_and_root }
  let session := { session with playlistcontainer := pc }
  cmd_getplaylist env session (List.replicate 17 0) 0xffffffff
    .playlistcontainer_callback req

/-- Request a playlist from Spotify (`playlist_send_request`); the playlist is
the one the request's input points to. `none` when the input is not a pointer
to a playlist, through which the program reads. -/
def playlist_send_request (env : environment) (session : sp_session) (req : Nat) :
    Option (Int × sp_session) :=
  match (session.requests.getD req default).input with
  | .playlist playlist =>
    let session := playlist_store session playlist
      (fun p => { p with buf := buf_append_data buf_new decl_and_root })
    some (cmd_getplaylist env session (playlist_at session.playlists playlist).id 0xffffffff
      .playlist_callback req)
  | _ => none

/-- Request changes to be made on a playlist (`playlist_send_change`): the
pending buffer is sent with the playlist's revision, track count, checksum and
shared flag, then replaced by a new buffer with the declaration. `none` when
the input is not a pointer to a playlist or the playlist's `buf` is `NULL`,
as it is after a channel error: the program reads `playlist->buf->ptr`. -/
def playlist_send_change (env : environment) (session : sp_session) (req : Nat) :
    Option (Int × sp_session) :=
  match (session.requests.getD req default).input with
  | .playlist playlist =>
    let p := playlist_at session.playlists playlist
    match p.buf with
    | none => none
    | some xml =>
      let sent := cmd_changeplaylist env session p.id xml p.revision p.num_tracks
        p.checksum p.shared .playlist_callback req
      some (sent.1, playlist_store sent.2 playlist
        (fun p => { p with buf := buf_append_data buf_new decl_and_root }))
  | _ => none

/-- Store a new value in the request a pointer designates. -/
def request_store (session : sp_session) (req : Nat) (f : request → request) : sp_session :=
  match session.requests[req]? with
  | none => session
  | some r => { session with requests := session.requests.set req (f r) }

/-- Handle playlist loading event, called by the network thread
(`playlist_process`): a NEW request becomes RUNNING; while the request's
deadline lies after `get_millisecs()` nothing is done and 0 returned; else the
deadline is set to `INT_MAX` and the request handed to the sender of its type;
-1 for the other types. `none` when the sender reads through a `NULL`
pointer. -/
def playlist_process (env : environment) (session : sp_session) (req : Nat) :
    Option (Int × sp_session) :=
  let session :=
    if (session.requests.getD req default).state = .REQ_STATE_NEW then
      request_store session req (fun r => { r with state := .REQ_STATE_RUNNING })
    else session
  let now := env.get_millisecs
  if (session.requests.getD req default).next_timeout > now then some (0, session)
  else
    let session := request_store session req (fun r => { r with next_timeout := env.INT_MAX })
    let type := (session.requests.getD req default).type
    if type = .REQ_TYPE_PC_LOAD then some (playlistcontainer_send_request env session req)
    else if type = .REQ_TYPE_PLAYLIST_LOAD then playlist_send_request env session req
    else if type = .REQ_TYPE_PLAYLIST_CHANGE then playlist_send_change env session req
    else some (-1, session)

/-! ## Artists and albums -/

/-- Modelled from the spec: `hashtable_insert` of `hashtable.c` (not part of
the sources at hand) adds an entry to a table, a map from id to handle kept
as the list of its entries in insertion order. -/
def hashtable_insert {κ : Type} (table : List (κ × Nat)) (key : κ) (value : Nat) :
    List (κ × Nat) :=
  table ++ [(key, value)]

/-- Modelled from the spec: `hashtable_remove` of `hashtable.c` (not part of
the sources at hand) removes the entry of a key from a table. -/
def hashtable_remove {κ : Type} [DecidableEq κ] (table : List (κ × Nat)) (key : κ) :
    List (κ × Nat) :=
  table.filter (fun e => !decide (e.1 = key))

/-- The artist a pointer designates, `none` for a freed object. -/
def artist_at (session : sp_session) (artist : Nat) : Option sp_artist :=
  session.artists.getD artist none

/-- The count of references of an artist (`sp_artist_add_ref`). -/
def sp_artist_add_ref (session : sp_session) (artist : Nat) : sp_session :=
  match artist_at session artist with
  | none => session
  | some a =>
    let a := { a with ref_count := a.ref_count + 1 }
    { session with artists := session.artists.set artist (some a) }

/-- Find or create an artist (`osfy_artist_add`): the handle the artist table
holds for the id, or a new artist with the id, no name, not loaded and
`ref_count` 0, which is inserted in the table. -/
def osfy_artist_add (session : sp_session) (id : List Nat) : Nat × sp_session :=
  match hashtable_find session.hashtable_artists (id.take 16) with
  | some artist => (artist, session)
  | none =>
    let artist : sp_artist :=
      { id := id.take 16, name := none, is_loaded := false, ref_count := 0 }
    let ptr := session.artists.length
    (ptr, { session with
      artists := session.artists ++ [some artist],
      hashtable_artists := hashtable_insert session.hashtable_artists artist.id ptr })

/-- Free an artist (`osfy_artist_free`): `ref_count` is asserted to be 0, the
entry of the artist's id is removed from the table, then name and artist are
freed. `none` when the assertion fails or the object is not live. -/
def osfy_artist_free (session : sp_session) (artist : Nat) : Option sp_session :=
  match artist_at session artist with
  | none => none
  | some a =>
    if a.ref_count = 0 then
      some { session with
        hashtable_artists := hashtable_remove session.hashtable_artists a.id,
        artists := session.artists.set artist none }
    else none

/-- Release a reference to an artist (`sp_artist_release`): `ref_count` is
asserted to be positive and decremented; the artist is freed when the count
reaches 0. `none` when an assertion fails or the object is not live. -/
def sp_artist_release (session : sp_session) (artist : Nat) : Option sp_session :=
  match artist_at session artist with
  | none => none
  | some a =>
    if 0 < a.ref_count then
      let a := { a with ref_count := a.ref_count - 1 }
      let session := { session with artists := session.artists.set artist (some a) }
      if a.ref_count ≠ 0 then some session
      else osfy_artist_free session artist
    else none

/-- The album a pointer designates, `none` for a freed object. -/
def album_at (session : sp_session) (album : Nat) : Option sp_album :=
  session.albums.getD album none

/-- The count of references of an album (`sp_album_add_ref`). -/
def sp_album_add_ref (session : sp_session) (album : Nat) : sp_session :=
  match album_at session album with
  | none => session
  | some a =>
    let a := { a with ref_count := a.ref_count + 1 }
    { session with albums := session.albums.set album (some a) }

/-- Release a reference to an album (`sp_album_release`): `ref_count` is
decremented when it is not 0; nothing is deallocated ("FIXME: Deallocate here
when ref count reaches 0"). -/
def sp_album_release (session : sp_session) (album : Nat) : sp_session :=
  match album_at session album with
  | none => session
  | some a =>
    if a.ref_count ≠ 0 then
      let a := { a with ref_count := a.ref_count - 1 }
      { session with albums := session.albums.set album (some a) }
    else session

/-! ## The session -/

/-- The members of `sp_session_config` that `sp_session_init` checks; `none`
is a `NULL` pointer. -/
structure sp_session_config where
  api_version : Int
  user_agent : Option (List Char)
  application_key : Option (List Nat)
  application_key_size : Nat
  deriving DecidableEq, Repr, Inhabited

/-- What the system answers while `sp_session_init` sets the session up:
whether the two allocations it tests succeed, and whether the network thread
and the player could be started. -/
structure init_outcome where
  malloc_session : Bool
  malloc_user : Bool
  pthread_create : Bool
  player_init : Bool
  deriving DecidableEq, Repr, Inhabited

/-- Initialise a session (`sp_session_init`); `SPOTIFY_API_VERSION` is the
constant of `libspotify/api.h`. The result is the error returned and the
session stored in `*psession`, `none` when nothing is stored. -/
def sp_session_init (env : environment) (SPOTIFY_API_VERSION : Int) (sys : init_outcome)
    (config : Option sp_session_config) : sp_error × Option sp_session :=
  match config with
  | none => (.SP_ERROR_INVALID_INDATA, none)
  | some config =>
    if config.api_version < SPOTIFY_API_VERSION ∨ config.api_version > SPOTIFY_API_VERSION then
      (.SP_ERROR_BAD_API_VERSION, none)
    else if config.user_agent = none ∨ (config.user_agent.getD []).length > 4095 then
      (.SP_ERROR_BAD_USER_AGENT, none)
    else if config.application_key = none ∨ config.application_key_size ≠ 321 ∨
        (config.application_key.getD []).getD 0 0 ≠ 0x01 then
      (.SP_ERROR_BAD_APPLICATION_KEY, none)
    else if sys.malloc_session = false then (.SP_ERROR_API_INITIALIZATION_FAILED, none)
    else
      let session : sp_session := playlistcontainer_create default
      if sys.malloc_user = false then (.SP_ERROR_API_INITIALIZATION_FAILED, none)
      else if sys.pthread_create = false then (.SP_ERROR_OTHER_TRANSIENT, none)
      else if sys.player_init = false then (.SP_ERROR_OTHER_TRANSIENT, none)
      else
        (.SP_ERROR_OK,
         some (request_post env.get_millisecs session .REQ_TYPE_CACHE_PERIODIC .null))

/-- The size of a pointer, `sizeof(sp_track *)`, on an LP64 system. -/
def sizeof_pointer : Int := 8

/-- Modelled from the spec: `player_push` of `player.c` (not part of the
sources at hand) queues a command for the player thread. -/
def player_push (session : sp_session) (cmd : player_command_type) (data : Option Nat)
    (len : Int) : sp_session :=
  { session with player := session.player ++ [{ cmd := cmd, data := data, len := len }] }

/-- Modelled from the spec: `sp_track_is_loaded` of `sp_track.c` (not part of
the sources at hand) reads the track's loaded flag, as `sp_artist_is_loaded`
does for artists. -/
def sp_track_is_loaded (session : sp_session) (track : Nat) : Bool :=
  (track_at session.tracks track).is_loaded

/-- Modelled from the spec: `sp_track_is_available` of `sp_track.c` (not part
of the sources at hand) reads the track's availability. -/
def sp_track_is_available (session : sp_session) (track : Nat) : Bool :=
  (track_at session.tracks track).is_available

/-- Load a track into the player (`sp_session_player_load`); `none` is a
`NULL` session or track. The result is the error returned and the session
afterwards. -/
def sp_session_player_load (session : Option sp_session) (track : Option Nat) :
    sp_error × Option sp_session :=
  match session, track with
  | some s, some t =>
    if !sp_track_is_loaded s t then (.SP_ERROR_RESOURCE_NOT_LOADED, some s)
    else if !sp_track_is_available s t then (.SP_ERROR_TRACK_NOT_PLAYABLE, some s)
    else
      let s := player_push s .PLAYER_UNLOAD none 0
      let s := sp_track_add_ref s t
      let s := player_push s .PLAYER_LOAD (some t) sizeof_pointer
      (.SP_ERROR_OK, some s)
  | _, _ => (.SP_ERROR_INVALID_INDATA, session)

/-! ## Input formats -/

/-- The character of a decimal digit. -/
def digit_char (d : Nat) : Char := Char.ofNat (48 + d)

/-- A number written as ten decimal digits, zero-padded. -/
def pad10 (n : Nat) : List Char :=
  [n / 1000000000 % 10, n / 100000000 % 10, n / 10000000 % 10, n / 1000000 % 10,
   n / 100000 % 10, n / 10000 % 10, n / 1000 % 10, n / 100 % 10, n / 10 % 10, n % 10].map
    digit_char

/-- A version text `"r,i,c,0"` of three zero-padded 10-digit decimals. -/
def version_text (r i c : Nat) : List Char :=
  pad10 r ++ ',' :: (pad10 i ++ ',' :: (pad10 c ++ [',', '0']))

/-- An id list: the ids separated by one delimiter each, taken from `seps` in
order (a comma when `seps` runs out). -/
def join_ids : List (List Char) → List Char → List Char
  | [], _ => []
  | [id], _ => id
  | id :: ids, [] => id ++ ',' :: join_ids ids []
  | id :: ids, sep :: seps => id ++ sep :: join_ids ids seps

/-! ## Notions used in the statements -/

/-- Modelled from the spec: `PLAYLIST_RETRY_TIMEOUT` of `playlist.h` (not part
of the sources at hand), the retry delay of playlist loads in seconds: the
retry delay defaults to 30 seconds for playlist loads. -/
def PLAYLIST_RETRY_TIMEOUT : Int := 30

/-- The deadline the callbacks compute on a channel error,
`get_millisecs() + PLAYLIST_RETRY_TIMEOUT*1000` in `int` arithmetic. -/
def retry_deadline (env : environment) : Int :=
  int_wrap (env.get_millisecs + int_wrap (env.PLAYLIST_RETRY_TIMEOUT * 1000))

/-- The session with the deadline of a request reset for a retry. -/
def request_retry (env : environment) (s : sp_session) (req : Nat) : sp_session :=
  request_store s req (fun r => { r with next_timeout := retry_deadline env })

/-- The session with the buffer of the container freed. -/
def playlistcontainer_buf_free (s : sp_session) : sp_session :=
  let pc := s.playlistcontainer
  let pc := { pc with buf := none }
  { s with playlistcontainer := pc }

/-- The running sums stay below `BASE`. -/
def adler_ok (s : Nat × Nat) : Prop := s.1 < BASE ∧ s.2 < BASE

/-- The two sums Adler-32 keeps in a 32-bit state word. -/
def adler_unpack (adler : Nat) : Nat × Nat :=
  (adler &&& 0xffff, (adler >>> 16) &&& 0xffff)

/-- The invariant of the container: the count is the length of the array and
every entry points to a live playlist whose position leads back to it. -/
def container_ok (s : sp_session) : Prop :=
  s.playlistcontainer.num_playlists = s.playlistcontainer.playlists.length ∧
  ∀ ptr ∈ s.playlistcontainer.playlists, ptr < s.playlists.length ∧
    s.playlistcontainer.playlists[(playlist_at s.playlists ptr).position]? = some ptr

/-- The session after the first statement of `playlistcontainer_parse_xml`,
which appends the closing element to the buffer. -/
def playlistcontainer_parse_buf (s : sp_session) : sp_session :=
  { s with playlistcontainer :=
      { s.playlistcontainer with
        buf := buf_append_data s.playlistcontainer.buf "</playlist>".toList } }

/-- The object `playlist_create` makes for an id, once
`playlistcontainer_add_playlist` has set its position. -/
def added_playlist (id : List Nat) (position : Nat) : sp_playlist :=
  { id := id.take 17, name := [], description := none, image_id := [],
    owner := none, position := position, shared := 0, is_dirty := false, revision := 0,
    checksum := 0, num_tracks := 0, tracks := [],
    state := .PLAYLIST_STATE_ADDED, num_callbacks := 0, buf := none }

/-- The playlists created for a list of decoded ids, the first at position `k`. -/
def added_playlists (k : Nat) : List (List Nat) → List sp_playlist
  | [] => []
  | id :: ids => added_playlist id k :: added_playlists (k + 1) ids

/-- The `REQ_TYPE_PC_PLAYLIST_ADD` result posted for a position. -/
def added_result (position : Nat) : request :=
  { type := .REQ_TYPE_PC_PLAYLIST_ADD, state := .REQ_STATE_RETURNED, input := .null,
    output := .position position, error := .SP_ERROR_OK, next_timeout := 0 }

/-- The contents of the `id` buffer over the iterations of the container
loop: each token is decoded into the buffer of the iteration before. -/
def decode_ids (id : List Nat) : List (List Char) → List (List Nat)
  | [] => []
  | idstr :: rest => hex_ascii_to_buffer idstr id 17 :: decode_ids (hex_ascii_to_buffer idstr id 17) rest

/-- A text of 34 hexadecimal digits, the form of a playlist id in a reply. -/
def is_hex_id (idstr : List Char) : Prop :=
  idstr.length = 34 ∧ ∀ c ∈ idstr, (hex_value c).isSome = true

/-- A step from `s` to `s1` keeps the heap of playlists in place and, of every
playlist, the part `proj` looks at. -/
def keeps {α : Type} (proj : sp_playlist → α) (s s1 : sp_session) : Prop :=
  s1.playlists.length = s.playlists.length ∧
    ∀ ptr, proj (playlist_at s1.playlists ptr) = proj (playlist_at s.playlists ptr)

/-- The session after the first statement of `playlist_parse_xml`, which
appends the closing element to the playlist's buffer. -/
def playlist_parse_buf (session : sp_session) (playlist : Nat) : sp_session :=
  playlist_store session playlist
    (fun p => { p with buf := buf_append_data p.buf "</playlist>".toList })

/-- The session after the name section of `playlist_parse_xml`. -/
def playlist_parse_named (env : environment) (session : sp_session) (playlist : Nat) :
    sp_session :=
  playlist_parse_name env (playlist_parse_root env session playlist)
    (playlist_parse_buf session playlist) playlist

/-- The session after the section on the shared flag. -/
def playlist_parse_pubbed (env : environment) (session : sp_session) (playlist : Nat) :
    sp_session :=
  playlist_parse_pub (playlist_parse_root env session playlist)
    (playlist_parse_named env session playlist) playlist

/-- The session after the track loop. -/
def playlist_parse_listed (env : environment) (session : sp_session) (playlist : Nat) :
    sp_session :=
  playlist_parse_items env (playlist_parse_root env session playlist)
    (playlist_parse_pubbed env session playlist) playlist

/-- The session `playlist_parse_xml` hands to its version section. -/
def playlist_parse_before_version (env : environment) (session : sp_session)
    (playlist : Nat) : sp_session :=
  playlist_parse_user env (playlist_parse_root env session playlist)
    (playlist_parse_listed env session playlist) playlist

instance : DecidablePred is_hex_id := fun idstr => by
  unfold is_hex_id
  infer_instance

/-! ## Example data -/

/-- The two tracks of scenario S4: ids `0x00` sixteen times and `0x01` sixteen times. -/
def S4_tracks : List sp_track :=
  [{ id := List.replicate 16 0x00, is_loaded := false, is_available := false, ref_count := 1 },
   { id := List.replicate 16 0x01, is_loaded := false, is_available := false, ref_count := 1 }]

/-- The playlist of scenario S4, holding the two tracks in order. -/
def S4_playlist : sp_playlist :=
  { (default : sp_playlist) with num_tracks := 2, tracks := [0, 1] }

/-- The container of scenario S1 and its two playlists, ids `0xaa` sixteen
times then `0x01`, and `0xbb` sixteen times then `0x01`. -/
def S1_playlists : List sp_playlist :=
  [{ (default : sp_playlist) with id := List.replicate 16 0xaa ++ [0x01], position := 0 },
   { (default : sp_playlist) with id := List.replicate 16 0xbb ++ [0x01], position := 1 }]

/-- The container of scenario S1 after the load. -/
def S1_container : sp_playlistcontainer :=
  { (default : sp_playlistcontainer) with num_playlists := 2, playlists := [0, 1] }

/-- A session that holds three playlists on the heap and nothing else. -/
def three_playlists : sp_session :=
  { (default : sp_session) with playlists := [default, default, default] }

/-- Stack contents used in the examples. -/
def example_stack : stack_values :=
  { id := List.replicate 17 0xee, track_id := List.replicate 16 0xee,
    revision := -1, num_items := -1, checksum := -1, shared := -1,
    browse_id := List.replicate 16 0xee }

/-- An element with text content, or nothing for an absent node. -/
def render_node (tag : String) (txt : Option (List Char)) : List Char :=
  match txt with
  | none => []
  | some t => ("<" ++ tag ++ ">").toList ++ t ++ ("</" ++ tag ++ ">").toList

/-- A reply fragment in which the lookups of the parsers find the texts of `root`. -/
def render (root : ezxml_root) : List Char :=
  "<next-change><change><ops>".toList ++ render_node "name" root.name ++
    render_node "pub" root.pub ++
    (match root.items with
     | none => []
     | some t => "<add>".toList ++ render_node "items" (some t) ++ "</add>".toList) ++
    "</ops>".toList ++ render_node "user" root.user ++ "</change>".toList ++
    render_node "version" root.version ++ "</next-change>".toList ++
    (match root.confirm_version with
     | none => []
     | some t => "<confirm>".toList ++ render_node "version" (some t) ++ "</confirm>".toList)

/-- An environment whose parser knows one document, the rendering of `root`
between the root element's tags, and yields no tree for any other text; no
payload decompresses. -/
def example_env (root : ezxml_root) : environment :=
  { ezxml_parse_str := fun doc =>
      if doc = decl_and_root ++ render root ++ "</playlist>".toList then some root else none,
    get_millisecs := 5000,
    PLAYLIST_RETRY_TIMEOUT := 30,
    INT_MAX := 2147483647,
    sizeof_name := 256,
    stack := example_stack,
    cmd_status := 0,
    despotify_inflate := fun _ => none }

/-- A session whose container awaits a reply: `payload` has been buffered
after the declaration; request 0 is the running `REQ_TYPE_PC_LOAD`. -/
def container_loading (payload : List Char) : sp_session :=
  let pc : sp_playlistcontainer :=
    { (default : sp_playlistcontainer) with buf := some (decl_and_root ++ payload) }
  let req : request :=
    { type := .REQ_TYPE_PC_LOAD, state := .REQ_STATE_RUNNING, input := .null,
      output := .null, error := .SP_ERROR_OK, next_timeout := 2147483647 }
  { (default : sp_session) with playlistcontainer := pc, requests := [req] }

/-- A session with one playlist, id `aa..aa01`, of the given revision, that
awaits a reply: `payload` has been buffered after the declaration; request 0
is the running request of the given type for the playlist. -/
def playlist_loading (type : request_type) (revision : Int) (payload : List Char) :
    sp_session :=
  let playlist : sp_playlist :=
    { added_playlist (List.replicate 16 0xaa ++ [0x01]) 0 with
      revision := revision, buf := some (decl_and_root ++ payload) }
  let req : request :=
    { type := type, state := .REQ_STATE_RUNNING, input := .playlist 0,
      output := .null, error := .SP_ERROR_OK, next_timeout := 2147483647 }
  { (default : sp_session) with playlists := [playlist], requests := [req] }

/-- A reply tree with a version text and nothing else. -/
def version_root (version : List Char) : ezxml_root :=
  { name := none, pub := none, items := none, user := none, version := some version,
    confirm_version := none }

/-- The tree of the container reply of scenario S1. -/
def S1_root : ezxml_root :=
  { version_root "0000000003,0000000002,0000001234,0".toList with
    items := some
      "aaaaaaaaaaaaaaaaaaaaaaaaaaaaaaaa01,bbbbbbbbbbbbbbbbbbbbbbbbbbbbbbbb01".toList }

/-- The tree of a container reply whose revision has ten digits and does not
fit 32 bits. -/
def big_revision_root : ezxml_root :=
  version_root "9999999999,0000000002,0000001234,0".toList

/-- The tree of the playlist reply of scenario S2. -/
def S2_root : ezxml_root :=
  { name := some "Mix".toList, pub := some "1".toList,
    items := some
      "cccccccccccccccccccccccccccccccc00,dddddddddddddddddddddddddddddddd00".toList,
    user := none,
    version := some "0000000007,0000000002,0000000ABC,1".toList,
    confirm_version := none }

/-- A payload that is not well-formed XML; the parser of the example
environments yields no tree for it. -/
def malformed_payload : List Char := "<next-change><oops".toList

/-- The environment of the examples at the last millisecond an `int` holds. -/
def late_env : environment :=
  { example_env S2_root with get_millisecs := 2147483647 }

/-- A step from `s` to `s1` leaves the requests of the queue in place and
appends requests that satisfy `P`. -/
def posts (P : request → Prop) (s s1 : sp_session) : Prop :=
  ∃ posted, s1.requests = s.requests ++ posted ∧ ∀ x ∈ posted, P x

/-- The request `osfy_playlist_browse` posts for a playlist of `num_tracks`
tracks. -/
def browse_request (env : environment) (playlist : Nat) (num_tracks : Nat) : request :=
  { type := .REQ_TYPE_BROWSE_PLAYLIST_TRACKS, state := .REQ_STATE_NEW,
    input := .browse
      { type := .REQ_TYPE_BROWSE_PLAYLIST_TRACKS, playlist := playlist,
        num_total := num_tracks, num_browsed := 0, num_in_request := 0 },
    output := .null, error := .SP_ERROR_OK, next_timeout := env.get_millisecs }

/-- The ids of the handles a container holds, in container order. -/
def container_ids (s : sp_session) : List (List Nat) :=
  s.playlistcontainer.playlists.map (fun ptr => (playlist_at s.playlists ptr).id)

/-- The tree of a container reply that lists one id twice. -/
def repeated_id_root : ezxml_root :=
  { version_root "0000000003,0000000002,0000001234,0".toList with
    items := some
      "aaaaaaaaaaaaaaaaaaaaaaaaaaaaaaaa01,aaaaaaaaaaaaaaaaaaaaaaaaaaaaaaaa01".toList }

/-- The container of scenario S1 loaded a second time: after the first load
the request is sent again, the same reply buffered and the channel ended. -/
def S1_loaded_twice : sp_session :=
  let s1 := (playlistcontainer_callback (example_env S1_root)
    (container_loading (render S1_root)) 0 .CHANNEL_END []).2
  let s2 := (playlistcontainer_send_request (example_env S1_root) s1 0).2
  let s3 := (playlistcontainer_callback (example_env S1_root) s2 0 .CHANNEL_DATA
    (render S1_root)).2
  (playlistcontainer_callback (example_env S1_root) s3 0 .CHANNEL_END []).2

/-- A session whose artist table holds one artist, id `0x11` sixteen times,
with the given count of references. -/
def one_artist (ref_count : Nat) : sp_session :=
  { (default : sp_session) with
    artists := [some { id := List.replicate 16 0x11, name := some "Ace".toList,
                       is_loaded := true, ref_count := ref_count }],
    hashtable_artists := [(List.replicate 16 0x11, 0)] }

/-- A session whose album table holds one album, id `0x22` sixteen times,
with the given count of references. -/
def one_album (ref_count : Nat) : sp_session :=
  { (default : sp_session) with
    albums := [some { (default : sp_album) with id := List.replicate 16 0x22,
                                                ref_count := ref_count }],
    hashtable_albums := [(List.replicate 16 0x22, 0)] }

/-- The session with a new value for an artist object and a new artist table. -/
def artist_store (s : sp_session) (artist : Nat) (x : Option sp_artist)
    (table : List (List Nat × Nat)) : sp_session :=
  { s with artists := s.artists.set artist x, hashtable_artists := table }

/-- A configuration that passes the checks of `sp_session_init` for API
version 3, at their limits: a user agent of 4095 bytes and a key of 321 bytes
that starts with `0x01`. -/
def good_config : sp_session_config :=
  { api_version := 3,
    user_agent := some (List.replicate 4095 'a'),
    application_key := some (0x01 :: List.replicate 320 0x5a),
    application_key_size := 321 }

/-- A system on which every step of `sp_session_init` succeeds. -/
def good_system : init_outcome :=
  { malloc_session := true, malloc_user := true, pthread_create := true, player_init := true }

/-- A session with one track, loaded and available, with two references. -/
def one_track : sp_session :=
  { (default : sp_session) with
    tracks := [{ id := List.replicate 16 0x44, is_loaded := true, is_available := true,
                 ref_count := 2 }],
    hashtable_tracks := [(List.replicate 16 0x44, 0)] }

/-- The session with a new value for the request at index `req`. -/
def requests_set (s : sp_session) (req : Nat) (r : request) : sp_session :=
  { s with requests := s.requests.set req r }

/-- The request after the first statement of `playlist_process`: a NEW
request has become RUNNING. -/
def promoted (r : request) : request :=
  { r with state := if r.state = .REQ_STATE_NEW then .REQ_STATE_RUNNING else r.state }

/-- A session with one playlist and one request for it, of the given type,
state and deadline. -/
def one_request (type : request_type) (state : request_state) (next_timeout : Int) :
    sp_session :=
  let req : request :=
    { type := type, state := state, input := .playlist 0, output := .null,
      error := .SP_ERROR_OK, next_timeout := next_timeout }
  { (default : sp_session) with
    playlists := [added_playlist (List.replicate 16 0xaa ++ [0x01]) 0], requests := [req] }

/-- The request `playlistcontainer_request_playlists` posts for a playlist. -/
def load_request (env : environment) (playlist : Nat) : request :=
  { type := .REQ_TYPE_PLAYLIST_LOAD, state := .REQ_STATE_NEW, input := .playlist playlist,
    output := .null, error := .SP_ERROR_OK, next_timeout := env.get_millisecs }

/-- The `n` bytes `strncpy(dest, src, n)` writes to `dest`: the characters of
the C string `src` followed by zeros, or the first `n` characters when the
string is longer. -/
def strncpy (src : List Char) (n : Nat) : List Char :=
  (src ++ List.replicate n (Char.ofNat 0)).take n

/-- The `name` array of a playlist after the two statements of
`playlist_set_name`: `sizeof(playlist->name) - 1` bytes written by `strncpy`
and the zero stored in the last byte. -/
def name_array (env : environment) (name : List Char) : List Char :=
  strncpy name (env.sizeof_name - 1) ++ [Char.ofNat 0]

/-- The C string an array holds: the characters before the first zero. -/
def c_string (array : List Char) : List Char :=
  array.takeWhile (fun c => c != Char.ofNat 0)

/-- The result `playlist_set_name` posts for a playlist. -/
def rename_result (playlist : Nat) : request :=
  { type := .REQ_TYPE_PLAYLIST_RENAME, state := .REQ_STATE_RETURNED, input := .null,
    output := .playlist playlist, error := .SP_ERROR_OK, next_timeout := 0 }

/-- The `ref_count` of the track a pointer designates. -/
def ref_count_of (s : sp_session) (track : Nat) : Nat :=
  (track_at s.tracks track).ref_count

/-- The invariant of the track table: every entry points into the heap of
tracks. -/
def tracks_ok (s : sp_session) : Prop :=
  ∀ e ∈ s.hashtable_tracks, e.2 < s.tracks.length

/-- Which function pointers of the session's `sp_session_callbacks` are set. -/
structure sp_session_callbacks where
  logged_in : Bool
  logged_out : Bool
  play_token_lost : Bool
  message_to_user : Bool
  metadata_updated : Bool
  deriving DecidableEq, Repr, Inhabited

/-- Which function pointers of one `sp_playlistcontainer_callbacks` are set. -/
structure sp_playlistcontainer_callbacks where
  container_loaded : Bool
  playlist_added : Bool
  deriving DecidableEq, Repr, Inhabited

/-- Which function pointers of one `sp_playlist_callbacks` are set. -/
structure sp_playlist_callbacks where
  playlist_renamed : Bool
  playlist_state_changed : Bool
  tracks_added : Bool
  deriving DecidableEq, Repr, Inhabited

/-- The callbacks the embedding application has registered: those of the
session, the array `callbacks` of the container, the array `callbacks` of
every playlist, and whether the `callback` member of the browse, search or
image object an output points to is set. -/
structure registered where
  callbacks : sp_session_callbacks
  pc_callbacks : List sp_playlistcontainer_callbacks
  playlist_callbacks : Nat → List sp_playlist_callbacks
  output_callback : request_data → Bool

/-- A call of a function of the embedding application. -/
inductive callback_call where
  | logged_in (error : sp_error)
  | logged_out
  | play_token_lost
  | message_to_user (output : request_data)
  | container_loaded (i : Nat)
  | playlist_added (i : Nat) (playlist : Nat) (position : Nat)
  | playlist_renamed (playlist : Nat) (i : Nat)
  | playlist_state_changed (playlist : Nat) (i : Nat)
  | tracks_added (playlist : Nat) (i : Nat) (num_tracks : Nat)
  | metadata_updated
  | output_callback (output : request_data)
  deriving DecidableEq, Repr, Inhabited

/-- A step of `sp_session_process_events` that is seen from outside: a request
fetched, a callback called, a request marked as processed. -/
inductive process_step where
  | request_fetch_next_result (req : Nat)
  | callback (call : callback_call)
  | request_mark_processed (req : Nat)
  deriving DecidableEq, Repr, Inhabited

/-- The first request in state RETURNED among `requests`, whose first element
has index `k`. -/
def fetch_from (k : Nat) : List request → Option Nat
  | [] => none
  | r :: rs => if r.state = .REQ_STATE_RETURNED then some k else fetch_from (k + 1) rs

/-- Modelled from the spec: `request_fetch_next_result` of `request.c` (not
part of the sources at hand) returns the next request in state RETURNED,
`none` when there is none. The timeout it then writes to its out-parameter is
left out. -/
def request_fetch_next_result (session : sp_session) : Option Nat :=
  fetch_from 0 session.requests

/-- The request after `request_mark_processed`: RETURNED has become
PROCESSED. -/
def processed (r : request) : request :=
  if r.state = .REQ_STATE_RETURNED then { r with state := .REQ_STATE_PROCESSED } else r

/-- Modelled from the spec: `request_mark_processed` of `request.c` (not part
of the sources at hand) moves a request from RETURNED to PROCESSED. -/
def request_mark_processed (session : sp_session) (req : Nat) : sp_session :=
  request_store session req processed

/-- The position a `REQ_TYPE_PC_PLAYLIST_ADD` output points to (0 for an
output of another kind, which the program does not store for this type). -/
def output_position (output : request_data) : Nat :=
  match output with
  | .position value => value
  | _ => 0

/-- The playlist an output points to (0 for an output of another kind). -/
def output_playlist (output : request_data) : Nat :=
  match output with
  | .playlist ptr => ptr
  | _ => 0

/-- The loop of the case `REQ_TYPE_PLAYLIST_STATE_CHANGED`: the first playlist
of the container whose id equals, in its 17 bytes, the bytes the output
points to (none for an output of another kind). -/
def find_playlist_by_id (session : sp_session) (output : request_data) : Option Nat :=
  let pc := session.playlistcontainer
  match output with
  | .id bytes =>
    ((List.range pc.num_playlists).find?
      (fun i => decide ((playlist_at session.playlists (pc.playlists.getD i 0)).id.take 17 =
        bytes.take 17))).map (fun i => pc.playlists.getD i 0)
  | _ => none

/-- The calls of the callbacks of a playlist for which `set` holds, in the
order of the array. -/
def playlist_calls (reg : registered) (session : sp_session) (playlist : Nat)
    (set : sp_playlist_callbacks → Bool) (call : Nat → callback_call) : List callback_call :=
  (List.range (playlist_at session.playlists playlist).num_callbacks).filterMap
    (fun i => if set ((reg.playlist_callbacks playlist).getD i default) then some (call i)
      else none)

/-- The `switch` of `sp_session_process_events`: the callbacks called for a
fetched request, in order. -/
def process_events_switch (reg : registered) (session : sp_session) (request : request) :
    List callback_call :=
  let pc := session.playlistcontainer
  match request.type with
  | .REQ_TYPE_LOGIN =>
    if reg.callbacks.logged_in then [.logged_in request.error] else []
  | .REQ_TYPE_LOGOUT =>
    if reg.callbacks.logged_out then [.logged_out] else []
  | .REQ_TYPE_PLAY_TOKEN_LOST =>
    if reg.callbacks.play_token_lost then [.play_token_lost] else []
  | .REQ_TYPE_NOTIFY =>
    if reg.callbacks.message_to_user then [.message_to_user request.output] else []
  | .REQ_TYPE_PC_LOAD =>
    (List.range pc.num_callbacks).filterMap
      (fun i => if (reg.pc_callbacks.getD i default).container_loaded then
        some (.container_loaded i) else none)
  | .REQ_TYPE_PC_PLAYLIST_ADD =>
    let value := output_position request.output
    let playlist := pc.playlists.getD value 0
    (List.range pc.num_callbacks).filterMap
      (fun i => if (reg.pc_callbacks.getD i default).playlist_added then
        some (.playlist_added i playlist value) else none)
  | .REQ_TYPE_PLAYLIST_RENAME =>
    let playlist := output_playlist request.output
    playlist_calls reg session playlist (·.playlist_renamed) (.playlist_renamed playlist)
  | .REQ_TYPE_PLAYLIST_STATE_CHANGED =>
    match find_playlist_by_id session request.output with
    | none => []
    | some playlist =>
      playlist_calls reg session playlist (·.playlist_state_changed)
        (.playlist_state_changed playlist)
  | .REQ_TYPE_PLAYLIST_LOAD =>
    let playlist := output_playlist request.output
    playlist_calls reg session playlist (·.tracks_added)
      (fun i => .tracks_added playlist i (playlist_at session.playlists playlist).num_tracks)
  | .REQ_TYPE_ALBUMBROWSE =>
    if reg.output_callback request.output then [.output_callback request.output] else []
  | .REQ_TYPE_ARTISTBROWSE =>
    if reg.output_callback request.output then [.output_callback request.output] else []
  | .REQ_TYPE_BROWSE_ALBUM =>
    if reg.callbacks.metadata_updated then [.metadata_updated] else []
  | .REQ_TYPE_BROWSE_ARTIST =>
    if reg.callbacks.metadata_updated then [.metadata_updated] else []
  | .REQ_TYPE_BROWSE_TRACK =>
    if reg.callbacks.metadata_updated then [.metadata_updated] else []
  | .REQ_TYPE_BROWSE_PLAYLIST_TRACKS =>
    if reg.callbacks.metadata_updated then [.metadata_updated] else []
  | .REQ_TYPE_TOPLISTBROWSE =>
    if reg.output_callback request.output then [.output_callback request.output] else []
  | .REQ_TYPE_SEARCH =>
    if reg.output_callback request.output then [.output_callback request.output] else []
  | .REQ_TYPE_IMAGE =>
    if reg.output_callback request.output then [.output_callback request.output] else []
  | _ => []

/-- The event loop of the main thread (`sp_session_process_events`): while
`request_fetch_next_result` returns a request, the callbacks of its type are
called and the request is marked as processed. The callbacks are functions
of the embedding application; they are recorded and taken not to touch the
session. `fuel` bounds the number of iterations; `none` when it is used up.
The result is the sequence of steps and the session afterwards. -/
def sp_session_process_events (reg : registered) :
    Nat → sp_session → Option (List process_step × sp_session)
  | 0, _ => none
  | fuel + 1, session =>
    match request_fetch_next_result session with
    | none => some ([], session)
    | some req =>
      let request := session.requests.getD req default
      let calls := process_events_switch reg session request
      let session := request_mark_processed session req
      (sp_session_process_events reg fuel session).map
        (fun rest =>
          (process_step.request_fetch_next_result req :: calls.map process_step.callback ++
            process_step.request_mark_processed req :: rest.1, rest.2))

/-- The indices of the requests in state RETURNED among `requests`, whose
first element has index `k`. -/
def returned_from (k : Nat) : List request → List Nat
  | [] => []
  | r :: rs =>
    if r.state = .REQ_STATE_RETURNED then k :: returned_from (k + 1) rs
    else returned_from (k + 1) rs

/-- The requests of a session that await delivery, in queue order. -/
def returned (session : sp_session) : List Nat :=
  returned_from 0 session.requests

/-- The steps of one iteration of the event loop for the request `req`. -/
def delivery (reg : registered) (session : sp_session) (req : Nat) : List process_step :=
  process_step.request_fetch_next_result req ::
    (process_events_switch reg session (session.requests.getD req default)).map
      process_step.callback ++ [process_step.request_mark_processed req]

/-- The session in which every request in state RETURNED has become PROCESSED. -/
def all_processed (session : sp_session) : sp_session :=
  { session with requests := session.requests.map processed }

/-- The request a step marks as processed. -/
def marked (step : process_step) : Option Nat :=
  match step with
  | .request_mark_processed req => some req
  | _ => none

/-- The request a step fetches. -/
def fetched (step : process_step) : Option Nat :=
  match step with
  | .request_fetch_next_result req => some req
  | _ => none

/-- An application that has registered one container callback structure with
both functions set and no session callback. -/
def example_registered : registered :=
  { callbacks := { logged_in := false, logged_out := false, play_token_lost := false,
                   message_to_user := false, metadata_updated := false },
    pc_callbacks := [{ container_loaded := true, playlist_added := true }],
    playlist_callbacks := fun _ => [],
    output_callback := fun _ => false }

/-- A queue with three results and a request that is still running: a login
result (its callback is not set), the result of a user lookup (a type the
event loop has no case for), a running playlist load and the result of the
container load. -/
def events_example : sp_session :=
  let result (type : request_type) : request :=
    { type := type, state := .REQ_STATE_RETURNED, input := .null, output := .null,
      error := .SP_ERROR_OK, next_timeout := 0 }
  let running : request :=
    { type := .REQ_TYPE_PLAYLIST_LOAD, state := .REQ_STATE_RUNNING, input := .playlist 0,
      output := .null, error := .SP_ERROR_OK, next_timeout := 2147483647 }
  let pc : sp_playlistcontainer := { (default : sp_playlistcontainer) with num_callbacks := 1 }
  { (default : sp_session) with
    playlistcontainer := pc,
    requests := [result .REQ_TYPE_LOGIN, result .REQ_TYPE_USER, running,
      { result .REQ_TYPE_PC_LOAD with output := .playlistcontainer }] }

/-! ## Browsing the tracks of a playlist -/

/-- Modelled from the spec: `osfy_track_free` of `track.c` (not part of the
sources at hand) removes the entry of the track's id from the track table and
frees the track, as `osfy_artist_free` does for artists. -/
def osfy_track_free (session : sp_session) (track : Nat) : sp_session :=
  { session with
    hashtable_tracks := hashtable_remove session.hashtable_tracks (track_at session.tracks track).id,
    freed_tracks := session.freed_tracks ++ [track] }

/-- Modelled from the spec: `sp_track_release` of `sp_track.c` (not part of
the sources at hand) decrements the track's `ref_count` and frees the track
at zero, removing the table entry first, as `sp_artist_release` does for
artists. `none` for a track that has no reference to release. -/
def sp_track_release (session : sp_session) (track : Nat) : Option sp_session :=
  match session.tracks[track]? with
  | none => none
  | some t =>
    if 0 < t.ref_count then
      let t := { t with ref_count := t.ref_count - 1 }
      let session := { session with tracks := session.tracks.set track t }
      if t.ref_count ≠ 0 then some session
      else some (osfy_track_free session track)
    else none

/-- Modelled from the spec: `osfy_track_load_from_xml` of `track.c` (not part
of the sources at hand) fills the track in from a `track` element; the track
is loaded afterwards. -/
def osfy_track_load_from_xml (session : sp_session) (track : Nat) (_track_node : track_node) :
    sp_session :=
  match session.tracks[track]? with
  | none => session
  | some t => { session with tracks := session.tracks.set track { t with is_loaded := true } }

/-- The statements `osfy_playlist_browse_callback` runs for the id element
and for every redirect element of a `track` element: the text is decoded into
the buffer `id`, the track of that id is looked up with `osfy_track_add`, and
loaded from the element unless it is loaded already. -/
def browse_track_id (track_node : track_node) (st : List Nat × sp_session) (txt : List Char) :
    List Nat × sp_session :=
  let id := hex_ascii_to_buffer txt st.1 16
  let added := osfy_track_add st.2 id
  if !sp_track_is_loaded added.2 added.1 then
    (id, osfy_track_load_from_xml added.2 added.1 track_node)
  else (id, added.2)

/-- The body of the loop of `osfy_playlist_browse_callback` over the `track`
elements: the id element, then the redirect elements. `none` for an element
without id, whose text the program reads through a `NULL` pointer. -/
def browse_track_node (st : List Nat × sp_session) (track_node : track_node) :
    Option (List Nat × sp_session) :=
  match track_node.id with
  | none => none
  | some txt =>
    some (track_node.redirect.foldl (browse_track_id track_node)
      (browse_track_id track_node st txt))

/-- The last loop of `osfy_playlist_browse_callback`: "Release references
made in osfy_playlist_browse()". -/
def browse_release (session : sp_session) (brctx : browse_callback_ctx) : Option sp_session :=
  (List.range brctx.num_in_request).foldlM
    (fun s i => sp_track_release s
      ((playlist_at s.playlists brctx.playlist).tracks.getD (brctx.num_browsed + i) 0))
    session

/-- The parser of a browse reply (`osfy_playlist_browse_callback`); `buf` is
the payload the request processor has stored in the context. The payload is
decompressed and parsed (-1 without a tree), the tracks listed are looked up
and loaded, and the references of the batch are released. `none` when the
program reads through a `NULL` pointer or releases a track that has no
reference. -/
def osfy_playlist_browse_callback (env : environment) (session : sp_session)
    (brctx : browse_callback_ctx) (buf : List Nat) : Option (Int × sp_session) :=
  match env.despotify_inflate buf with
  | none => none
  | some xml =>
    match env.ezxml_parse_str xml with
    | none => some (-1, session)
    | some root =>
      match root.tracks.foldlM browse_track_node (env.stack.browse_id, session) with
      | none => none
      | some st => (browse_release st.2 brctx).map (fun s => (0, s))

/-- A step from `s` to `s1` that looks tracks up and loads them: the playlists
stay as they are, no `ref_count` changes, the heap of tracks does not shrink
and no track is freed. -/
def looks_up (s s1 : sp_session) : Prop :=
  s1.playlists = s.playlists ∧ (∀ x, ref_count_of s1 x = ref_count_of s x) ∧
    s.tracks.length ≤ s1.tracks.length ∧ s1.freed_tracks = s.freed_tracks

/-- A payload that decompresses to a document the XML parser accepts and in
which every `track` element has an id. -/
def good_reply (env : environment) (buf : List Nat) : Prop :=
  ∃ xml root, env.despotify_inflate buf = some xml ∧ env.ezxml_parse_str xml = some root ∧
    ∀ node ∈ root.tracks, node.id ≠ none

/-- The context of a browse of the tracks of a playlist, as
`osfy_playlist_browse` makes it, for the batch of `k` tracks after the first
`b`. -/
def browse_context (playlist num_total b k : Nat) : browse_callback_ctx :=
  { type := .REQ_TYPE_BROWSE_PLAYLIST_TRACKS, playlist := playlist, num_total := num_total,
    num_browsed := b, num_in_request := k }

/-- Modelled from the spec: the browse driver of `browse.c` (not part of the
sources at hand) sends the ids in batches and calls the parser for the reply
to each batch, with `num_browsed` the number of ids of the batches before and
`num_in_request` the size of the batch. A batch is its size and the payload
of its reply; `none` when a run of the parser is not successful. -/
def browse_batches (env : environment) (playlist num_total : Nat) :
    List (Nat × List Nat) → Nat → sp_session → Option sp_session
  | [], _, session => some session
  | batch :: rest, b, session =>
    match osfy_playlist_browse_callback env session
      (browse_context playlist num_total b batch.1) batch.2 with
    | none => none
    | some r =>
      if r.1 = 0 then browse_batches env playlist num_total rest (b + batch.1) r.2 else none

/-- A session with one playlist of three entries, the track `cc..cc`, the
track `dd..dd` and the track `cc..cc` again; the tracks hold the references
of the playlist, two and one. -/
def two_tracks : sp_session :=
  let playlist : sp_playlist :=
    { added_playlist (List.replicate 16 0xaa ++ [0x01]) 0 with
      tracks := [0, 1, 0], num_tracks := 3, state := .PLAYLIST_STATE_LISTED }
  { (default : sp_session) with
    playlists := [playlist],
    tracks := [{ id := List.replicate 16 0xcc, is_loaded := false, is_available := false,
                 ref_count := 2 },
               { id := List.replicate 16 0xdd, is_loaded := false, is_available := false,
                 ref_count := 1 }],
    hashtable_tracks := [(List.replicate 16 0xcc, 0), (List.replicate 16 0xdd, 1)] }

/-- The tree of a browse reply with one `track` element: the track `cc..cc`
with a redirect from `ee..ee`. -/
def browse_reply_root : ezxml_root :=
  { name := none, pub := none, items := none, user := none, version := none,
    confirm_version := none,
    tracks := [{ id := some "cccccccccccccccccccccccccccccccc".toList,
                 redirect := ["eeeeeeeeeeeeeeeeeeeeeeeeeeeeeeee".toList] }] }

/-- The payload of the example's browse replies. -/
def browse_payload : List Nat := "<tracks/>".toList.map Char.toNat

/-- An environment in which a payload decompresses to its own bytes and the
parser yields the tree of the example for the payload of the example. -/
def browse_env : environment :=
  { example_env S2_root with
    despotify_inflate := fun buf => some (buf.map Char.ofNat),
    ezxml_parse_str := fun doc =>
      if doc = "<tracks/>".toList then some browse_reply_root else none }

/-! ## Properties -/

theorem adler32_step_ok (s : Nat × Nat) (b : Nat) : adler_ok (adler32_step s b) := by
  unfold adler_ok adler32_step BASE
  constructor <;> exact Nat.mod_lt _ (by norm_num)

theorem adler32_foldl_ok (buf : List Nat) (s : Nat × Nat) (h : adler_ok s) :
    adler_ok (buf.foldl adler32_step s) := by
  induction buf generalizing s with
  | nil => simpa using h
  | cons b bs ih => exact ih _ (adler32_step_ok s b)

/-- Packing two sums below `BASE` and splitting the word again gives the sums back. -/
theorem adler_unpack_pack (s : Nat × Nat) (h : adler_ok s) :
    ((s.1 ||| (s.2 <<< 16)) &&& 0xffff, ((s.1 ||| (s.2 <<< 16)) >>> 16) &&& 0xffff) = s := by
  obtain ⟨a, b⟩ := s
  obtain ⟨ha, hb⟩ := h
  simp only [BASE] at ha hb
  have hpack : a ||| (b <<< 16) = 2 ^ 16 * b + a := by
    rw [Nat.shiftLeft_eq, Nat.mul_comm, Nat.lor_comm]
    exact (Nat.mul_add_lt_is_or (by omega) b).symm
  have hmask : ∀ x : Nat, x &&& 0xffff = x % 2 ^ 16 := fun x =>
    Nat.and_pow_two_sub_one_eq_mod x 16
  simp only [hpack, hmask, Nat.shiftRight_eq_div_pow]
  ext <;> simp <;> omega

theorem adler32_eq_pack (a : Nat) (xs : List Nat) :
    adler32 a xs = (xs.foldl adler32_step (adler_unpack a)).1 |||
      ((xs.foldl adler32_step (adler_unpack a)).2 <<< 16) := rfl

theorem adler_pack_lt (s : Nat × Nat) (h : adler_ok s) : s.1 ||| (s.2 <<< 16) < 2 ^ 32 := by
  obtain ⟨a, b⟩ := s
  obtain ⟨ha, hb⟩ := h
  simp only [BASE] at ha hb
  have hpack : a ||| (b <<< 16) = 2 ^ 16 * b + a := by
    rw [Nat.shiftLeft_eq, Nat.mul_comm, Nat.lor_comm]
    exact (Nat.mul_add_lt_is_or (by omega) b).symm
  simp only [hpack]
  omega

/-- Feeding a buffer in two calls, the intermediate value stored in an
`unsigned int`, is feeding the concatenation in one call. -/
theorem adler32_append (a : Nat) (xs ys : List Nat) (h : adler_ok (adler_unpack a)) :
    adler32 (adler32 a xs % 2 ^ 32) ys = adler32 a (xs ++ ys) ∧
      adler_ok (adler_unpack (adler32 a xs % 2 ^ 32)) := by
  have hok := adler32_foldl_ok xs _ h
  have hlt := adler_pack_lt _ hok
  have hun := adler_unpack_pack _ hok
  rw [adler32_eq_pack a xs, Nat.mod_eq_of_lt hlt]
  have hun2 : adler_unpack ((xs.foldl adler32_step (adler_unpack a)).1 |||
      ((xs.foldl adler32_step (adler_unpack a)).2 <<< 16)) =
      xs.foldl adler32_step (adler_unpack a) := hun
  refine ⟨?_, by rw [hun2]; exact hok⟩
  rw [adler32_eq_pack, adler32_eq_pack, hun2, List.foldl_append]

/-- The checksum loops: `n` chunks fed one call at a time from state 1 give
the Adler-32 of the concatenated chunks. -/
theorem adler32_chunks (chunk : Nat → List Nat) (n : Nat) :
    (List.range n).foldl (fun c i => adler32 c (chunk i) % 2 ^ 32) 1 =
        adler32 1 ((List.range n).flatMap chunk) ∧
      adler_ok (adler_unpack ((List.range n).foldl (fun c i => adler32 c (chunk i) % 2 ^ 32) 1)) := by
  have h1 : adler_ok (adler_unpack 1) := by
    unfold adler_ok adler_unpack BASE
    decide
  induction n with
  | zero =>
    refine ⟨?_, by simpa using h1⟩
    simp [adler32, adler32_step]
  | succ k ih =>
    obtain ⟨ih1, ih2⟩ := ih
    rw [List.range_succ, List.foldl_append, List.flatMap_append]
    simp only [List.foldl_cons, List.foldl_nil, List.flatMap_cons, List.flatMap_nil,
      List.append_nil]
    rw [ih1]
    have key := adler32_append 1 ((List.range k).flatMap chunk) (chunk k) h1
    have hlt : ∀ xs, adler32 1 xs < 2 ^ 32 := fun xs => by
      rw [adler32_eq_pack]
      exact adler_pack_lt _ (adler32_foldl_ok _ _ h1)
    rw [Nat.mod_eq_of_lt (hlt _)] at key
    have hfin := (adler32_append 1 ((List.range k).flatMap chunk ++ chunk k) [] h1).2
    rw [key.1]
    exact ⟨Nat.mod_eq_of_lt (hlt _), hfin⟩

/-- Reading a list through its indices gives the list back. -/
theorem flatMap_range_getD {α β : Type} (l : List α) (d : α) (f : α → List β) :
    (List.range l.length).flatMap (fun i => f (l.getD i d)) = l.flatMap f := by
  induction l using List.reverseRecOn with
  | nil => simp
  | append_singleton xs x ih =>
    rw [List.length_append, List.length_singleton, List.range_succ, List.flatMap_append,
      List.flatMap_append]
    congr 1
    · rw [← ih]
      apply List.flatMap_congr
      intro i hi
      rw [List.mem_range] at hi
      simp [List.getD_eq_getElem?_getD, List.getElem?_append_left hi]
    · simp [List.getD_eq_getElem?_getD]

/-- Claim C1. `playlist_checksum` of a null playlist or of a playlist without
tracks is 1, and for a playlist whose `num_tracks` entries point to tracks
with 16-byte ids it is the Adler-32, from state 1, of the concatenation over
the tracks in list order of the track id followed by the byte `0x01`. -/
theorem playlist_checksum_adler32 :
    (∀ tracks, playlist_checksum tracks none = 1) ∧
    (∀ tracks p, p.num_tracks = 0 → playlist_checksum tracks (some p) = 1) ∧
    (∀ tracks p, p.num_tracks = p.tracks.length →
      (∀ ptr ∈ p.tracks, ∃ t, tracks[ptr]? = some t ∧ t.id.length = 16) →
      playlist_checksum tracks (some p) =
        adler32 1 (p.tracks.flatMap (fun ptr => (track_at tracks ptr).id ++ [0x01]))) := by
  refine ⟨fun _ => rfl, ?_, ?_⟩
  · intro tracks p h0
    simp [playlist_checksum, h0]
  · intro tracks p hn hid
    have h := (adler32_chunks
      (fun i => (track_at tracks (p.tracks.getD i 0)).id.take 16 ++ [0x01]) p.num_tracks).1
    have hdef : playlist_checksum tracks (some p) =
        (List.range p.num_tracks).foldl (fun c i => adler32 c
          ((track_at tracks (p.tracks.getD i 0)).id.take 16 ++ [0x01]) % 2 ^ 32) 1 := rfl
    rw [hdef, h, hn,
      flatMap_range_getD p.tracks 0 (fun ptr => (track_at tracks ptr).id.take 16 ++ [0x01])]
    congr 1
    apply List.flatMap_congr
    intro ptr hptr
    obtain ⟨t, ht, hlen⟩ := hid ptr hptr
    have : track_at tracks ptr = t := by
      simp [track_at, List.getD_eq_getElem?_getD, ht]
    rw [this, List.take_of_length_le (by omega)]

/-- Scenario S4 as an instance of claim C1: the checksum of the playlist with
track ids `0x00*16` and `0x01*16` is 13434899. -/
theorem playlist_checksum_adler32_S4 :
    playlist_checksum S4_tracks (some S4_playlist) = 13434899 := by
  rw [playlist_checksum_adler32.2.2 S4_tracks S4_playlist rfl (by decide)]
  decide

/-- Claim C2. `playlistcontainer_checksum` of a null or empty container is 1,
and for a container with `num_playlists` entries it is the Adler-32, from
state 1, of the concatenation over the playlists in container order of the
first 16 bytes of the playlist id followed by the byte `0x02`. -/
theorem playlistcontainer_checksum_adler32 :
    (∀ playlists, playlistcontainer_checksum playlists none = 1) ∧
    (∀ playlists c, c.num_playlists = 0 → playlistcontainer_checksum playlists (some c) = 1) ∧
    (∀ playlists c, c.num_playlists = c.playlists.length →
      playlistcontainer_checksum playlists (some c) =
        adler32 1 (c.playlists.flatMap
          (fun ptr => (playlist_at playlists ptr).id.take 16 ++ [0x02]))) := by
  refine ⟨fun _ => rfl, ?_, ?_⟩
  · intro playlists c h0
    simp [playlistcontainer_checksum, h0]
  · intro playlists c hn
    have h := (adler32_chunks
      (fun i => (playlist_at playlists (c.playlists.getD i 0)).id.take 16 ++ [0x02])
      c.num_playlists).1
    have hdef : playlistcontainer_checksum playlists (some c) =
        (List.range c.num_playlists).foldl (fun chk i => adler32 chk
          ((playlist_at playlists (c.playlists.getD i 0)).id.take 16 ++ [0x02]) % 2 ^ 32) 1 :=
      rfl
    rw [hdef, h, hn, flatMap_range_getD c.playlists 0
      (fun ptr => (playlist_at playlists ptr).id.take 16 ++ [0x02])]

/-- The container of scenario S1 as an instance of claim C2: the 17th id byte
`0x01` of the two playlists does not enter the checksum, which is 2297370197. -/
theorem playlistcontainer_checksum_adler32_S1 :
    playlistcontainer_checksum S1_playlists (some S1_container) = 2297370197 ∧
    playlistcontainer_checksum S1_playlists (some S1_container) =
      adler32 1 (List.replicate 16 0xaa ++ [0x02] ++ (List.replicate 16 0xbb ++ [0x02])) := by
  rw [playlistcontainer_checksum_adler32.2.2 S1_playlists S1_container rfl]
  decide

theorem playlistcontainer_add_playlist_eq (s : sp_session) (q : Nat)
    (hn : s.playlistcontainer.num_playlists = s.playlistcontainer.playlists.length)
    (hq : q < s.playlists.length) :
    (playlistcontainer_add_playlist s q).playlistcontainer =
        { s.playlistcontainer with
          playlists := s.playlistcontainer.playlists ++ [q],
          num_playlists := s.playlistcontainer.num_playlists + 1 } ∧
      (playlistcontainer_add_playlist s q).playlists =
        s.playlists.set q
          { playlist_at s.playlists q with position := s.playlistcontainer.num_playlists } ∧
      (playlistcontainer_add_playlist s q).requests = s.requests ++
        [{ type := .REQ_TYPE_PC_PLAYLIST_ADD, state := .REQ_STATE_RETURNED, input := .null,
           output := .position s.playlistcontainer.num_playlists, error := .SP_ERROR_OK,
           next_timeout := 0 }] ∧
      (playlistcontainer_add_playlist s q).tracks = s.tracks ∧
      (playlistcontainer_add_playlist s q).hashtable_tracks = s.hashtable_tracks ∧
      (playlistcontainer_add_playlist s q).users = s.users ∧
      (playlistcontainer_add_playlist s q).hashtable_users = s.hashtable_users := by
  have hget : s.playlists[q]? = some (playlist_at s.playlists q) := by
    simp [playlist_at, List.getD_eq_getElem?_getD, List.getElem?_eq_getElem hq]
  have hself : playlist_at (s.playlists.set q
      { playlist_at s.playlists q with position := s.playlistcontainer.playlists.length }) q =
      { playlist_at s.playlists q with position := s.playlistcontainer.playlists.length } := by
    simp only [playlist_at, List.getD_eq_getElem?_getD, List.getElem?_set, hq, if_true,
      Option.getD_some]
  simp only [playlistcontainer_add_playlist, playlist_store, request_post_result, hget, hn,
    List.take_length, hself]
  simp

theorem container_ok_add (s : sp_session) (q : Nat) (h : container_ok s)
    (hq : q < s.playlists.length) : container_ok (playlistcontainer_add_playlist s q) := by
  obtain ⟨hn, hp⟩ := h
  obtain ⟨hpc, hheap, -⟩ := playlistcontainer_add_playlist_eq s q hn hq
  unfold container_ok
  rw [hpc, hheap]
  refine ⟨by simp [hn], ?_⟩
  intro ptr hptr
  simp only [List.mem_append, List.mem_singleton] at hptr
  simp only [List.length_set]
  by_cases hpq : ptr = q
  · subst hpq
    refine ⟨hq, ?_⟩
    simp [playlist_at, List.getD_eq_getElem?_getD, List.getElem?_set, hq, hn]
  · have hmem : ptr ∈ s.playlistcontainer.playlists := by
      rcases hptr with h1 | h1
      · exact h1
      · exact absurd h1 hpq
    obtain ⟨hlt, hpos⟩ := hp ptr hmem
    refine ⟨hlt, ?_⟩
    have hsame : playlist_at (s.playlists.set q
        { playlist_at s.playlists q with position := s.playlistcontainer.num_playlists }) ptr =
        playlist_at s.playlists ptr := by
      simp [playlist_at, List.getD_eq_getElem?_getD, List.getElem?_set, Ne.symm hpq]
    rw [hsame]
    have hposlt : (playlist_at s.playlists ptr).position < s.playlistcontainer.playlists.length := by
      by_contra hc
      rw [List.getElem?_eq_none (by omega)] at hpos
      exact absurd hpos (by simp)
    rw [List.getElem?_append_left hposlt]
    exact hpos

theorem container_ok_foldl (ps : List Nat) (s : sp_session) (h : container_ok s)
    (hps : ∀ p ∈ ps, p < s.playlists.length) :
    container_ok (ps.foldl playlistcontainer_add_playlist s) ∧
      (ps.foldl playlistcontainer_add_playlist s).playlistcontainer.playlists =
        s.playlistcontainer.playlists ++ ps ∧
      (ps.foldl playlistcontainer_add_playlist s).playlists.length = s.playlists.length := by
  induction ps generalizing s with
  | nil => simpa using h
  | cons q qs ih =>
    have hq : q < s.playlists.length := hps q (List.mem_cons_self _ _)
    obtain ⟨hpc, hheap, -⟩ := playlistcontainer_add_playlist_eq s q h.1 hq
    have hlen : (playlistcontainer_add_playlist s q).playlists.length = s.playlists.length := by
      rw [hheap, List.length_set]
    have hqs : ∀ p ∈ qs, p < (playlistcontainer_add_playlist s q).playlists.length := by
      intro p hp
      rw [hlen]
      exact hps p (List.mem_cons_of_mem _ hp)
    obtain ⟨h1, h2, h3⟩ := ih _ (container_ok_add s q h hq) hqs
    rw [List.foldl_cons]
    refine ⟨h1, ?_, by rw [h3, hlen]⟩
    rw [h2, hpc]
    simp

/-- Claim C3. After `playlistcontainer_create` and any sequence of
`playlistcontainer_add_playlist` calls on live playlists, the container holds
the playlists passed, in call order; `num_playlists` is the number of calls;
and every entry `p` of the container satisfies `playlists[p->position] == p`. -/
theorem playlistcontainer_position_invariant (s0 : sp_session) (ps : List Nat)
    (hps : ∀ p ∈ ps, p < s0.playlists.length) :
    (ps.foldl playlistcontainer_add_playlist
        (playlistcontainer_create s0)).playlistcontainer.num_playlists = ps.length ∧
    (ps.foldl playlistcontainer_add_playlist
        (playlistcontainer_create s0)).playlistcontainer.playlists = ps ∧
    ∀ ptr ∈ (ps.foldl playlistcontainer_add_playlist
        (playlistcontainer_create s0)).playlistcontainer.playlists,
      (ps.foldl playlistcontainer_add_playlist
        (playlistcontainer_create s0)).playlistcontainer.playlists[(playlist_at
          (ps.foldl playlistcontainer_add_playlist
            (playlistcontainer_create s0)).playlists ptr).position]? = some ptr := by
  have h0 : container_ok (playlistcontainer_create s0) := by
    simp [container_ok, playlistcontainer_create]
  obtain ⟨⟨hn, hp⟩, hpl, -⟩ := container_ok_foldl ps (playlistcontainer_create s0) h0 hps
  have hpl2 : (ps.foldl playlistcontainer_add_playlist
      (playlistcontainer_create s0)).playlistcontainer.playlists = ps := by
    rw [hpl]
    simp [playlistcontainer_create]
  refine ⟨by rw [hn, hpl2], hpl2, fun ptr hptr => (hp ptr hptr).2⟩

/-- An instance of claim C3 in which one playlist is added twice: pointers 0,
2, 0 are added to a fresh container over three playlists; the count is 3 and
the entry at index 0 has position 2, where the same pointer is stored. -/
theorem playlistcontainer_position_invariant_example :
    (∀ p ∈ [0, 2, 0], p < three_playlists.playlists.length) ∧
    ([0, 2, 0].foldl playlistcontainer_add_playlist
        (playlistcontainer_create three_playlists)).playlistcontainer.num_playlists = 3 ∧
    (playlist_at ([0, 2, 0].foldl playlistcontainer_add_playlist
        (playlistcontainer_create three_playlists)).playlists 0).position = 2 :=
  ⟨by decide,
   (playlistcontainer_position_invariant three_playlists [0, 2, 0] (by decide)).1,
   by decide⟩

/-! ### Scanning the version -/

theorem digit_char_spec (d : Nat) (h : d < 10) :
    (digit_char d).isDigit = true ∧ (digit_char d).toNat - 48 = d ∧
      isspace (digit_char d) = false ∧ digit_char d ≠ '-' ∧ digit_char d ≠ '+' := by
  interval_cases d <;> decide

theorem int_store_of_lt (v : Nat) (h : v < 2 ^ 31) : int_store v = v := by
  unfold int_store
  simp only []
  omega

theorem scan_digits_map (ds : List Nat) (hds : ∀ d ∈ ds, d < 10) (acc : Nat)
    (rest : List Char) :
    scan_digits ds.length acc (ds.map digit_char ++ rest) =
      (ds.foldl (fun a d => 10 * a + d) acc, rest) := by
  induction ds generalizing acc with
  | nil => simp [scan_digits]
  | cons d ds ih =>
    have hd := digit_char_spec d (hds d (List.mem_cons_self _ _))
    simp only [List.length_cons, List.map_cons, List.cons_append, scan_digits, hd.1, hd.2.1,
      if_true, List.foldl_cons]
    exact ih (fun x hx => hds x (List.mem_cons_of_mem _ hx)) _

theorem scan_digits_pad10 (n : Nat) (h : n < 10 ^ 10) (rest : List Char) :
    scan_digits 10 0 (pad10 n ++ rest) = (n, rest) := by
  have key := scan_digits_map
    [n / 1000000000 % 10, n / 100000000 % 10, n / 10000000 % 10, n / 1000000 % 10,
     n / 100000 % 10, n / 10000 % 10, n / 1000 % 10, n / 100 % 10, n / 10 % 10, n % 10]
    (by
      intro d hd
      simp only [List.mem_cons, List.mem_singleton, List.not_mem_nil, or_false] at hd
      omega) 0 rest
  simp only [List.length_cons, List.length_nil, List.foldl_cons, List.foldl_nil] at key
  rw [show pad10 n = List.map digit_char
    [n / 1000000000 % 10, n / 100000000 % 10, n / 10000000 % 10, n / 1000000 % 10,
     n / 100000 % 10, n / 10000 % 10, n / 1000 % 10, n / 100 % 10, n / 10 % 10, n % 10]
    from rfl]
  rw [key]
  simp only [Prod.mk.injEq, and_true]
  omega

theorem scan_int_pad10 (n : Nat) (h : n < 10 ^ 10) (rest : List Char) :
    scan_int (some 10) (pad10 n ++ rest) = some (int_store n, rest) := by
  have hd := digit_char_spec (n / 1000000000 % 10) (Nat.mod_lt _ (by norm_num))
  have hpad : pad10 n ++ rest = digit_char (n / 1000000000 % 10) ::
      ((pad10 n).tail ++ rest) := rfl
  have hscan := scan_digits_pad10 n h rest
  rw [hpad] at hscan ⊢
  simp only [scan_int, List.dropWhile_cons, hd.2.2.1, Option.getD_some]
  show (if _ then _ else if _ then _ else _) = _
  rw [if_neg (by simp [hd.2.2.2.1, hd.2.2.2.2]), if_pos ⟨hd.1, by norm_num⟩, hscan]

/-- The three values `"%010d,%010d,%010d,0"` stores for a text of three
zero-padded 10-digit decimals followed by `",0"`. -/
theorem sscanf_ints_version_text (r i c : Nat) (hr : r < 10 ^ 10) (hi : i < 10 ^ 10)
    (hc : c < 10 ^ 10) :
    sscanf_ints [some 10, some 10, some 10] (version_text r i c) =
      [int_store r, int_store i, int_store c] := by
  simp only [version_text, sscanf_ints, scan_int_pad10 _ hr, scan_int_pad10 _ hi,
    scan_int_pad10 _ hc]

theorem playlistcontainer_parse_xml_eq (env : environment) (s : sp_session) :
    (playlistcontainer_parse_xml env s).2 =
      playlistcontainer_parse_version (playlistcontainer_parse_root env s)
        (playlistcontainer_parse_items env (playlistcontainer_parse_root env s)
          (playlistcontainer_parse_buf s)) := rfl

/-- The version section of the container parser stores the first and third
value scanned, keeps the field when the value was not scanned, and touches
nothing else. -/
theorem playlistcontainer_parse_version_some (root : Option ezxml_root) (s : sp_session)
    (txt : List Char) (h : ezxml_get root (·.version) = some txt) :
    (playlistcontainer_parse_version root s).playlistcontainer.revision =
        (sscanf_ints [some 10, some 10, some 10] txt).getD 0 s.playlistcontainer.revision ∧
      (playlistcontainer_parse_version root s).playlistcontainer.checksum =
        (sscanf_ints [some 10, some 10, some 10] txt).getD 2 s.playlistcontainer.checksum ∧
      (playlistcontainer_parse_version root s).playlistcontainer.playlists =
        s.playlistcontainer.playlists ∧
      (playlistcontainer_parse_version root s).playlistcontainer.num_playlists =
        s.playlistcontainer.num_playlists ∧
      (playlistcontainer_parse_version root s).playlists = s.playlists ∧
      (playlistcontainer_parse_version root s).requests = s.requests := by
  unfold playlistcontainer_parse_version
  rw [h]
  exact ⟨rfl, rfl, rfl, rfl, rfl, rfl⟩

theorem playlistcontainer_parse_version_none (root : Option ezxml_root) (s : sp_session)
    (h : ezxml_get root (·.version) = none) :
    playlistcontainer_parse_version root s = s := by
  unfold playlistcontainer_parse_version
  rw [h]

/-- Claim C5, amended. For a `next-change/version` text of three zero-padded
10-digit decimals `r`, `i`, `c`, each below `2^31`, followed by `",0"`,
`playlistcontainer_parse_xml` stores `revision = r` and `checksum = c`. -/
theorem playlistcontainer_parse_xml_version (env : environment) (s : sp_session)
    (root : ezxml_root) (r i c : Nat) (hr : r < 2 ^ 31) (hi : i < 2 ^ 31) (hc : c < 2 ^ 31)
    (hroot : playlistcontainer_parse_root env s = some root)
    (hver : root.version = some (version_text r i c)) :
    (playlistcontainer_parse_xml env s).2.playlistcontainer.revision = r ∧
      (playlistcontainer_parse_xml env s).2.playlistcontainer.checksum = c := by
  have hv := sscanf_ints_version_text r i c (by omega) (by omega) (by omega)
  have hget : ezxml_get (playlistcontainer_parse_root env s) (·.version) =
      some (version_text r i c) := by
    rw [hroot]
    exact hver
  obtain ⟨h1, h2, -⟩ := playlistcontainer_parse_version_some _
    (playlistcontainer_parse_items env (playlistcontainer_parse_root env s)
      (playlistcontainer_parse_buf s)) _ hget
  rw [playlistcontainer_parse_xml_eq, h1, h2, hv]
  simp [int_store_of_lt r hr, int_store_of_lt c hc]

set_option maxRecDepth 100000 in
/-- Scenario S1 as an instance of claim C5: the version text
`"0000000003,0000000002,0000001234,0"` gives revision 3 and checksum
1234 = 0x4d2. -/
theorem playlistcontainer_parse_xml_version_S1 :
    (playlistcontainer_parse_xml (example_env S1_root)
        (container_loading (render S1_root))).2.playlistcontainer.revision = 3 ∧
      (playlistcontainer_parse_xml (example_env S1_root)
        (container_loading (render S1_root))).2.playlistcontainer.checksum = 0x4d2 :=
  playlistcontainer_parse_xml_version (example_env S1_root)
    (container_loading (render S1_root)) S1_root 3 2 1234 (by norm_num) (by norm_num) (by norm_num)
    (by decide) (by decide)

set_option maxRecDepth 100000 in
/-- Claim C5 as stated fails for a 10-digit decimal that does not fit the
32-bit `int`: for the version text `"9999999999,0000000002,0000001234,0"` the
stored revision is 1410065407, not 9999999999. -/
theorem playlistcontainer_parse_xml_version_overflow :
    (playlistcontainer_parse_xml (example_env big_revision_root)
        (container_loading (render big_revision_root))).2.playlistcontainer.revision = 1410065407 ∧
      big_revision_root.version = some (version_text 9999999999 2 1234) := by
  decide

/-! ### Tokens and ids -/

theorem strtok_loop_token (id : List Char) (hid : ∀ c ∈ id, is_delim c = false)
    (tok rest : List Char) : strtok_loop (id ++ rest) tok = strtok_loop rest (tok ++ id) := by
  induction id generalizing tok with
  | nil => simp
  | cons c cs ih =>
    have hc : is_delim c = false := hid c (List.mem_cons_self _ _)
    have h := ih (fun x hx => hid x (List.mem_cons_of_mem _ hx)) (tok ++ [c])
    simp only [List.append_assoc, List.singleton_append] at h
    simp only [List.cons_append, strtok_loop, hc, Bool.false_eq_true, if_false]
    exact h

/-- The tokens of a list of non-empty ids without delimiters, separated by
one delimiter each, are the ids. -/
theorem strtok_join_ids (ids : List (List Char)) (seps : List Char)
    (hids : ∀ id ∈ ids, id ≠ [] ∧ ∀ c ∈ id, is_delim c = false)
    (hseps : ∀ c ∈ seps, is_delim c = true) : strtok (join_ids ids seps) = ids := by
  unfold strtok
  induction ids generalizing seps with
  | nil => simp [join_ids, strtok_loop]
  | cons id ids ih =>
    obtain ⟨hne, hnd⟩ := hids id (List.mem_cons_self _ _)
    have hrest : ∀ x ∈ ids, x ≠ [] ∧ ∀ c ∈ x, is_delim c = false :=
      fun x hx => hids x (List.mem_cons_of_mem _ hx)
    have hempty : id.isEmpty = false := by
      cases id with
      | nil => exact absurd rfl hne
      | cons _ _ => rfl
    cases ids with
    | nil =>
      have h := strtok_loop_token id hnd [] []
      simp only [List.append_nil, List.nil_append] at h
      simp [join_ids, h, strtok_loop, hempty]
    | cons id2 ids2 =>
      cases seps with
      | nil =>
        have h := strtok_loop_token id hnd [] (',' :: join_ids (id2 :: ids2) [])
        simp only [List.nil_append] at h
        have hd : is_delim ',' = true := by decide
        simp only [join_ids, h, strtok_loop, hd, if_true, hempty, Bool.false_eq_true, if_false]
        rw [ih [] hrest (by simp)]
      | cons sep seps2 =>
        have h := strtok_loop_token id hnd [] (sep :: join_ids (id2 :: ids2) seps2)
        simp only [List.nil_append] at h
        have hd : is_delim sep = true := hseps sep (List.mem_cons_self _ _)
        simp only [join_ids, h, strtok_loop, hd, if_true, hempty, Bool.false_eq_true, if_false]
        rw [ih seps2 hrest (fun c hc => hseps c (List.mem_cons_of_mem _ hc))]

theorem hex_value_not_delim (c : Char) (h : (hex_value c).isSome = true) :
    is_delim c = false := by
  by_contra hd
  have hd2 : is_delim c = true := by simpa using hd
  simp only [is_delim, Bool.or_eq_true, beq_iff_eq] at hd2
  rcases hd2 with rfl | rfl
  · exact absurd h (by decide)
  · exact absurd h (by decide)

/-- A text of at least `2 * len` hexadecimal digits decodes to `len` bytes. -/
theorem hex_ascii_to_bytes_some (len : Nat) (ascii : List Char) (hlen : 2 * len ≤ ascii.length)
    (hhex : ∀ c ∈ ascii, (hex_value c).isSome = true) :
    ∃ bytes, hex_ascii_to_bytes ascii len = some bytes ∧ bytes.length = len := by
  induction len generalizing ascii with
  | zero => exact ⟨[], by simp [hex_ascii_to_bytes], rfl⟩
  | succ n ih =>
    match ascii, hlen, hhex with
    | hi :: lo :: rest, hlen, hhex =>
      obtain ⟨h, hh⟩ := Option.isSome_iff_exists.mp (hhex hi (by simp))
      obtain ⟨l, hl⟩ := Option.isSome_iff_exists.mp (hhex lo (by simp))
      obtain ⟨bytes, hb, hbl⟩ := ih rest (by simp only [List.length_cons] at hlen; omega)
        (fun c hc => hhex c (by simp [hc]))
      exact ⟨(16 * h + l) :: bytes, by simp [hex_ascii_to_bytes, hh, hl, hb], by simp [hbl]⟩
    | [_], hlen, _ =>
      simp only [List.length_cons, List.length_nil] at hlen
      omega
    | [], hlen, _ =>
      simp only [List.length_nil] at hlen
      omega

/-! ### The container loop -/

/-- One iteration of the container loop: a playlist with the decoded id is
appended to the heap, its pointer to the container, and one result posted. -/
theorem playlistcontainer_parse_item_eq (id : List Nat) (s : sp_session) (idstr : List Char)
    (hn : s.playlistcontainer.num_playlists = s.playlistcontainer.playlists.length) :
    (playlistcontainer_parse_item (id, s) idstr).1 = hex_ascii_to_buffer idstr id 17 ∧
      (playlistcontainer_parse_item (id, s) idstr).2.playlistcontainer =
        { s.playlistcontainer with
          playlists := s.playlistcontainer.playlists ++ [s.playlists.length],
          num_playlists := s.playlistcontainer.num_playlists + 1 } ∧
      (playlistcontainer_parse_item (id, s) idstr).2.playlists =
        s.playlists ++ [added_playlist (hex_ascii_to_buffer idstr id 17)
          s.playlistcontainer.num_playlists] ∧
      (playlistcontainer_parse_item (id, s) idstr).2.requests =
        s.requests ++ [added_result s.playlistcontainer.num_playlists] ∧
      (playlistcontainer_parse_item (id, s) idstr).2.tracks = s.tracks ∧
      (playlistcontainer_parse_item (id, s) idstr).2.hashtable_tracks = s.hashtable_tracks ∧
      (playlistcontainer_parse_item (id, s) idstr).2.users = s.users ∧
      (playlistcontainer_parse_item (id, s) idstr).2.hashtable_users = s.hashtable_users := by
  have hq : (playlist_create s (hex_ascii_to_buffer idstr id 17)).1 <
      (playlist_create s (hex_ascii_to_buffer idstr id 17)).2.playlists.length := by
    simp [playlist_create]
  obtain ⟨h1, h2, h3, h4, h5, h6, h7⟩ := playlistcontainer_add_playlist_eq
    (playlist_create s (hex_ascii_to_buffer idstr id 17)).2
    (playlist_create s (hex_ascii_to_buffer idstr id 17)).1 hn hq
  refine ⟨rfl, ?_, ?_, ?_, ?_, ?_, ?_, ?_⟩
  · exact h1
  · rw [show (playlistcontainer_parse_item (id, s) idstr).2.playlists = _ from h2]
    simp [playlist_create, playlist_at, added_playlist]
  · exact h3
  · exact h4
  · exact h5
  · exact h6
  · exact h7

theorem playlistcontainer_parse_items_foldl (toks : List (List Char)) (id : List Nat)
    (s : sp_session)
    (hn : s.playlistcontainer.num_playlists = s.playlistcontainer.playlists.length) :
    (toks.foldl playlistcontainer_parse_item (id, s)).2.playlistcontainer =
        { s.playlistcontainer with
          playlists := s.playlistcontainer.playlists ++
            List.range' s.playlists.length toks.length,
          num_playlists := s.playlistcontainer.num_playlists + toks.length } ∧
      (toks.foldl playlistcontainer_parse_item (id, s)).2.playlists =
        s.playlists ++ added_playlists s.playlistcontainer.num_playlists (decode_ids id toks) ∧
      (toks.foldl playlistcontainer_parse_item (id, s)).2.requests =
        s.requests ++ (List.range' s.playlistcontainer.num_playlists toks.length).map
          added_result ∧
      (toks.foldl playlistcontainer_parse_item (id, s)).2.tracks = s.tracks ∧
      (toks.foldl playlistcontainer_parse_item (id, s)).2.hashtable_tracks =
        s.hashtable_tracks ∧
      (toks.foldl playlistcontainer_parse_item (id, s)).2.users = s.users ∧
      (toks.foldl playlistcontainer_parse_item (id, s)).2.hashtable_users =
        s.hashtable_users := by
  induction toks generalizing id s with
  | nil => simp [decode_ids, added_playlists]
  | cons t ts ih =>
    obtain ⟨e1, e2, e3, e4, e5, e6, e7, e8⟩ := playlistcontainer_parse_item_eq id s t hn
    have hn2 : (playlistcontainer_parse_item (id, s) t).2.playlistcontainer.num_playlists =
        (playlistcontainer_parse_item (id, s) t).2.playlistcontainer.playlists.length := by
      rw [e2]
      simp [hn]
    have hstate : playlistcontainer_parse_item (id, s) t =
        ((playlistcontainer_parse_item (id, s) t).1,
          (playlistcontainer_parse_item (id, s) t).2) := rfl
    rw [List.foldl_cons, hstate]
    obtain ⟨i1, i2, i3, i4, i5, i6, i7⟩ := ih (playlistcontainer_parse_item (id, s) t).1
      (playlistcontainer_parse_item (id, s) t).2 hn2
    refine ⟨?_, ?_, ?_, by rw [i4, e5], by rw [i5, e6], by rw [i6, e7], by rw [i7, e8]⟩
    · rw [i1, e2, e3]
      simp [List.range'_succ, Nat.add_assoc, Nat.add_comm 1]
    · rw [i2, e2, e3, e1]
      simp [decode_ids, added_playlists]
    · rw [i3, e2, e4]
      simp [List.range'_succ]

/-- For ids that are hexadecimal texts the decoded ids do not depend on the
initial contents of the buffer. -/
theorem decode_ids_hex (ids : List (List Char)) (id : List Nat)
    (hids : ∀ idstr ∈ ids, is_hex_id idstr) :
    decode_ids id ids = ids.map (fun idstr => (hex_ascii_to_bytes idstr 17).getD []) ∧
      ∀ idstr ∈ ids, ∃ bytes, hex_ascii_to_bytes idstr 17 = some bytes ∧ bytes.length = 17 := by
  induction ids generalizing id with
  | nil => simp [decode_ids]
  | cons t ts ih =>
    obtain ⟨hl, hh⟩ := hids t (List.mem_cons_self _ _)
    obtain ⟨bytes, hb, hbl⟩ := hex_ascii_to_bytes_some 17 t (by omega) hh
    obtain ⟨ih1, ih2⟩ := ih (hex_ascii_to_buffer t id 17)
      (fun x hx => hids x (List.mem_cons_of_mem _ hx))
    refine ⟨?_, ?_⟩
    · simp only [decode_ids, List.map_cons, ih1]
      simp [hex_ascii_to_buffer, hb]
    · intro x hx
      rcases List.mem_cons.mp hx with rfl | hx
      · exact ⟨bytes, hb, hbl⟩
      · exact ih2 x hx

/-- The version section of the container parser leaves playlists and requests alone. -/
theorem playlistcontainer_parse_version_frame (root : Option ezxml_root) (s : sp_session) :
    (playlistcontainer_parse_version root s).playlistcontainer.playlists =
        s.playlistcontainer.playlists ∧
      (playlistcontainer_parse_version root s).playlistcontainer.num_playlists =
        s.playlistcontainer.num_playlists ∧
      (playlistcontainer_parse_version root s).playlists = s.playlists ∧
      (playlistcontainer_parse_version root s).requests = s.requests := by
  cases h : ezxml_get root (·.version) with
  | none =>
    rw [playlistcontainer_parse_version_none root s h]
    exact ⟨rfl, rfl, rfl, rfl⟩
  | some txt =>
    obtain ⟨-, -, h3, h4, h5, h6⟩ := playlistcontainer_parse_version_some root s txt h
    exact ⟨h3, h4, h5, h6⟩

/-- Claim C4. When the `add/items` text of a container reply lists `n` ids, 34
hexadecimal digits each, separated by commas or newlines, and the container
holds `k` playlists, `playlistcontainer_parse_xml` appends `n` new playlists
to the container, the `j`-th with the 17 bytes decoded from the `j`-th id and
position `k + j`, and posts `n` `REQ_TYPE_PC_PLAYLIST_ADD` results with
`SP_ERROR_OK` and the positions `k .. k + n - 1`, in order. When the reply has
no `add/items` element, the container, the playlists and the request queue
are as before. -/
theorem playlistcontainer_parse_xml_adds :
    (∀ (env : environment) (s : sp_session) (root : ezxml_root) (ids : List (List Char))
        (seps : List Char),
      s.playlistcontainer.num_playlists = s.playlistcontainer.playlists.length →
      playlistcontainer_parse_root env s = some root →
      root.items = some (join_ids ids seps) →
      (∀ idstr ∈ ids, is_hex_id idstr) →
      (∀ c ∈ seps, is_delim c = true) →
      (playlistcontainer_parse_xml env s).2.playlistcontainer.num_playlists =
          s.playlistcontainer.num_playlists + ids.length ∧
        (playlistcontainer_parse_xml env s).2.playlistcontainer.playlists =
          s.playlistcontainer.playlists ++ List.range' s.playlists.length ids.length ∧
        (playlistcontainer_parse_xml env s).2.playlists =
          s.playlists ++ added_playlists s.playlistcontainer.num_playlists
            (ids.map (fun idstr => (hex_ascii_to_bytes idstr 17).getD [])) ∧
        (∀ idstr ∈ ids, ∃ bytes, hex_ascii_to_bytes idstr 17 = some bytes ∧
          bytes.length = 17) ∧
        (playlistcontainer_parse_xml env s).2.requests =
          s.requests ++ (List.range' s.playlistcontainer.num_playlists ids.length).map
            added_result) ∧
    (∀ (env : environment) (s : sp_session),
      ezxml_get (playlistcontainer_parse_root env s) (·.items) = none →
      (playlistcontainer_parse_xml env s).2.playlistcontainer.num_playlists =
          s.playlistcontainer.num_playlists ∧
        (playlistcontainer_parse_xml env s).2.playlistcontainer.playlists =
          s.playlistcontainer.playlists ∧
        (playlistcontainer_parse_xml env s).2.playlists = s.playlists ∧
        (playlistcontainer_parse_xml env s).2.requests = s.requests) := by
  constructor
  · intro env s root ids seps hn hroot hitems hids hseps
    have htok : strtok (join_ids ids seps) = ids := by
      apply strtok_join_ids ids seps _ hseps
      intro idstr hidstr
      obtain ⟨hl, hh⟩ := hids idstr hidstr
      refine ⟨?_, fun c hc => hex_value_not_delim c (hh c hc)⟩
      intro hnil
      rw [hnil] at hl
      simp at hl
    have hitems2 : playlistcontainer_parse_items env (playlistcontainer_parse_root env s)
        (playlistcontainer_parse_buf s) =
        (ids.foldl playlistcontainer_parse_item
          (env.stack.id, playlistcontainer_parse_buf s)).2 := by
      have hget : ezxml_get (playlistcontainer_parse_root env s) (·.items) =
          some (join_ids ids seps) := by
        rw [hroot]
        exact hitems
      simp only [playlistcontainer_parse_items, hget, htok]
    obtain ⟨f1, f2, f3, -⟩ := playlistcontainer_parse_items_foldl ids env.stack.id
      (playlistcontainer_parse_buf s) hn
    obtain ⟨d1, d2⟩ := decode_ids_hex ids env.stack.id hids
    obtain ⟨v1, v2, v3, v4⟩ := playlistcontainer_parse_version_frame
      (playlistcontainer_parse_root env s)
      (playlistcontainer_parse_items env (playlistcontainer_parse_root env s)
        (playlistcontainer_parse_buf s))
    rw [playlistcontainer_parse_xml_eq, v1, v2, v3, v4, hitems2, f1, f2, f3, d1]
    exact ⟨rfl, rfl, rfl, d2, rfl⟩
  · intro env s hnone
    obtain ⟨v1, v2, v3, v4⟩ := playlistcontainer_parse_version_frame
      (playlistcontainer_parse_root env s)
      (playlistcontainer_parse_items env (playlistcontainer_parse_root env s)
        (playlistcontainer_parse_buf s))
    have hitems2 : playlistcontainer_parse_items env (playlistcontainer_parse_root env s)
        (playlistcontainer_parse_buf s) = playlistcontainer_parse_buf s := by
      simp only [playlistcontainer_parse_items, hnone]
    rw [playlistcontainer_parse_xml_eq, v1, v2, v3, v4, hitems2]
    exact ⟨rfl, rfl, rfl, rfl⟩

set_option maxRecDepth 100000 in
/-- Scenario S1 as an instance of claim C4: the fresh container gets the two
playlists with ids `aa..aa01` and `bb..bb01` at positions 0 and 1, and two
results with positions 0 and 1 follow the running request. -/
theorem playlistcontainer_parse_xml_adds_S1 :
    (playlistcontainer_parse_xml (example_env S1_root)
        (container_loading (render S1_root))).2.playlistcontainer.playlists = [0, 1] ∧
      (playlistcontainer_parse_xml (example_env S1_root)
        (container_loading (render S1_root))).2.playlists =
        [added_playlist (List.replicate 16 0xaa ++ [0x01]) 0,
         added_playlist (List.replicate 16 0xbb ++ [0x01]) 1] ∧
      (playlistcontainer_parse_xml (example_env S1_root)
        (container_loading (render S1_root))).2.requests =
        (container_loading (render S1_root)).requests ++ [added_result 0, added_result 1] := by
  obtain ⟨-, h2, h3, -, h5⟩ := playlistcontainer_parse_xml_adds.1
    (example_env S1_root) (container_loading (render S1_root)) S1_root
    ["aaaaaaaaaaaaaaaaaaaaaaaaaaaaaaaa01".toList, "bbbbbbbbbbbbbbbbbbbbbbbbbbbbbbbb01".toList]
    [','] rfl (by decide) (by decide) (by decide) (by decide)
  rw [h2, h3, h5]
  decide

/-! ### Frame lemmas for the playlist parser -/

theorem playlist_store_length (s : sp_session) (q : Nat) (f : sp_playlist → sp_playlist) :
    (playlist_store s q f).playlists.length = s.playlists.length := by
  unfold playlist_store
  split <;> simp

theorem playlist_at_store (s : sp_session) (q : Nat) (f : sp_playlist → sp_playlist)
    (ptr : Nat) :
    playlist_at (playlist_store s q f).playlists ptr =
      if ptr = q ∧ q < s.playlists.length then f (playlist_at s.playlists q)
      else playlist_at s.playlists ptr := by
  unfold playlist_store
  split
  · rename_i hnone
    have hq : s.playlists.length ≤ q := by
      rw [List.getElem?_eq_none_iff] at hnone
      exact hnone
    rw [if_neg (by omega)]
  · rename_i p hsome
    have hq : q < s.playlists.length := by
      by_contra hc
      rw [List.getElem?_eq_none (by omega)] at hsome
      exact absurd hsome (by simp)
    have hp : playlist_at s.playlists q = p := by
      simp [playlist_at, List.getD_eq_getElem?_getD, hsome]
    by_cases hpq : ptr = q
    · subst hpq
      rw [if_pos ⟨rfl, hq⟩, hp]
      simp [playlist_at, List.getD_eq_getElem?_getD, List.getElem?_set, hq]
    · rw [if_neg (fun h => hpq h.1)]
      simp [playlist_at, List.getD_eq_getElem?_getD, List.getElem?_set, Ne.symm hpq]

theorem keeps_refl {α : Type} (proj : sp_playlist → α) (s : sp_session) : keeps proj s s :=
  ⟨rfl, fun _ => rfl⟩

theorem keeps_trans {α : Type} {proj : sp_playlist → α} {s s1 s2 : sp_session}
    (h1 : keeps proj s s1) (h2 : keeps proj s1 s2) : keeps proj s s2 :=
  ⟨h2.1.trans h1.1, fun ptr => (h2.2 ptr).trans (h1.2 ptr)⟩

theorem keeps_of_eq {α : Type} (proj : sp_playlist → α) {s s1 : sp_session}
    (h : s1.playlists = s.playlists) : keeps proj s s1 := by
  unfold keeps
  rw [h]
  exact ⟨rfl, fun _ => rfl⟩

theorem keeps_store {α : Type} (proj : sp_playlist → α) (s : sp_session) (q : Nat)
    (f : sp_playlist → sp_playlist) (hf : ∀ p, proj (f p) = proj p) :
    keeps proj s (playlist_store s q f) := by
  refine ⟨playlist_store_length s q f, fun ptr => ?_⟩
  rw [playlist_at_store]
  split
  · rename_i h
    rw [hf, h.1]
  · rfl

theorem keeps_set_name {α : Type} (proj : sp_playlist → α) (env : environment)
    (s : sp_session) (q : Nat) (name : List Char)
    (hf : ∀ (p : sp_playlist) (n : List Char), proj { p with name := n } = proj p) :
    keeps proj s (playlist_set_name env s q name) :=
  keeps_trans (keeps_store proj s q _ (fun p => hf p _)) (keeps_of_eq proj rfl)

theorem keeps_parse_name {α : Type} (proj : sp_playlist → α) (env : environment)
    (root : Option ezxml_root) (s : sp_session) (q : Nat)
    (hf : ∀ (p : sp_playlist) (n : List Char), proj { p with name := n } = proj p) :
    keeps proj s (playlist_parse_name env root s q) := by
  unfold playlist_parse_name
  split
  · exact keeps_set_name proj env s q _ hf
  · exact keeps_refl proj s

theorem keeps_parse_pub {α : Type} (proj : sp_playlist → α) (root : Option ezxml_root)
    (s : sp_session) (q : Nat)
    (hf : ∀ (p : sp_playlist) (v : Int), proj { p with shared := v } = proj p) :
    keeps proj s (playlist_parse_pub root s q) := by
  unfold playlist_parse_pub
  have h0 := keeps_store proj s q (fun p => { p with shared := 0 }) (fun p => hf p 0)
  split
  · split
    · exact keeps_trans h0 (keeps_store proj _ q _ (fun p => hf p 1))
    · exact h0
  · exact h0

theorem osfy_track_add_playlists (s : sp_session) (id : List Nat) :
    (osfy_track_add s id).2.playlists = s.playlists := by
  unfold osfy_track_add
  split <;> rfl

theorem sp_track_add_ref_playlists (s : sp_session) (track : Nat) :
    (sp_track_add_ref s track).playlists = s.playlists := by
  unfold sp_track_add_ref
  split <;> rfl

theorem keeps_parse_item {α : Type} (proj : sp_playlist → α) (q : Nat)
    (st : List Nat × sp_session) (idstr : List Char)
    (hf : ∀ (p : sp_playlist) (t : List Nat) (n : Nat),
      proj { p with tracks := t, num_tracks := n } = proj p) :
    keeps proj st.2 (playlist_parse_item q st idstr).2 := by
  have h1 : keeps proj st.2 (osfy_track_add st.2 (hex_ascii_to_buffer idstr st.1 16)).2 :=
    keeps_of_eq proj (osfy_track_add_playlists _ _)
  have h2 := keeps_store proj (osfy_track_add st.2 (hex_ascii_to_buffer idstr st.1 16)).2 q
    (fun p => { p with
      tracks := p.tracks.take p.num_tracks ++
        [(osfy_track_add st.2 (hex_ascii_to_buffer idstr st.1 16)).1],
      num_tracks := p.num_tracks + 1 }) (fun p => hf p _ _)
  have h3 := keeps_of_eq proj (sp_track_add_ref_playlists
    (playlist_store (osfy_track_add st.2 (hex_ascii_to_buffer idstr st.1 16)).2 q
      (fun p => { p with
        tracks := p.tracks.take p.num_tracks ++
          [(osfy_track_add st.2 (hex_ascii_to_buffer idstr st.1 16)).1],
        num_tracks := p.num_tracks + 1 }))
    (osfy_track_add st.2 (hex_ascii_to_buffer idstr st.1 16)).1)
  exact keeps_trans (keeps_trans h1 h2) h3

theorem keeps_parse_items {α : Type} (proj : sp_playlist → α) (env : environment)
    (root : Option ezxml_root) (s : sp_session) (q : Nat)
    (hf : ∀ (p : sp_playlist) (t : List Nat) (n : Nat),
      proj { p with tracks := t, num_tracks := n } = proj p) :
    keeps proj s (playlist_parse_items env root s q) := by
  unfold playlist_parse_items
  split
  · rename_i id_list _
    have hfold : ∀ (toks : List (List Char)) (st : List Nat × sp_session),
        keeps proj st.2 (toks.foldl (playlist_parse_item q) st).2 := by
      intro toks
      induction toks with
      | nil => exact fun st => keeps_refl proj st.2
      | cons t ts ih =>
        intro st
        rw [List.foldl_cons]
        exact keeps_trans (keeps_parse_item proj q st t hf) (ih _)
    exact hfold (strtok id_list) (env.stack.track_id, s)
  · exact keeps_refl proj s

theorem user_add_playlists (s : sp_session) (name : List Char) :
    (user_add s name).2.playlists = s.playlists := by
  unfold user_add
  split <;> rfl

theorem keeps_parse_user {α : Type} (proj : sp_playlist → α) (env : environment)
    (root : Option ezxml_root) (s : sp_session) (q : Nat)
    (hf : ∀ (p : sp_playlist) (o : Option Nat), proj { p with owner := o } = proj p) :
    keeps proj s (playlist_parse_user env root s q) := by
  unfold playlist_parse_user
  split
  · rename_i txt _
    have h1 : keeps proj s (playlist_store (user_add s txt).2 q
        (fun p => { p with owner := some (user_add s txt).1 })) :=
      keeps_trans (keeps_of_eq proj (user_add_playlists s txt))
        (keeps_store proj (user_add s txt).2 q
          (fun p => { p with owner := some (user_add s txt).1 }) (fun p => hf p _))
    simp only []
    split
    · exact h1
    · exact keeps_trans h1 (keeps_of_eq proj rfl)
  · exact keeps_refl proj s

theorem playlist_parse_xml_eq (env : environment) (s : sp_session) (q : Nat) :
    (playlist_parse_xml env s q).2 =
      playlist_parse_version env (playlist_parse_root env s q)
        (playlist_parse_before_version env s q) q := rfl

/-- Everything before the version section leaves of every playlist what none
of the sections writes: a part `proj` that does not depend on buffer, name,
shared flag, tracks and owner. -/
theorem keeps_before_version {α : Type} (proj : sp_playlist → α) (env : environment)
    (s : sp_session) (q : Nat)
    (hbuf : ∀ (p : sp_playlist) (b : Option (List Char)), proj { p with buf := b } = proj p)
    (hname : ∀ (p : sp_playlist) (n : List Char), proj { p with name := n } = proj p)
    (hshared : ∀ (p : sp_playlist) (v : Int), proj { p with shared := v } = proj p)
    (htracks : ∀ (p : sp_playlist) (t : List Nat) (n : Nat),
      proj { p with tracks := t, num_tracks := n } = proj p)
    (howner : ∀ (p : sp_playlist) (o : Option Nat), proj { p with owner := o } = proj p) :
    keeps proj s (playlist_parse_before_version env s q) := by
  have h1 : keeps proj s (playlist_parse_buf s q) :=
    keeps_store proj s q _ (fun p => hbuf p _)
  have h2 : keeps proj (playlist_parse_buf s q) (playlist_parse_named env s q) :=
    keeps_parse_name proj env _ _ q hname
  have h3 : keeps proj (playlist_parse_named env s q) (playlist_parse_pubbed env s q) :=
    keeps_parse_pub proj _ _ q hshared
  have h4 : keeps proj (playlist_parse_pubbed env s q) (playlist_parse_listed env s q) :=
    keeps_parse_items proj env _ _ q htracks
  have h5 : keeps proj (playlist_parse_listed env s q)
      (playlist_parse_before_version env s q) :=
    keeps_parse_user proj env _ _ q howner
  exact keeps_trans (keeps_trans (keeps_trans (keeps_trans h1 h2) h3) h4) h5

/-- The version section: nothing happens without a text to scan or when the
playlist's revision is not 0; else the three locals are stored. -/
theorem playlist_parse_version_eq (env : environment) (root : Option ezxml_root)
    (s : sp_session) (q : Nat) (hq : q < s.playlists.length) :
    (playlist_version_node root = none → playlist_parse_version env root s q = s) ∧
    ((playlist_at s.playlists q).revision ≠ 0 → playlist_parse_version env root s q = s) ∧
    (∀ txt, playlist_version_node root = some txt → (playlist_at s.playlists q).revision = 0 →
      playlist_at (playlist_parse_version env root s q).playlists q =
        { playlist_at s.playlists q with
          revision := (sscanf_ints [some 10, some 10, some 10, none] txt).getD 0
            env.stack.revision,
          checksum := (sscanf_ints [some 10, some 10, some 10, none] txt).getD 2
            env.stack.checksum,
          shared := (sscanf_ints [some 10, some 10, some 10, none] txt).getD 3
            env.stack.shared }) := by
  refine ⟨?_, ?_, ?_⟩
  · intro h
    unfold playlist_parse_version
    rw [h]
  · intro h
    unfold playlist_parse_version
    split
    · simp only []
      rw [if_neg h]
    · rfl
  · intro txt h hrev
    unfold playlist_parse_version
    rw [h]
    simp only []
    rw [if_pos hrev, playlist_at_store, if_pos ⟨rfl, hq⟩]

/-! ### The version of a playlist -/

/-- On a first load (revision 0) with a text to scan, `playlist_parse_xml`
stores the three locals of the scan. -/
theorem playlist_parse_xml_adopts (env : environment) (s : sp_session) (q : Nat)
    (txt : List Char) (hq : q < s.playlists.length)
    (hnode : playlist_version_node (playlist_parse_root env s q) = some txt)
    (hrev : (playlist_at s.playlists q).revision = 0) :
    (playlist_at (playlist_parse_xml env s q).2.playlists q).revision =
        (sscanf_ints [some 10, some 10, some 10, none] txt).getD 0 env.stack.revision ∧
      (playlist_at (playlist_parse_xml env s q).2.playlists q).checksum =
        (sscanf_ints [some 10, some 10, some 10, none] txt).getD 2 env.stack.checksum ∧
      (playlist_at (playlist_parse_xml env s q).2.playlists q).shared =
        (sscanf_ints [some 10, some 10, some 10, none] txt).getD 3 env.stack.shared := by
  have hk := keeps_before_version (fun p => p.revision) env s q (fun _ _ => rfl)
    (fun _ _ => rfl) (fun _ _ => rfl) (fun _ _ _ => rfl) (fun _ _ => rfl)
  have hq2 : q < (playlist_parse_before_version env s q).playlists.length := by
    rw [hk.1]
    exact hq
  have hrev2 : (playlist_at (playlist_parse_before_version env s q).playlists q).revision = 0 :=
    (hk.2 q).trans hrev
  have h := (playlist_parse_version_eq env (playlist_parse_root env s q)
    (playlist_parse_before_version env s q) q hq2).2.2 txt hnode hrev2
  rw [playlist_parse_xml_eq, h]
  exact ⟨rfl, rfl, rfl⟩

/-- Without `next-change/version` the version section scans the text of the
root element, whatever the reply holds under `confirm`. -/
theorem playlist_version_node_root (root : ezxml_root) (h : root.version = none) :
    playlist_version_node (some root) = some root.txt := by
  show (match root.version with
    | some txt => some txt
    | none => some root.txt) = some root.txt
  rw [h]

/-- On a first load without `next-change/version` the text of the root element
is scanned; when it holds no number, as the white space of a reply, the three
locals are stored as they are, not initialised. -/
theorem playlist_parse_xml_root_text (env : environment) (s : sp_session) (q : Nat)
    (root : ezxml_root) (hq : q < s.playlists.length)
    (hrev : (playlist_at s.playlists q).revision = 0)
    (hroot : playlist_parse_root env s q = some root) (hversion : root.version = none)
    (hscan : sscanf_ints [some 10, some 10, some 10, none] root.txt = []) :
    (playlist_at (playlist_parse_xml env s q).2.playlists q).revision = env.stack.revision ∧
      (playlist_at (playlist_parse_xml env s q).2.playlists q).checksum =
        env.stack.checksum ∧
      (playlist_at (playlist_parse_xml env s q).2.playlists q).shared = env.stack.shared := by
  have hnode : playlist_version_node (playlist_parse_root env s q) = some root.txt := by
    rw [hroot]
    exact playlist_version_node_root root hversion
  obtain ⟨h1, h2, h3⟩ := playlist_parse_xml_adopts env s q root.txt hq hnode hrev
  rw [h1, h2, h3, hscan]
  exact ⟨rfl, rfl, rfl⟩

theorem playlist_store_requests (s : sp_session) (q : Nat) (f : sp_playlist → sp_playlist) :
    (playlist_store s q f).requests = s.requests := by
  unfold playlist_store
  split <;> rfl

theorem sp_track_add_ref_requests (s : sp_session) (track : Nat) :
    (sp_track_add_ref s track).requests = s.requests := by
  unfold sp_track_add_ref
  split <;> rfl

theorem osfy_playlist_browse_requests (env : environment) (s : sp_session) (q : Nat) :
    ∃ posted, (osfy_playlist_browse env s q).requests = s.requests ++ [posted] := by
  have hfold : ∀ (is : List Nat) (f : Nat → Nat) (s1 : sp_session),
      (is.foldl (fun s2 i => sp_track_add_ref s2 (f i)) s1).requests = s1.requests := by
    intro is f
    induction is with
    | nil => exact fun _ => rfl
    | cons i is ih =>
      intro s1
      rw [List.foldl_cons, ih, sp_track_add_ref_requests]
  unfold osfy_playlist_browse request_post
  simp only []
  rw [hfold]
  exact ⟨_, rfl⟩

theorem playlistcontainer_request_playlists_requests (env : environment) (s : sp_session) :
    ∃ posted, (playlistcontainer_request_playlists env s).requests = s.requests ++ posted := by
  have hfold : ∀ (is : List Nat) (s1 : sp_session),
      ∃ posted, (is.foldl (fun s2 i => request_post env.get_millisecs s2
        .REQ_TYPE_PLAYLIST_LOAD (.playlist (s2.playlistcontainer.playlists.getD i 0)))
        s1).requests = s1.requests ++ posted := by
    intro is
    induction is with
    | nil => exact fun s1 => ⟨[], by simp⟩
    | cons i is ih =>
      intro s1
      rw [List.foldl_cons]
      obtain ⟨posted, hp⟩ := ih (request_post env.get_millisecs s1 .REQ_TYPE_PLAYLIST_LOAD
        (.playlist (s1.playlistcontainer.playlists.getD i 0)))
      rw [hp]
      exact ⟨_, List.append_assoc _ _ _⟩
  exact hfold _ s

theorem request_set_result_at (s : sp_session) (req : Nat) (r : request) (error : sp_error)
    (output : request_data) (h : s.requests[req]? = some r) :
    (request_set_result s req error output).requests[req]? =
      some { r with error := error, output := output, state := .REQ_STATE_RETURNED } := by
  have hlt : req < s.requests.length := by
    by_contra hc
    rw [List.getElem?_eq_none (by omega)] at h
    exact absurd h (by simp)
  unfold request_set_result
  rw [h]
  simp [List.getElem?_set, hlt]

theorem getElem?_append_some {α : Type} (l l1 : List α) (i : Nat) (a : α)
    (h : l[i]? = some a) : (l ++ l1)[i]? = some a := by
  have hlt : i < l.length := by
    by_contra hc
    rw [List.getElem?_eq_none (by omega)] at h
    exact absurd h (by simp)
  rw [List.getElem?_append_left hlt]
  exact h

/-- Without a tree the playlist parser finds no node: apart from the buffer
and the cleared shared flag the session is as before. -/
theorem playlist_parse_xml_no_tree (env : environment) (s : sp_session) (q : Nat)
    (hroot : playlist_parse_root env s q = none) :
    (playlist_parse_xml env s q).2 =
      playlist_store (playlist_parse_buf s q) q (fun p => { p with shared := 0 }) := by
  rw [playlist_parse_xml_eq]
  unfold playlist_parse_version playlist_parse_before_version playlist_parse_user
    playlist_parse_listed playlist_parse_items playlist_parse_pubbed playlist_parse_pub
    playlist_parse_named playlist_parse_name playlist_version_node
  rw [hroot]
  rfl

/-- Without a tree the container parser finds no node: apart from the buffer
the session is as before. -/
theorem playlistcontainer_parse_xml_no_tree (env : environment) (s : sp_session)
    (hroot : playlistcontainer_parse_root env s = none) :
    (playlistcontainer_parse_xml env s).2 = playlistcontainer_parse_buf s := by
  rw [playlistcontainer_parse_xml_eq]
  unfold playlistcontainer_parse_version playlistcontainer_parse_items
  rw [hroot]
  rfl

/-- Claim C10, the behaviour of the code. Both parsers return 0 whatever the
XML parser yields. When the XML parser yields no tree for the payload of a
`REQ_TYPE_PLAYLIST_LOAD` or `REQ_TYPE_PC_LOAD` request, the channel END
handling of `playlist_callback` and of `playlistcontainer_callback`
completes the request (state RETURNED) with `SP_ERROR_OK`, not with
`SP_ERROR_OTHER_PERMANENT`. -/
theorem malformed_reply_completes_ok (env : environment) (s : sp_session) (req : Nat)
    (r : request) (hreq : s.requests[req]? = some r) :
    (playlist_parse_xml env s req).1 = 0 ∧ (playlistcontainer_parse_xml env s).1 = 0 ∧
    (∀ q, r.input = .playlist q → playlist_parse_root env s q = none →
      (playlist_callback env s req .CHANNEL_END []).2.requests[req]? =
        some { r with error := .SP_ERROR_OK, output := .playlist q,
                      state := .REQ_STATE_RETURNED }) ∧
    (playlistcontainer_parse_root env s = none →
      (playlistcontainer_callback env s req .CHANNEL_END []).2.requests[req]? =
        some { r with error := .SP_ERROR_OK, output := .playlistcontainer,
                      state := .REQ_STATE_RETURNED }) := by
  refine ⟨rfl, rfl, ?_, ?_⟩
  · intro q hinput hroot
    have hparsed : (playlist_parse_xml env s q).2.requests[req]? = some r := by
      rw [playlist_parse_xml_no_tree env s q hroot, playlist_store_requests]
      unfold playlist_parse_buf
      rw [playlist_store_requests]
      exact hreq
    obtain ⟨posted, hposted⟩ := osfy_playlist_browse_requests env
      (playlist_store (playlist_parse_xml env s q).2 q
        (fun p => { p with state := .PLAYLIST_STATE_LISTED })) q
    have hbrowsed : (osfy_playlist_browse env
        (playlist_store (playlist_parse_xml env s q).2 q
          (fun p => { p with state := .PLAYLIST_STATE_LISTED })) q).requests[req]? =
        some r := by
      rw [hposted, playlist_store_requests]
      exact getElem?_append_some _ _ _ _ hparsed
    have hset := request_set_result_at _ req r .SP_ERROR_OK (.playlist q) hbrowsed
    unfold playlist_callback
    rw [hreq]
    simp only [hinput]
    rw [playlist_store_requests, if_pos (show (playlist_parse_xml env s q).1 = 0 from rfl),
      hset, hinput]
  · intro hroot
    have hparsed : (playlistcontainer_parse_xml env s).2.requests[req]? = some r := by
      rw [playlistcontainer_parse_xml_no_tree env s hroot]
      exact hreq
    obtain ⟨posted, hposted⟩ := playlistcontainer_request_playlists_requests env
      (playlistcontainer_parse_xml env s).2
    have hfanned : (playlistcontainer_request_playlists env
        (playlistcontainer_parse_xml env s).2).requests[req]? = some r := by
      rw [hposted]
      exact getElem?_append_some _ _ _ _ hparsed
    have hset := request_set_result_at _ req r .SP_ERROR_OK .playlistcontainer hfanned
    unfold playlistcontainer_callback
    simp only []
    rw [if_pos (show (playlistcontainer_parse_xml env s).1 = 0 from rfl)]
    exact hset

set_option maxRecDepth 100000 in
/-- The failing input of claim C10: the payload `"<next-change><oops"`, for
which the parser yields no tree, has been buffered for request 0, and the
channel ends. The request is completed with `SP_ERROR_OK`, for the playlist
and for the container. -/
theorem malformed_reply_completes_ok_example :
    ((playlist_callback (example_env S2_root)
        (playlist_loading .REQ_TYPE_PLAYLIST_LOAD 0 malformed_payload) 0 .CHANNEL_END
        []).2.requests[0]?).map (fun r => (r.state, r.error)) =
      some (.REQ_STATE_RETURNED, .SP_ERROR_OK) ∧
    ((playlistcontainer_callback (example_env S1_root) (container_loading malformed_payload) 0
        .CHANNEL_END []).2.requests[0]?).map (fun r => (r.state, r.error)) =
      some (.REQ_STATE_RETURNED, .SP_ERROR_OK) := by
  constructor
  · rw [(malformed_reply_completes_ok (example_env S2_root)
      (playlist_loading .REQ_TYPE_PLAYLIST_LOAD 0 malformed_payload) 0 _ rfl).2.2.1 0 rfl
      (by decide)]
    rfl
  · rw [(malformed_reply_completes_ok (example_env S1_root)
      (container_loading malformed_payload) 0 _ rfl).2.2.2 (by decide)]
    rfl

/-! ### Channel errors -/

theorem int_wrap_of_range (v : Int) (hlo : -(2 ^ 31) ≤ v) (hhi : v ≤ 2147483647) :
    int_wrap v = v := by
  unfold int_wrap
  omega

theorem getElem?_lt_of_some {α : Type} (l : List α) (i : Nat) (a : α) (h : l[i]? = some a) :
    i < l.length := by
  by_contra hc
  rw [List.getElem?_eq_none (by omega)] at h
  exact absurd h (by simp)

theorem request_store_at (s : sp_session) (req : Nat) (r : request) (f : request → request)
    (hreq : s.requests[req]? = some r) :
    (request_store s req f).requests = s.requests.set req (f r) ∧
      (request_store s req f).requests[req]? = some (f r) ∧
      (request_store s req f).playlists = s.playlists ∧
      (request_store s req f).playlistcontainer = s.playlistcontainer ∧
      (request_store s req f).tracks = s.tracks ∧
      (request_store s req f).commands = s.commands := by
  have hlt := getElem?_lt_of_some _ _ _ hreq
  unfold request_store
  rw [hreq]
  simp [List.getElem?_set, hlt]

/-- What a channel error does to the session in `playlist_callback`: the
deadline of the request is set and the buffer of the playlist dropped. -/
theorem playlist_callback_error_eq (env : environment) (s : sp_session) (req : Nat)
    (r : request) (q : Nat) (payload : List Char) (hreq : s.requests[req]? = some r)
    (hinput : r.input = .playlist q) :
    (playlist_callback env s req .CHANNEL_ERROR payload).2 =
      playlist_store (request_retry env s req) q (fun p => { p with buf := none }) := by
  unfold playlist_callback request_retry request_store retry_deadline
  rw [hreq]
  simp only [hinput]

/-- What a channel error does to the session in `playlistcontainer_callback`:
the deadline of the request is set and the buffer of the container dropped. -/
theorem playlistcontainer_callback_error_eq (env : environment) (s : sp_session) (req : Nat)
    (payload : List Char) :
    (playlistcontainer_callback env s req .CHANNEL_ERROR payload).2 =
      playlistcontainer_buf_free (request_retry env s req) := by
  unfold playlistcontainer_callback request_retry request_store retry_deadline
    playlistcontainer_buf_free
  rfl

/-- Claim C11, amended. When a channel ERROR is delivered to
`playlist_callback` or `playlistcontainer_callback` at a time `now` for which
`now + PLAYLIST_RETRY_TIMEOUT*1000` does not exceed `INT_MAX`, the deadline
of the owning request is `now + PLAYLIST_RETRY_TIMEOUT*1000` afterwards,
whatever it was before; with the retry delay of 30 seconds it lies in
`(now, now + 30000]`. -/
theorem channel_error_deadline (env : environment) (s : sp_session) (req : Nat)
    (r : request) (payload : List Char) (hreq : s.requests[req]? = some r)
    (hnow : -(2 ^ 31) ≤ env.get_millisecs)
    (hretry : 0 ≤ env.PLAYLIST_RETRY_TIMEOUT ∧ env.PLAYLIST_RETRY_TIMEOUT * 1000 ≤ 2147483647)
    (hsum : env.get_millisecs + env.PLAYLIST_RETRY_TIMEOUT * 1000 ≤ 2147483647) :
    (∀ q, r.input = .playlist q →
      ((playlist_callback env s req .CHANNEL_ERROR payload).2.requests[req]?).map
          (fun r1 => r1.next_timeout) =
        some (env.get_millisecs + env.PLAYLIST_RETRY_TIMEOUT * 1000)) ∧
    ((playlistcontainer_callback env s req .CHANNEL_ERROR payload).2.requests[req]?).map
        (fun r1 => r1.next_timeout) =
      some (env.get_millisecs + env.PLAYLIST_RETRY_TIMEOUT * 1000) ∧
    (env.PLAYLIST_RETRY_TIMEOUT = PLAYLIST_RETRY_TIMEOUT →
      env.get_millisecs < env.get_millisecs + env.PLAYLIST_RETRY_TIMEOUT * 1000 ∧
        env.get_millisecs + env.PLAYLIST_RETRY_TIMEOUT * 1000 ≤ env.get_millisecs + 30000) := by
  have hw : retry_deadline env = env.get_millisecs + env.PLAYLIST_RETRY_TIMEOUT * 1000 := by
    unfold retry_deadline
    rw [int_wrap_of_range (env.PLAYLIST_RETRY_TIMEOUT * 1000) (by omega) hretry.2,
      int_wrap_of_range _ (by omega) hsum]
  have hstore := (request_store_at s req r
    (fun r1 => { r1 with next_timeout := retry_deadline env }) hreq).2.1
  refine ⟨?_, ?_, ?_⟩
  · intro q hinput
    rw [playlist_callback_error_eq env s req r q payload hreq hinput, playlist_store_requests]
    unfold request_retry
    rw [hstore, ← hw]
    rfl
  · rw [playlistcontainer_callback_error_eq env s req payload]
    unfold playlistcontainer_buf_free request_retry
    simp only []
    rw [hstore, ← hw]
    rfl
  · intro h30
    rw [h30]
    unfold PLAYLIST_RETRY_TIMEOUT
    omega

set_option maxRecDepth 100000 in
/-- An instance of the amended claim C11: an error at time 5000 with the retry
delay of 30 seconds moves the deadline of the request from `INT_MAX` to
35000, for the playlist and for the container. -/
theorem channel_error_deadline_example :
    ((playlist_loading .REQ_TYPE_PLAYLIST_LOAD 0 malformed_payload).requests[0]?).map
        (fun r1 => r1.next_timeout) = some 2147483647 ∧
    ((playlist_callback (example_env S2_root)
        (playlist_loading .REQ_TYPE_PLAYLIST_LOAD 0 malformed_payload) 0 .CHANNEL_ERROR
        []).2.requests[0]?).map (fun r1 => r1.next_timeout) = some 35000 ∧
    ((playlistcontainer_callback (example_env S2_root)
        (playlist_loading .REQ_TYPE_PLAYLIST_LOAD 0 malformed_payload) 0 .CHANNEL_ERROR
        []).2.requests[0]?).map (fun r1 => r1.next_timeout) = some 35000 :=
  ⟨rfl,
   (channel_error_deadline (example_env S2_root)
      (playlist_loading .REQ_TYPE_PLAYLIST_LOAD 0 malformed_payload) 0 _ [] rfl (by decide)
      (by decide) (by decide)).1 0 rfl,
   (channel_error_deadline (example_env S2_root)
      (playlist_loading .REQ_TYPE_PLAYLIST_LOAD 0 malformed_payload) 0 _ [] rfl (by decide)
      (by decide) (by decide)).2.1⟩

set_option maxRecDepth 100000 in
/-- Claim C11 as stated fails at the last millisecond an `int` holds: an error
at time 2147483647 with the retry delay of 30 seconds leaves the deadline
-2147453649, which does not lie after `now`. -/
theorem channel_error_deadline_overflow :
    late_env.get_millisecs = 2147483647 ∧ late_env.PLAYLIST_RETRY_TIMEOUT = 30 ∧
    ((playlist_callback late_env
        (playlist_loading .REQ_TYPE_PLAYLIST_LOAD 0 malformed_payload) 0 .CHANNEL_ERROR
        []).2.requests[0]?).map (fun r1 => r1.next_timeout) = some (-2147453649) ∧
    ((playlistcontainer_callback late_env
        (container_loading malformed_payload) 0 .CHANNEL_ERROR
        []).2.requests[0]?).map (fun r1 => r1.next_timeout) = some (-2147453649) := by
  decide

theorem playlist_store_other (s : sp_session) (q : Nat) (f : sp_playlist → sp_playlist) :
    (playlist_store s q f).playlistcontainer = s.playlistcontainer ∧
      (playlist_store s q f).tracks = s.tracks ∧
      (playlist_store s q f).hashtable_tracks = s.hashtable_tracks ∧
      (playlist_store s q f).users = s.users ∧
      (playlist_store s q f).commands = s.commands ∧
      (playlist_store s q f).player = s.player := by
  unfold playlist_store
  split <;> exact ⟨rfl, rfl, rfl, rfl, rfl, rfl⟩

/-- Claim C12. A channel ERROR delivered to `playlist_callback` or
`playlistcontainer_callback` posts no request and changes, of the owning
request, the deadline only: state, error, output, input and type stay. Of
every playlist it leaves state, name, tracks, revision, checksum and shared
flag (and id, owner and position) as they were, and of the container
everything but the buffer; only the deadline and the pending buffer change. -/
theorem channel_error_frame (env : environment) (s : sp_session) (req : Nat) (r : request)
    (payload : List Char) (hreq : s.requests[req]? = some r) :
    (∀ q, r.input = .playlist q →
      (playlist_callback env s req .CHANNEL_ERROR payload).2.requests =
          s.requests.set req { r with next_timeout := retry_deadline env } ∧
        keeps (fun p => (p.state, p.name, p.tracks, p.num_tracks, p.revision, p.checksum,
          p.shared, p.id, p.owner, p.position)) s
          (playlist_callback env s req .CHANNEL_ERROR payload).2 ∧
        (playlist_callback env s req .CHANNEL_ERROR payload).2.playlistcontainer =
          s.playlistcontainer ∧
        (playlist_callback env s req .CHANNEL_ERROR payload).2.tracks = s.tracks) ∧
    ((playlistcontainer_callback env s req .CHANNEL_ERROR payload).2.requests =
        s.requests.set req { r with next_timeout := retry_deadline env } ∧
      (playlistcontainer_callback env s req .CHANNEL_ERROR payload).2.playlistcontainer =
        { s.playlistcontainer with buf := none } ∧
      (playlistcontainer_callback env s req .CHANNEL_ERROR payload).2.playlists =
        s.playlists ∧
      (playlistcontainer_callback env s req .CHANNEL_ERROR payload).2.tracks = s.tracks) := by
  obtain ⟨h1, -, h3, h4, h5, -⟩ := request_store_at s req r
    (fun r1 => { r1 with next_timeout := retry_deadline env }) hreq
  constructor
  · intro q hinput
    rw [playlist_callback_error_eq env s req r q payload hreq hinput]
    refine ⟨?_, ?_, ?_, ?_⟩
    · rw [playlist_store_requests]
      exact h1
    · exact keeps_trans (keeps_of_eq _ h3) (keeps_store _ _ q _ (fun _ => rfl))
    · rw [(playlist_store_other _ q _).1]
      exact h4
    · rw [(playlist_store_other _ q _).2.1]
      exact h5
  · rw [playlistcontainer_callback_error_eq env s req payload]
    exact ⟨h1, by rw [← h4]; rfl, h3, h5⟩

set_option maxRecDepth 100000 in
/-- An instance of claim C12: after an error the running request of the
example is still RUNNING with `SP_ERROR_OK` and no output, no request has been
added, and the playlist is in state ADDED with revision 7 as before. -/
theorem channel_error_frame_example :
    (playlist_callback (example_env S2_root)
        (playlist_loading .REQ_TYPE_PLAYLIST_LOAD 7 malformed_payload) 0 .CHANNEL_ERROR
        []).2.requests.map (fun r1 => (r1.state, r1.error, r1.output, r1.next_timeout)) =
      [(.REQ_STATE_RUNNING, .SP_ERROR_OK, .null, 35000)] := by
  rw [((channel_error_frame (example_env S2_root)
    (playlist_loading .REQ_TYPE_PLAYLIST_LOAD 7 malformed_payload) 0 _ [] rfl).1 0 rfl).1]
  decide

/-! ### The load of a playlist -/

theorem sp_track_add_ref_playlists_foldl (is : List Nat) (f : Nat → Nat) (s : sp_session) :
    (is.foldl (fun s2 i => sp_track_add_ref s2 (f i)) s).playlists = s.playlists ∧
      (is.foldl (fun s2 i => sp_track_add_ref s2 (f i)) s).requests = s.requests := by
  induction is generalizing s with
  | nil => exact ⟨rfl, rfl⟩
  | cons i is ih =>
    rw [List.foldl_cons]
    exact ⟨(ih _).1.trans (sp_track_add_ref_playlists _ _),
      (ih _).2.trans (sp_track_add_ref_requests _ _)⟩

/-- `osfy_playlist_browse` leaves the playlists alone and posts one request. -/
theorem osfy_playlist_browse_eq (env : environment) (s : sp_session) (q : Nat) :
    (osfy_playlist_browse env s q).playlists = s.playlists ∧
      (osfy_playlist_browse env s q).requests =
        s.requests ++ [browse_request env q (playlist_at s.playlists q).num_tracks] := by
  unfold osfy_playlist_browse request_post browse_request
  simp only []
  exact ⟨(sp_track_add_ref_playlists_foldl _ _ _).1,
    by rw [(sp_track_add_ref_playlists_foldl _ _ _).2]⟩

theorem request_set_result_eq (s : sp_session) (req : Nat) (r : request) (error : sp_error)
    (output : request_data) (h : s.requests[req]? = some r) :
    (request_set_result s req error output).requests =
        s.requests.set req
          { r with error := error, output := output, state := .REQ_STATE_RETURNED } ∧
      (request_set_result s req error output).playlists = s.playlists := by
  unfold request_set_result
  rw [h]
  exact ⟨rfl, rfl⟩

theorem playlistcontainer_request_playlists_frame (env : environment) (s : sp_session) :
    (playlistcontainer_request_playlists env s).playlistcontainer = s.playlistcontainer ∧
      (playlistcontainer_request_playlists env s).playlists = s.playlists := by
  have hfold : ∀ (is : List Nat) (s1 : sp_session),
      (is.foldl (fun s2 i => request_post env.get_millisecs s2
        .REQ_TYPE_PLAYLIST_LOAD (.playlist (s2.playlistcontainer.playlists.getD i 0)))
        s1).playlistcontainer = s1.playlistcontainer ∧
      (is.foldl (fun s2 i => request_post env.get_millisecs s2
        .REQ_TYPE_PLAYLIST_LOAD (.playlist (s2.playlistcontainer.playlists.getD i 0)))
        s1).playlists = s1.playlists := by
    intro is
    induction is with
    | nil => exact fun _ => ⟨rfl, rfl⟩
    | cons i is ih =>
      intro s1
      rw [List.foldl_cons]
      exact ⟨(ih _).1, (ih _).2⟩
  exact hfold _ s

theorem request_set_result_frame (s : sp_session) (req : Nat) (error : sp_error)
    (output : request_data) :
    (request_set_result s req error output).playlistcontainer = s.playlistcontainer ∧
      (request_set_result s req error output).playlists = s.playlists := by
  unfold request_set_result
  split <;> exact ⟨rfl, rfl⟩

/-- A channel END in `playlistcontainer_callback` leaves the handles of the
container and the heap of playlists as the parser left them. -/
theorem playlistcontainer_callback_end_frame (env : environment) (s : sp_session) (req : Nat)
    (payload : List Char) :
    (playlistcontainer_callback env s req .CHANNEL_END payload).2.playlistcontainer.playlists =
        (playlistcontainer_parse_xml env s).2.playlistcontainer.playlists ∧
      (playlistcontainer_callback env s req .CHANNEL_END payload).2.playlists =
        (playlistcontainer_parse_xml env s).2.playlists := by
  unfold playlistcontainer_callback
  simp only []
  rw [if_pos (show (playlistcontainer_parse_xml env s).1 = 0 from rfl)]
  obtain ⟨h1, h2⟩ := request_set_result_frame
    (playlistcontainer_request_playlists env (playlistcontainer_parse_xml env s).2) req
    .SP_ERROR_OK .playlistcontainer
  obtain ⟨h3, h4⟩ := playlistcontainer_request_playlists_frame env
    (playlistcontainer_parse_xml env s).2
  exact ⟨by rw [h1, h3], by rw [h2, h4]⟩

theorem added_playlists_ids (bs : List (List Nat)) (old : List sp_playlist) (k : Nat) :
    (List.range' old.length bs.length).map
        (fun ptr => (playlist_at (old ++ added_playlists k bs) ptr).id) =
      bs.map (fun b => b.take 17) := by
  induction bs generalizing old k with
  | nil => rfl
  | cons b bs ih =>
    have hsplit : old ++ added_playlists k (b :: bs) =
        (old ++ [added_playlist b k]) ++ added_playlists (k + 1) bs := by
      simp [added_playlists]
    have ih2 := ih (old ++ [added_playlist b k]) (k + 1)
    rw [List.length_append, List.length_singleton] at ih2
    rw [List.length_cons, List.range'_succ, List.map_cons, List.map_cons, hsplit, ih2]
    congr 1
    have hhead : (old ++ [added_playlist b k] ++ added_playlists (k + 1) bs)[old.length]? =
        some (added_playlist b k) := by
      rw [List.getElem?_append_left (by simp), List.getElem?_append_right (Nat.le_refl _)]
      simp
    simp only [playlist_at, List.getD_eq_getElem?_getD, hhead, Option.getD_some]
    rfl

/-- The parser's effect on the container, from the loop lemmas. -/
theorem playlistcontainer_parse_xml_heap (env : environment) (s : sp_session)
    (root : ezxml_root) (ids : List (List Char)) (seps : List Char)
    (hn : s.playlistcontainer.num_playlists = s.playlistcontainer.playlists.length)
    (hroot : playlistcontainer_parse_root env s = some root)
    (hitems : root.items = some (join_ids ids seps))
    (hids : ∀ idstr ∈ ids, is_hex_id idstr) (hseps : ∀ c ∈ seps, is_delim c = true) :
    (playlistcontainer_parse_xml env s).2.playlistcontainer.playlists =
        s.playlistcontainer.playlists ++ List.range' s.playlists.length ids.length ∧
      (playlistcontainer_parse_xml env s).2.playlists =
        s.playlists ++ added_playlists s.playlistcontainer.num_playlists
          (ids.map (fun idstr => (hex_ascii_to_bytes idstr 17).getD [])) := by
  have htok : strtok (join_ids ids seps) = ids := by
    apply strtok_join_ids ids seps _ hseps
    intro idstr hidstr
    obtain ⟨hl, hh⟩ := hids idstr hidstr
    refine ⟨?_, fun c hc => hex_value_not_delim c (hh c hc)⟩
    intro hnil
    rw [hnil] at hl
    simp at hl
  have hget : ezxml_get (playlistcontainer_parse_root env s) (·.items) =
      some (join_ids ids seps) := by
    rw [hroot]
    exact hitems
  have hitems2 : playlistcontainer_parse_items env (playlistcontainer_parse_root env s)
      (playlistcontainer_parse_buf s) =
      (ids.foldl playlistcontainer_parse_item
        (env.stack.id, playlistcontainer_parse_buf s)).2 := by
    simp only [playlistcontainer_parse_items, hget, htok]
  obtain ⟨f1, f2, -⟩ := playlistcontainer_parse_items_foldl ids env.stack.id
    (playlistcontainer_parse_buf s) hn
  obtain ⟨d1, -⟩ := decode_ids_hex ids env.stack.id hids
  obtain ⟨v1, -, v3, -⟩ := playlistcontainer_parse_version_frame
    (playlistcontainer_parse_root env s)
    (playlistcontainer_parse_items env (playlistcontainer_parse_root env s)
      (playlistcontainer_parse_buf s))
  rw [playlistcontainer_parse_xml_eq, v1, v3, hitems2, f1, f2, d1]
  exact ⟨rfl, rfl⟩

/-- Claim C14, amended. After the container load completes, the ids of the
container's handles are the ids of the handles it held before, followed by
the ids listed in the reply, one new handle for each listed id in list order;
so no two handles have the same id when the ids held before and the ids
listed are pairwise distinct. -/
theorem playlistcontainer_load_ids (env : environment) (s : sp_session) (req : Nat)
    (payload : List Char) (root : ezxml_root) (ids : List (List Char)) (seps : List Char)
    (hok : container_ok s) (hroot : playlistcontainer_parse_root env s = some root)
    (hitems : root.items = some (join_ids ids seps))
    (hids : ∀ idstr ∈ ids, is_hex_id idstr) (hseps : ∀ c ∈ seps, is_delim c = true) :
    container_ids (playlistcontainer_callback env s req .CHANNEL_END payload).2 =
        container_ids s ++ ids.map (fun idstr => (hex_ascii_to_bytes idstr 17).getD []) ∧
      ((container_ids s ++
          ids.map (fun idstr => (hex_ascii_to_bytes idstr 17).getD [])).Nodup →
        (container_ids (playlistcontainer_callback env s req .CHANNEL_END payload).2).Nodup) := by
  obtain ⟨e1, e2⟩ := playlistcontainer_callback_end_frame env s req payload
  obtain ⟨p1, p2⟩ := playlistcontainer_parse_xml_heap env s root ids seps hok.1 hroot hitems
    hids hseps
  obtain ⟨-, d2⟩ := decode_ids_hex ids [] hids
  have hmain : container_ids (playlistcontainer_callback env s req .CHANNEL_END payload).2 =
      container_ids s ++ ids.map (fun idstr => (hex_ascii_to_bytes idstr 17).getD []) := by
    unfold container_ids
    rw [e1, e2, p1, p2, List.map_append]
    congr 1
    · apply List.map_congr_left
      intro ptr hptr
      have hlt := (hok.2 ptr hptr).1
      simp [playlist_at, List.getD_eq_getElem?_getD, List.getElem?_append_left hlt]
    · have hlen : ids.length =
          (ids.map (fun idstr => (hex_ascii_to_bytes idstr 17).getD [])).length := by simp
      rw [hlen, added_playlists_ids, List.map_map]
      apply List.map_congr_left
      intro idstr hidstr
      obtain ⟨bytes, hb, hbl⟩ := d2 idstr hidstr
      simp [hb, List.take_of_length_le (Nat.le_of_eq hbl)]
  exact ⟨hmain, fun h => by rw [hmain]; exact h⟩

set_option maxRecDepth 100000 in
/-- Scenario S1 as an instance of the amended claim C14: the fresh container
holds the two ids of the reply, which differ. -/
theorem playlistcontainer_load_ids_S1 :
    (container_ids (playlistcontainer_callback (example_env S1_root)
      (container_loading (render S1_root)) 0 .CHANNEL_END []).2).Nodup :=
  (playlistcontainer_load_ids (example_env S1_root) (container_loading (render S1_root)) 0 []
    S1_root
    ["aaaaaaaaaaaaaaaaaaaaaaaaaaaaaaaa01".toList, "bbbbbbbbbbbbbbbbbbbbbbbbbbbbbbbb01".toList]
    [','] (by unfold container_ok; decide) (by decide) (by decide) (by decide)
    (by decide)).2 (by decide)

set_option maxRecDepth 100000 in
/-- Claim C14 as stated fails: for a reply that lists the id `aa..aa01` twice
the container holds two handles with that id, and after a second load of the
container of scenario S1 each of its two ids has two handles. -/
theorem playlistcontainer_load_duplicates :
    container_ids (playlistcontainer_callback (example_env repeated_id_root)
        (container_loading (render repeated_id_root)) 0 .CHANNEL_END []).2 =
      [List.replicate 16 0xaa ++ [0x01], List.replicate 16 0xaa ++ [0x01]] ∧
    (playlistcontainer_callback (example_env repeated_id_root)
        (container_loading (render repeated_id_root)) 0 .CHANNEL_END
        []).2.playlistcontainer.playlists = [0, 1] ∧
    container_ids S1_loaded_twice =
      [List.replicate 16 0xaa ++ [0x01], List.replicate 16 0xbb ++ [0x01],
       List.replicate 16 0xaa ++ [0x01], List.replicate 16 0xbb ++ [0x01]] ∧
    S1_loaded_twice.playlistcontainer.playlists = [0, 1, 2, 3] := by
  decide

/-! ### Artists and albums -/

theorem hashtable_find_none_iff {κ : Type} [DecidableEq κ] (table : List (κ × Nat)) (key : κ) :
    hashtable_find table key = none ↔ key ∉ table.map Prod.fst := by
  unfold hashtable_find
  induction table with
  | nil => simp
  | cons e es ih =>
    by_cases h : e.1 = key
    · simp [List.find?_cons, h]
    · simp only [List.find?_cons, h, decide_False, List.map_cons, List.mem_cons]
      rw [ih]
      constructor
      · intro h1 h2
        rcases h2 with h2 | h2
        · exact h h2.symm
        · exact h1 h2
      · intro h1 h2
        exact h1 (Or.inr h2)

theorem hashtable_find_insert {κ : Type} [DecidableEq κ] (table : List (κ × Nat)) (key : κ)
    (value : Nat) (h : hashtable_find table key = none) :
    hashtable_find (hashtable_insert table key value) key = some value := by
  unfold hashtable_find hashtable_insert at *
  induction table with
  | nil => simp
  | cons e es ih =>
    by_cases he : e.1 = key
    · simp [List.find?_cons, he] at h
    · simp only [List.find?_cons, he, decide_False] at h
      simp only [List.cons_append, List.find?_cons, he, decide_False]
      exact ih h

theorem hashtable_find_remove {κ : Type} [DecidableEq κ] (table : List (κ × Nat)) (key : κ) :
    hashtable_find (hashtable_remove table key) key = none := by
  rw [hashtable_find_none_iff]
  unfold hashtable_remove
  intro h
  rw [List.mem_map] at h
  obtain ⟨e, he, hk⟩ := h
  rw [List.mem_filter] at he
  simp [hk] at he

/-- Claim C15. `osfy_artist_add` returns the handle the artist table holds
for the id when there is one and leaves the session as it is; otherwise it
creates one new artist with the id, no name, not loaded and `ref_count` 0 and
inserts it in the table under the id. A second call with the same id returns
the same handle and changes nothing, and a table that holds at most one
handle for every id still does so after the call. -/
theorem osfy_artist_add_interns :
    (∀ (s : sp_session) (id : List Nat) (artist : Nat),
      hashtable_find s.hashtable_artists (id.take 16) = some artist →
      osfy_artist_add s id = (artist, s)) ∧
    (∀ (s : sp_session) (id : List Nat),
      hashtable_find s.hashtable_artists (id.take 16) = none →
      (osfy_artist_add s id).1 = s.artists.length ∧
        (osfy_artist_add s id).2.artists = s.artists ++
          [some { id := id.take 16, name := none, is_loaded := false, ref_count := 0 }] ∧
        (osfy_artist_add s id).2.hashtable_artists =
          s.hashtable_artists ++ [(id.take 16, s.artists.length)] ∧
        hashtable_find (osfy_artist_add s id).2.hashtable_artists (id.take 16) =
          some s.artists.length) ∧
    (∀ (s : sp_session) (id : List Nat),
      osfy_artist_add (osfy_artist_add s id).2 id =
        ((osfy_artist_add s id).1, (osfy_artist_add s id).2)) ∧
    (∀ (s : sp_session) (id : List Nat),
      (s.hashtable_artists.map Prod.fst).Nodup →
      ((osfy_artist_add s id).2.hashtable_artists.map Prod.fst).Nodup) := by
  have hfound : ∀ (s : sp_session) (id : List Nat) (artist : Nat),
      hashtable_find s.hashtable_artists (id.take 16) = some artist →
      osfy_artist_add s id = (artist, s) := by
    intro s id artist h
    unfold osfy_artist_add
    rw [h]
  have hnew : ∀ (s : sp_session) (id : List Nat),
      hashtable_find s.hashtable_artists (id.take 16) = none →
      osfy_artist_add s id = (s.artists.length,
        { s with
          artists := s.artists ++
            [some { id := id.take 16, name := none, is_loaded := false, ref_count := 0 }],
          hashtable_artists := hashtable_insert s.hashtable_artists (id.take 16)
            s.artists.length }) := by
    intro s id h
    unfold osfy_artist_add
    rw [h]
  refine ⟨hfound, ?_, ?_, ?_⟩
  · intro s id h
    rw [hnew s id h]
    exact ⟨rfl, rfl, rfl, hashtable_find_insert _ _ _ h⟩
  · intro s id
    cases h : hashtable_find s.hashtable_artists (id.take 16) with
    | some artist =>
      rw [hfound s id artist h]
      exact hfound s id artist h
    | none =>
      have h2 : hashtable_find (osfy_artist_add s id).2.hashtable_artists (id.take 16) =
          some (osfy_artist_add s id).1 := by
        rw [hnew s id h]
        exact hashtable_find_insert _ _ _ h
      exact hfound _ id _ h2
  · intro s id hnodup
    cases h : hashtable_find s.hashtable_artists (id.take 16) with
    | some artist =>
      rw [hfound s id artist h]
      exact hnodup
    | none =>
      rw [hnew s id h]
      simp only [hashtable_insert, List.map_append, List.map_cons, List.map_nil]
      rw [List.nodup_append]
      refine ⟨hnodup, List.nodup_singleton _, ?_⟩
      intro a ha hb
      rw [List.mem_singleton] at hb
      rw [hb] at ha
      exact (hashtable_find_none_iff _ _).mp h ha

set_option maxRecDepth 100000 in
/-- An instance of claim C15: in the session with one artist, a call with the
artist's id returns handle 0 and changes nothing, and a call with another id
makes handle 1, which a second call returns again. -/
theorem osfy_artist_add_interns_example :
    osfy_artist_add (one_artist 2) (List.replicate 16 0x11) = (0, one_artist 2) ∧
      (osfy_artist_add (one_artist 2) (List.replicate 16 0x33)).1 = 1 ∧
      (osfy_artist_add (osfy_artist_add (one_artist 2) (List.replicate 16 0x33)).2
        (List.replicate 16 0x33)).1 = 1 :=
  ⟨osfy_artist_add_interns.1 (one_artist 2) (List.replicate 16 0x11) 0 (by decide),
   (osfy_artist_add_interns.2.1 (one_artist 2) (List.replicate 16 0x33) (by decide)).1,
   by decide⟩

theorem artist_at_some (s : sp_session) (artist : Nat) (a : sp_artist)
    (h : artist_at s artist = some a) :
    artist < s.artists.length ∧ s.artists[artist]? = some (some a) := by
  unfold artist_at at h
  rw [List.getD_eq_getElem?_getD] at h
  have hlt : artist < s.artists.length := by
    by_contra hc
    rw [List.getElem?_eq_none (by omega)] at h
    simp at h
  refine ⟨hlt, ?_⟩
  rw [List.getElem?_eq_getElem hlt] at h ⊢
  simp only [Option.getD_some] at h
  rw [h]

theorem artist_at_set (s : sp_session) (artist : Nat) (x : Option sp_artist)
    (table : List (List Nat × Nat)) (h : artist < s.artists.length) :
    artist_at (artist_store s artist x table) artist = x := by
  simp [artist_store, artist_at, List.getD_eq_getElem?_getD, List.getElem?_set, h]

/-- Claim C16. For an artist with `ref_count` n > 0, `sp_artist_release`
leaves `ref_count` n - 1 and the table as it was when n > 1; when n = 1 it
removes the entry of the artist's id from the table and frees the artist, so
that a lookup of the id finds no handle. `sp_artist_add_ref` followed by
`sp_artist_release` gives the session from before back. -/
theorem sp_artist_release_spec (s : sp_session) (artist : Nat) (a : sp_artist)
    (h : artist_at s artist = some a) (hn : 0 < a.ref_count) :
    (1 < a.ref_count →
      ∃ s1, sp_artist_release s artist = some s1 ∧
        artist_at s1 artist = some { a with ref_count := a.ref_count - 1 } ∧
        s1.hashtable_artists = s.hashtable_artists) ∧
    (a.ref_count = 1 →
      ∃ s1, sp_artist_release s artist = some s1 ∧
        artist_at s1 artist = none ∧
        s1.hashtable_artists = hashtable_remove s.hashtable_artists a.id ∧
        hashtable_find s1.hashtable_artists a.id = none) ∧
    sp_artist_release (sp_artist_add_ref s artist) artist = some s := by
  obtain ⟨hlt, hget⟩ := artist_at_some s artist a h
  have hrel : ∀ (s0 : sp_session) (b : sp_artist), artist_at s0 artist = some b →
      0 < b.ref_count →
      sp_artist_release s0 artist =
        if b.ref_count - 1 ≠ 0 then
          some (artist_store s0 artist (some { b with ref_count := b.ref_count - 1 })
            s0.hashtable_artists)
        else
          osfy_artist_free
            (artist_store s0 artist (some { b with ref_count := b.ref_count - 1 })
              s0.hashtable_artists) artist := by
    intro s0 b hb hpos
    unfold sp_artist_release
    rw [hb]
    simp only []
    rw [if_pos hpos]
    rfl
  refine ⟨?_, ?_, ?_⟩
  · intro h1
    refine ⟨_, ?_, artist_at_set s artist _ s.hashtable_artists hlt, rfl⟩
    rw [hrel s a h hn, if_pos (by omega)]
  · intro h1
    have hmid := artist_at_set s artist (some { a with ref_count := a.ref_count - 1 })
      s.hashtable_artists hlt
    have hfree : osfy_artist_free
        (artist_store s artist (some { a with ref_count := a.ref_count - 1 })
          s.hashtable_artists) artist =
        some (artist_store s artist none (hashtable_remove s.hashtable_artists a.id)) := by
      unfold osfy_artist_free
      rw [hmid]
      simp only []
      rw [if_pos (by omega)]
      simp [artist_store]
    refine ⟨_, ?_, artist_at_set s artist none _ hlt, rfl, hashtable_find_remove _ _⟩
    rw [hrel s a h hn, if_neg (by omega), hfree]
    rfl
  · have hadd : sp_artist_add_ref s artist =
        artist_store s artist (some { a with ref_count := a.ref_count + 1 })
          s.hashtable_artists := by
      unfold sp_artist_add_ref
      rw [h]
      rfl
    have hmid := artist_at_set s artist (some { a with ref_count := a.ref_count + 1 })
      s.hashtable_artists hlt
    rw [hadd, hrel _ _ hmid (Nat.succ_pos _), if_pos (by simp; omega)]
    have hback : s.artists.set artist (some a) = s.artists := by
      apply List.ext_getElem?
      intro i
      by_cases hi : i = artist
      · subst hi
        simp [List.getElem?_set, hlt, hget]
      · simp [List.getElem?_set, Ne.symm hi]
    simp [artist_store, hback]

set_option maxRecDepth 100000 in
/-- An instance of claim C16: the artist of the example with one reference is
released; it is freed and a lookup of its id finds nothing. -/
theorem sp_artist_release_last :
    ∃ s1, sp_artist_release (one_artist 1) 0 = some s1 ∧ artist_at s1 0 = none ∧
      s1.hashtable_artists = hashtable_remove (one_artist 1).hashtable_artists
        (List.replicate 16 0x11) ∧
      hashtable_find s1.hashtable_artists (List.replicate 16 0x11) = none :=
  (sp_artist_release_spec (one_artist 1) 0 _ rfl (by decide)).2.1 rfl

/-- Claim C17, the behaviour of the code. For an album whose `ref_count` is
1, `sp_album_release` decrements the count to 0 and does nothing else: the
album is not freed and the album table is as before, so a lookup of its id
still finds the handle. -/
theorem sp_album_release_keeps_album (s : sp_session) (album : Nat) (a : sp_album)
    (h : album_at s album = some a) (h1 : a.ref_count = 1) :
    album_at (sp_album_release s album) album = some { a with ref_count := 0 } ∧
      (sp_album_release s album).hashtable_albums = s.hashtable_albums ∧
      hashtable_find (sp_album_release s album).hashtable_albums a.id =
        hashtable_find s.hashtable_albums a.id := by
  have hlt : album < s.albums.length := by
    unfold album_at at h
    rw [List.getD_eq_getElem?_getD] at h
    by_contra hc
    rw [List.getElem?_eq_none (by omega)] at h
    simp at h
  unfold sp_album_release
  rw [h]
  simp only []
  rw [if_pos (by omega), h1]
  refine ⟨?_, rfl, rfl⟩
  simp [album_at, List.getD_eq_getElem?_getD, List.getElem?_set, hlt]

set_option maxRecDepth 100000 in
/-- The failing input of claim C17: the album of the example with one
reference is released; it is still allocated, with `ref_count` 0, and a
lookup of its id still returns handle 0. -/
theorem sp_album_release_keeps_album_example :
    (album_at (sp_album_release (one_album 1) 0) 0).map (fun a => a.ref_count) = some 0 ∧
      hashtable_find (sp_album_release (one_album 1) 0).hashtable_albums
        (List.replicate 16 0x22) = some 0 := by
  obtain ⟨h1, -, h3⟩ := sp_album_release_keeps_album (one_album 1) 0 _ rfl rfl
  rw [h1, h3]
  decide

/-! ### The session -/

/-- Claim C18. `sp_session_init` returns, without storing a session,
`SP_ERROR_INVALID_INDATA` for a null config; else `SP_ERROR_BAD_API_VERSION`
when `api_version` differs from `SPOTIFY_API_VERSION`; else
`SP_ERROR_BAD_USER_AGENT` when `user_agent` is null or longer than 4095
bytes; else `SP_ERROR_BAD_APPLICATION_KEY` when `application_key` is null,
`application_key_size` is not 321 or the first byte of the key is not `0x01`.
A config that passes the four checks gets none of these errors, and
`SP_ERROR_OK` with a session when the system plays along. -/
theorem sp_session_init_validation (env : environment) (version : Int) (sys : init_outcome) :
    sp_session_init env version sys none = (.SP_ERROR_INVALID_INDATA, none) ∧
    (∀ c : sp_session_config, c.api_version ≠ version →
      sp_session_init env version sys (some c) = (.SP_ERROR_BAD_API_VERSION, none)) ∧
    (∀ c : sp_session_config, c.api_version = version →
      (c.user_agent = none ∨ ∃ agent, c.user_agent = some agent ∧ agent.length > 4095) →
      sp_session_init env version sys (some c) = (.SP_ERROR_BAD_USER_AGENT, none)) ∧
    (∀ (c : sp_session_config) (agent : List Char), c.api_version = version →
      c.user_agent = some agent → agent.length ≤ 4095 →
      (c.application_key = none ∨ c.application_key_size ≠ 321 ∨
        ∃ key, c.application_key = some key ∧ key.getD 0 0 ≠ 0x01) →
      sp_session_init env version sys (some c) = (.SP_ERROR_BAD_APPLICATION_KEY, none)) ∧
    (∀ (c : sp_session_config) (agent : List Char) (key : List Nat), c.api_version = version →
      c.user_agent = some agent → agent.length ≤ 4095 →
      c.application_key = some key → c.application_key_size = 321 → key.getD 0 0 = 0x01 →
      (sp_session_init env version sys (some c)).1 ≠ .SP_ERROR_INVALID_INDATA ∧
        (sp_session_init env version sys (some c)).1 ≠ .SP_ERROR_BAD_API_VERSION ∧
        (sp_session_init env version sys (some c)).1 ≠ .SP_ERROR_BAD_USER_AGENT ∧
        (sp_session_init env version sys (some c)).1 ≠ .SP_ERROR_BAD_APPLICATION_KEY ∧
        (sys = good_system →
          (sp_session_init env version sys (some c)).1 = .SP_ERROR_OK ∧
            (sp_session_init env version sys (some c)).2.isSome = true)) := by
  refine ⟨rfl, ?_, ?_, ?_, ?_⟩
  · intro c hv
    unfold sp_session_init
    simp only []
    rw [if_pos (by omega)]
  · intro c hv hua
    unfold sp_session_init
    simp only []
    rw [if_neg (by omega), if_pos]
    rcases hua with h | ⟨agent, h, hlen⟩
    · exact Or.inl h
    · right
      rw [h]
      exact hlen
  · intro c agent hv hua hlen hkey
    unfold sp_session_init
    simp only []
    rw [if_neg (by omega), if_neg (by rw [hua]; simp; omega), if_pos]
    rcases hkey with h | h | ⟨key, h, hk⟩
    · exact Or.inl h
    · exact Or.inr (Or.inl h)
    · right
      right
      rw [h]
      exact hk
  · intro c agent key hv hua hlen hkey hsize hfirst
    have hstep : sp_session_init env version sys (some c) =
        if sys.malloc_session = false then (.SP_ERROR_API_INITIALIZATION_FAILED, none)
        else if sys.malloc_user = false then (.SP_ERROR_API_INITIALIZATION_FAILED, none)
        else if sys.pthread_create = false then (.SP_ERROR_OTHER_TRANSIENT, none)
        else if sys.player_init = false then (.SP_ERROR_OTHER_TRANSIENT, none)
        else (.SP_ERROR_OK, some (request_post env.get_millisecs
          (playlistcontainer_create default) .REQ_TYPE_CACHE_PERIODIC .null)) := by
      unfold sp_session_init
      simp only []
      have hnokey : ¬ (c.application_key = none ∨ c.application_key_size ≠ 321 ∨
          (c.application_key.getD []).getD 0 0 ≠ 0x01) := by
        intro h
        rcases h with h | h | h
        · rw [hkey] at h
          exact absurd h (by simp)
        · exact h hsize
        · rw [hkey] at h
          exact h hfirst
      rw [if_neg (by omega), if_neg (by rw [hua]; simp; omega), if_neg hnokey]
    rw [hstep]
    refine ⟨?_, ?_, ?_, ?_, ?_⟩
    · split_ifs <;> simp
    · split_ifs <;> simp
    · split_ifs <;> simp
    · split_ifs <;> simp
    · intro hsys
      rw [hsys]
      exact ⟨rfl, rfl⟩

/-- An instance of claim C18 at the limits: a user agent of exactly 4095 bytes
and a key of 321 bytes that starts with `0x01` pass, and the session is
initialised. -/
theorem sp_session_init_validation_limits :
    (sp_session_init (example_env S1_root) 3 good_system (some good_config)).1 =
      .SP_ERROR_OK :=
  (((sp_session_init_validation (example_env S1_root) 3 good_system).2.2.2.2 good_config
    (List.replicate 4095 'a') (0x01 :: List.replicate 320 0x5a) rfl rfl
    (by rw [List.length_replicate]) rfl rfl rfl).2.2.2.2 rfl).1

theorem sp_track_add_ref_eq (s : sp_session) (track : Nat) (h : track < s.tracks.length) :
    (sp_track_add_ref s track).player = s.player ∧
      (track_at (sp_track_add_ref s track).tracks track).ref_count =
        (track_at s.tracks track).ref_count + 1 ∧
      (∀ other, other ≠ track →
        track_at (sp_track_add_ref s track).tracks other = track_at s.tracks other) ∧
      (sp_track_add_ref s track).requests = s.requests ∧
      (sp_track_add_ref s track).playlists = s.playlists := by
  unfold sp_track_add_ref
  rw [List.getElem?_eq_getElem h]
  refine ⟨rfl, ?_, ?_, rfl, rfl⟩
  · simp [track_at, List.getD_eq_getElem?_getD, List.getElem?_set, h]
  · intro other hne
    simp [track_at, List.getD_eq_getElem?_getD, List.getElem?_set, Ne.symm hne]

/-- Claim C19. `sp_session_player_load` returns `SP_ERROR_INVALID_INDATA` for
a null session or track, else `SP_ERROR_RESOURCE_NOT_LOADED` for a track that
is not loaded, else `SP_ERROR_TRACK_NOT_PLAYABLE` for a track that is not
available, and leaves the session as it is in these cases; else it returns
`SP_ERROR_OK`, has pushed `PLAYER_UNLOAD` and then `PLAYER_LOAD` with the
track, and has incremented the `ref_count` of the track, and of no other
track, by one. -/
theorem sp_session_player_load_spec :
    (∀ track, sp_session_player_load none track = (.SP_ERROR_INVALID_INDATA, none)) ∧
    (∀ s, sp_session_player_load (some s) none = (.SP_ERROR_INVALID_INDATA, some s)) ∧
    (∀ s t, sp_track_is_loaded s t = false →
      sp_session_player_load (some s) (some t) = (.SP_ERROR_RESOURCE_NOT_LOADED, some s)) ∧
    (∀ s t, sp_track_is_loaded s t = true → sp_track_is_available s t = false →
      sp_session_player_load (some s) (some t) = (.SP_ERROR_TRACK_NOT_PLAYABLE, some s)) ∧
    (∀ s t, sp_track_is_loaded s t = true → sp_track_is_available s t = true →
      ∃ s1, sp_session_player_load (some s) (some t) = (.SP_ERROR_OK, some s1) ∧
        s1.player = s.player ++
          [{ cmd := .PLAYER_UNLOAD, data := none, len := 0 },
           { cmd := .PLAYER_LOAD, data := some t, len := sizeof_pointer }] ∧
        (track_at s1.tracks t).ref_count = (track_at s.tracks t).ref_count + 1 ∧
        (∀ other, other ≠ t → track_at s1.tracks other = track_at s.tracks other)) := by
  refine ⟨?_, ?_, ?_, ?_, ?_⟩
  · intro track
    cases track <;> rfl
  · intro s
    rfl
  · intro s t h
    simp [sp_session_player_load, h]
  · intro s t h1 h2
    simp [sp_session_player_load, h1, h2]
  · intro s t h1 h2
    have hlt : t < s.tracks.length := by
      by_contra hc
      have hdef : track_at s.tracks t = default := by
        simp [track_at, List.getD_eq_getElem?_getD, List.getElem?_eq_none (Nat.le_of_not_lt hc)]
      unfold sp_track_is_loaded at h1
      rw [hdef] at h1
      exact absurd h1 (by decide)
    obtain ⟨a1, a2, a3, -⟩ := sp_track_add_ref_eq (player_push s .PLAYER_UNLOAD none 0) t hlt
    refine ⟨player_push (sp_track_add_ref (player_push s .PLAYER_UNLOAD none 0) t)
      .PLAYER_LOAD (some t) sizeof_pointer, ?_, ?_, a2, a3⟩
    · simp [sp_session_player_load, h1, h2]
    · show (sp_track_add_ref (player_push s .PLAYER_UNLOAD none 0) t).player ++ _ = _
      rw [a1]
      simp [player_push]

set_option maxRecDepth 100000 in
/-- An instance of claim C19: the loaded and available track of the example,
with two references, is loaded into the player; the two commands are pushed
and the track has three references. -/
theorem sp_session_player_load_example :
    ∃ s1, sp_session_player_load (some one_track) (some 0) = (.SP_ERROR_OK, some s1) ∧
      s1.player = one_track.player ++
        [{ cmd := .PLAYER_UNLOAD, data := none, len := 0 },
         { cmd := .PLAYER_LOAD, data := some 0, len := sizeof_pointer }] ∧
      (track_at s1.tracks 0).ref_count = (track_at one_track.tracks 0).ref_count + 1 ∧
      (∀ other, other ≠ 0 → track_at s1.tracks other = track_at one_track.tracks other) :=
  sp_session_player_load_spec.2.2.2.2 one_track 0 rfl rfl

/-! ### Processing a request -/

theorem request_store_eq (s : sp_session) (req : Nat) (r : request) (f : request → request)
    (hreq : s.requests[req]? = some r) :
    request_store s req f = requests_set s req (f r) := by
  unfold request_store requests_set
  rw [hreq]

theorem requests_set_getD (s : sp_session) (req : Nat) (r r1 : request)
    (hreq : s.requests[req]? = some r) :
    (requests_set s req r1).requests.getD req default = r1 ∧
      (requests_set s req r1).requests[req]? = some r1 := by
  have hlt := getElem?_lt_of_some _ _ _ hreq
  simp [requests_set, List.getD_eq_getElem?_getD, List.getElem?_set, hlt]

theorem playlist_send_request_eq (env : environment) (s : sp_session) (req q : Nat)
    (h : (s.requests.getD req default).input = .playlist q) :
    playlist_send_request env s req =
      some (cmd_getplaylist env
        (playlist_store s q (fun p => { p with buf := some decl_and_root }))
        (playlist_at s.playlists q).id 0xffffffff .playlist_callback req) := by
  have hid : (playlist_at (playlist_store s q
      (fun p => { p with buf := some decl_and_root })).playlists q).id =
      (playlist_at s.playlists q).id := by
    rw [playlist_at_store]
    split <;> rfl
  unfold playlist_send_request
  rw [h]
  show some (cmd_getplaylist env
    (playlist_store s q (fun p => { p with buf := some decl_and_root }))
    (playlist_at (playlist_store s q
      (fun p => { p with buf := some decl_and_root })).playlists q).id 0xffffffff
    .playlist_callback req) = _
  rw [hid]

theorem playlist_send_change_eq (env : environment) (s : sp_session) (req q : Nat)
    (h : (s.requests.getD req default).input = .playlist q) :
    (∀ xml, (playlist_at s.playlists q).buf = some xml →
      playlist_send_change env s req =
        some (env.cmd_status,
          playlist_store
            (cmd_changeplaylist env s (playlist_at s.playlists q).id xml
              (playlist_at s.playlists q).revision (playlist_at s.playlists q).num_tracks
              (playlist_at s.playlists q).checksum (playlist_at s.playlists q).shared
              .playlist_callback req).2 q
            (fun p => { p with buf := some decl_and_root }))) ∧
    ((playlist_at s.playlists q).buf = none → playlist_send_change env s req = none) := by
  constructor
  · intro xml hbuf
    unfold playlist_send_change
    rw [h]
    simp only []
    rw [hbuf]
    rfl
  · intro hbuf
    unfold playlist_send_change
    rw [h]
    simp only []
    rw [hbuf]

/-- Claim C20. `playlist_process` promotes a NEW request to RUNNING and
leaves other states alone. If the deadline lies after `get_millisecs()` it
returns 0 and changes nothing else: the deadline stays and nothing is sent.
Otherwise it sets the deadline to `INT_MAX` and hands the request to
`playlistcontainer_send_request`, `playlist_send_request` or
`playlist_send_change` for the types PC_LOAD, PLAYLIST_LOAD and
PLAYLIST_CHANGE, whose outcome is its own, and returns -1 for any other type.
For a request whose input is a playlist, `playlist_send_request` gives the
playlist a new buffer with the declaration and sends GETPLAYLIST for its id;
`playlist_send_change` sends CHANGEPLAYLIST with the text of the pending
buffer and then replaces the buffer, and does not return when the playlist
has no buffer, which it reads through. -/
theorem playlist_process_spec (env : environment) (s : sp_session) (req : Nat) (r : request)
    (hreq : s.requests[req]? = some r) :
    (r.next_timeout > env.get_millisecs →
      playlist_process env s req = some (0, requests_set s req (promoted r)) ∧
      (requests_set s req (promoted r)).commands = s.commands ∧
      ((requests_set s req (promoted r)).requests.getD req default).next_timeout =
        r.next_timeout) ∧
    (¬ r.next_timeout > env.get_millisecs →
      (r.type = .REQ_TYPE_PC_LOAD →
        playlist_process env s req = some (playlistcontainer_send_request env
          (requests_set s req { promoted r with next_timeout := env.INT_MAX }) req)) ∧
      (r.type = .REQ_TYPE_PLAYLIST_LOAD →
        playlist_process env s req = playlist_send_request env
          (requests_set s req { promoted r with next_timeout := env.INT_MAX }) req) ∧
      (r.type = .REQ_TYPE_PLAYLIST_CHANGE →
        playlist_process env s req = playlist_send_change env
          (requests_set s req { promoted r with next_timeout := env.INT_MAX }) req) ∧
      (r.type ≠ .REQ_TYPE_PC_LOAD → r.type ≠ .REQ_TYPE_PLAYLIST_LOAD →
        r.type ≠ .REQ_TYPE_PLAYLIST_CHANGE →
        playlist_process env s req =
          some (-1, requests_set s req { promoted r with next_timeout := env.INT_MAX }))) ∧
    (∀ q, r.input = .playlist q →
      playlist_send_request env
          (requests_set s req { promoted r with next_timeout := env.INT_MAX }) req =
        some (cmd_getplaylist env
          (playlist_store (requests_set s req { promoted r with next_timeout := env.INT_MAX })
            q (fun p => { p with buf := some decl_and_root }))
          (playlist_at s.playlists q).id 0xffffffff .playlist_callback req) ∧
      (∀ xml, (playlist_at s.playlists q).buf = some xml →
        playlist_send_change env
            (requests_set s req { promoted r with next_timeout := env.INT_MAX }) req =
          some (env.cmd_status,
            playlist_store
              (cmd_changeplaylist env
                (requests_set s req { promoted r with next_timeout := env.INT_MAX })
                (playlist_at s.playlists q).id xml
                (playlist_at s.playlists q).revision (playlist_at s.playlists q).num_tracks
                (playlist_at s.playlists q).checksum (playlist_at s.playlists q).shared
                .playlist_callback req).2 q
              (fun p => { p with buf := some decl_and_root }))) ∧
      ((playlist_at s.playlists q).buf = none →
        playlist_send_change env
          (requests_set s req { promoted r with next_timeout := env.INT_MAX }) req = none)) := by
  have hget0 : s.requests.getD req default = r := by
    simp [List.getD_eq_getElem?_getD, hreq]
  have hfirst : (if (s.requests.getD req default).state = .REQ_STATE_NEW then
      request_store s req (fun r => { r with state := .REQ_STATE_RUNNING }) else s) =
      requests_set s req (promoted r) := by
    rw [hget0]
    by_cases hc : r.state = .REQ_STATE_NEW
    · rw [if_pos hc, request_store_eq s req r _ hreq]
      unfold promoted
      rw [if_pos hc]
    · rw [if_neg hc]
      unfold promoted requests_set
      rw [if_neg hc]
      have hback : s.requests.set req r = s.requests := by
        apply List.ext_getElem?
        intro i
        by_cases hi : i = req
        · subst hi
          simp [List.getElem?_set, getElem?_lt_of_some _ _ _ hreq, hreq]
        · simp [List.getElem?_set, Ne.symm hi]
      show s = { s with requests := s.requests.set req r }
      rw [hback]
  obtain ⟨hp1, hp2⟩ := requests_set_getD s req r (promoted r) hreq
  have htime : (promoted r).next_timeout = r.next_timeout := rfl
  have htype : (promoted r).type = r.type := rfl
  have hsecond : request_store (requests_set s req (promoted r)) req
      (fun r => { r with next_timeout := env.INT_MAX }) =
      requests_set s req { promoted r with next_timeout := env.INT_MAX } := by
    rw [request_store_eq _ req (promoted r) _ hp2]
    unfold requests_set
    simp
  obtain ⟨hq1, -⟩ := requests_set_getD s req r
    { promoted r with next_timeout := env.INT_MAX } hreq
  have hmain : playlist_process env s req =
      if r.next_timeout > env.get_millisecs then some (0, requests_set s req (promoted r))
      else if r.type = .REQ_TYPE_PC_LOAD then
        some (playlistcontainer_send_request env
          (requests_set s req { promoted r with next_timeout := env.INT_MAX }) req)
      else if r.type = .REQ_TYPE_PLAYLIST_LOAD then
        playlist_send_request env
          (requests_set s req { promoted r with next_timeout := env.INT_MAX }) req
      else if r.type = .REQ_TYPE_PLAYLIST_CHANGE then
        playlist_send_change env
          (requests_set s req { promoted r with next_timeout := env.INT_MAX }) req
      else some (-1, requests_set s req { promoted r with next_timeout := env.INT_MAX }) := by
    unfold playlist_process
    simp only []
    rw [hfirst, hp1, htime, hsecond, hq1]
    simp only [htype]
  rw [hmain]
  refine ⟨?_, ?_, ?_⟩
  · intro h
    rw [if_pos h]
    exact ⟨rfl, rfl, by rw [hp1, htime]⟩
  · intro h
    rw [if_neg h]
    refine ⟨?_, ?_, ?_, ?_⟩
    · intro ht
      rw [if_pos ht]
    · intro ht
      rw [if_neg (by rw [ht]; decide), if_pos ht]
    · intro ht
      rw [if_neg (by rw [ht]; decide), if_neg (by rw [ht]; decide), if_pos ht]
    · intro h1 h2 h3
      rw [if_neg h1, if_neg h2, if_neg h3]
  · intro q hinput
    have hin : ((requests_set s req
        { promoted r with next_timeout := env.INT_MAX }).requests.getD req default).input =
        .playlist q := by
      rw [hq1]
      exact hinput
    obtain ⟨c1, c2⟩ := playlist_send_change_eq env
      (requests_set s req { promoted r with next_timeout := env.INT_MAX }) req q hin
    exact ⟨playlist_send_request_eq env _ req q hin, c1, c2⟩

set_option maxRecDepth 100000 in
/-- Instances of claim C20. At the time 5000 a NEW request to load a playlist
whose deadline 0 has passed becomes RUNNING with the deadline `INT_MAX`, the
playlist gets a new buffer with the declaration and one GETPLAYLIST command
is sent; with the deadline 6000 the request becomes RUNNING and nothing else
happens. A request to change a playlist of revision 7 with the pending buffer
`<change/>` sends one CHANGEPLAYLIST command with that text; for a playlist
without buffer `playlist_process` does not return. -/
theorem playlist_process_spec_example :
    playlist_process (example_env S1_root)
        (one_request .REQ_TYPE_PLAYLIST_LOAD .REQ_STATE_NEW 0) 0 =
      some (0, { one_request .REQ_TYPE_PLAYLIST_LOAD .REQ_STATE_RUNNING 2147483647 with
            playlists := [{ added_playlist (List.replicate 16 0xaa ++ [0x01]) 0 with
              buf := some decl_and_root }],
            commands := [command.getplaylist (List.replicate 16 0xaa ++ [0x01]) 0xffffffff
              .playlist_callback 0] }) ∧
    playlist_process (example_env S1_root)
        (one_request .REQ_TYPE_PLAYLIST_LOAD .REQ_STATE_NEW 6000) 0 =
      some (0, one_request .REQ_TYPE_PLAYLIST_LOAD .REQ_STATE_RUNNING 6000) ∧
    (playlist_process late_env
        (playlist_loading .REQ_TYPE_PLAYLIST_CHANGE 7 "<change/>".toList) 0).map
        (fun result => (result.1, result.2.commands,
          (playlist_at result.2.playlists 0).buf)) =
      some (0, [command.changeplaylist (List.replicate 16 0xaa ++ [0x01])
          (decl_and_root ++ "<change/>".toList) 7 0 0 0 .playlist_callback 0],
        some decl_and_root) ∧
    playlist_process (example_env S1_root)
        (one_request .REQ_TYPE_PLAYLIST_CHANGE .REQ_STATE_RUNNING 0) 0 = none :=
  ⟨(((playlist_process_spec (example_env S1_root)
      (one_request .REQ_TYPE_PLAYLIST_LOAD .REQ_STATE_NEW 0) 0 _ rfl).2.1
      (by decide)).2.1 rfl).trans (by decide),
   (((playlist_process_spec (example_env S1_root)
      (one_request .REQ_TYPE_PLAYLIST_LOAD .REQ_STATE_NEW 6000) 0 _ rfl).1
      (by decide)).1).trans (by decide),
   by decide,
   (((playlist_process_spec (example_env S1_root)
      (one_request .REQ_TYPE_PLAYLIST_CHANGE .REQ_STATE_RUNNING 0) 0 _ rfl).2.1
      (by decide)).2.2.1 rfl).trans
    (((playlist_process_spec (example_env S1_root)
      (one_request .REQ_TYPE_PLAYLIST_CHANGE .REQ_STATE_RUNNING 0) 0 _ rfl).2.2 0 rfl).2.2
      rfl)⟩

/-! ### The fan-out of the container load -/

theorem playlistcontainer_request_playlists_eq (env : environment) (s : sp_session) :
    (playlistcontainer_request_playlists env s).requests =
      s.requests ++ (List.range s.playlistcontainer.num_playlists).map
        (fun i => load_request env (s.playlistcontainer.playlists.getD i 0)) := by
  have hfold : ∀ (is : List Nat) (s1 : sp_session),
      (is.foldl (fun s2 i => request_post env.get_millisecs s2
        .REQ_TYPE_PLAYLIST_LOAD (.playlist (s2.playlistcontainer.playlists.getD i 0)))
        s1).requests = s1.requests ++ is.map
          (fun i => load_request env (s1.playlistcontainer.playlists.getD i 0)) := by
    intro is
    induction is with
    | nil => exact fun s1 => by simp
    | cons i is ih =>
      intro s1
      rw [List.foldl_cons, ih]
      simp [request_post, load_request]
  exact hfold _ s

theorem map_range_getD {α β : Type} (l : List α) (d : α) (f : α → β) :
    (List.range l.length).map (fun i => f (l.getD i d)) = l.map f := by
  apply List.ext_getElem
  · simp
  · intro i h1 h2
    simp only [List.length_map, List.length_range] at h1
    simp [List.getD_eq_getElem?_getD, List.getElem?_eq_getElem h1]

/-- The parser of the container reply posts `REQ_TYPE_PC_PLAYLIST_ADD` results
only and keeps the count of the container equal to the length of its array. -/
theorem playlistcontainer_parse_xml_posts (env : environment) (s : sp_session)
    (hn : s.playlistcontainer.num_playlists = s.playlistcontainer.playlists.length) :
    posts (fun x => x.type = .REQ_TYPE_PC_PLAYLIST_ADD ∧ x.state = .REQ_STATE_RETURNED) s
        (playlistcontainer_parse_xml env s).2 ∧
      (playlistcontainer_parse_xml env s).2.playlistcontainer.num_playlists =
        (playlistcontainer_parse_xml env s).2.playlistcontainer.playlists.length := by
  obtain ⟨v1, v2, -, v4⟩ := playlistcontainer_parse_version_frame
    (playlistcontainer_parse_root env s)
    (playlistcontainer_parse_items env (playlistcontainer_parse_root env s)
      (playlistcontainer_parse_buf s))
  rw [playlistcontainer_parse_xml_eq, v1, v2]
  have hbuf : (playlistcontainer_parse_buf s).playlistcontainer.num_playlists =
      (playlistcontainer_parse_buf s).playlistcontainer.playlists.length := hn
  unfold posts
  rw [v4]
  unfold playlistcontainer_parse_items
  split
  · rename_i id_list _
    obtain ⟨f1, -, f3, -⟩ := playlistcontainer_parse_items_foldl (strtok id_list) env.stack.id
      (playlistcontainer_parse_buf s) hbuf
    rw [f1, f3]
    refine ⟨⟨_, rfl, ?_⟩, ?_⟩
    · intro x hx
      rw [List.mem_map] at hx
      obtain ⟨k, -, hk⟩ := hx
      rw [← hk]
      exact ⟨rfl, rfl⟩
    · show s.playlistcontainer.num_playlists + _ = (s.playlistcontainer.playlists ++ _).length
      rw [List.length_append, List.length_range', hn]
  · exact ⟨⟨[], by simp [playlistcontainer_parse_buf], by simp⟩, hn⟩

/-- Claim C21. For a container whose count is the length of its array, a
channel END in `playlistcontainer_callback` leaves the queue as the parser
left it (the former requests and the parser's `REQ_TYPE_PC_PLAYLIST_ADD`
results), followed by one `REQ_TYPE_PLAYLIST_LOAD` request for every playlist
the container holds after the parse, in container order, the i-th with the
playlist at index i as input; the request of the callback is then completed
with `SP_ERROR_OK` and the container as output. -/
theorem playlistcontainer_load_fan_out (env : environment) (s : sp_session) (req : Nat)
    (r : request) (payload : List Char) (hreq : s.requests[req]? = some r)
    (hn : s.playlistcontainer.num_playlists = s.playlistcontainer.playlists.length) :
    ∃ added, (playlistcontainer_parse_xml env s).2.requests = s.requests ++ added ∧
      (∀ x ∈ added, x.type = .REQ_TYPE_PC_PLAYLIST_ADD ∧ x.state = .REQ_STATE_RETURNED) ∧
      (playlistcontainer_callback env s req .CHANNEL_END payload).2.requests =
        (s.requests ++ added ++
          (playlistcontainer_parse_xml env s).2.playlistcontainer.playlists.map
            (load_request env)).set req
          { r with error := .SP_ERROR_OK, output := .playlistcontainer,
                   state := .REQ_STATE_RETURNED } ∧
      (playlistcontainer_callback env s req .CHANNEL_END payload).2.playlistcontainer.playlists =
        (playlistcontainer_parse_xml env s).2.playlistcontainer.playlists ∧
      (playlistcontainer_parse_xml env s).2.playlistcontainer.playlists.length =
        (playlistcontainer_parse_xml env s).2.playlistcontainer.num_playlists := by
  obtain ⟨⟨added, ha, hadded⟩, hn1⟩ := playlistcontainer_parse_xml_posts env s hn
  obtain ⟨e1, -⟩ := playlistcontainer_callback_end_frame env s req payload
  refine ⟨added, ha, hadded, ?_, e1, hn1.symm⟩
  have hposted := playlistcontainer_request_playlists_eq env (playlistcontainer_parse_xml env s).2
  rw [hn1, map_range_getD, ha] at hposted
  have hat : (playlistcontainer_request_playlists env
      (playlistcontainer_parse_xml env s).2).requests[req]? = some r := by
    rw [hposted, List.append_assoc]
    exact getElem?_append_some _ _ _ _ hreq
  have hset := request_set_result_eq _ req r .SP_ERROR_OK .playlistcontainer hat
  rw [hposted] at hset
  unfold playlistcontainer_callback
  simp only []
  rw [if_pos (show (playlistcontainer_parse_xml env s).1 = 0 from rfl)]
  exact hset.1

set_option maxRecDepth 100000 in
/-- Scenario S1 as an instance of claim C21: after the reply with two ids the
queue holds the completed `REQ_TYPE_PC_LOAD` request, the two results with
positions 0 and 1, and two `REQ_TYPE_PLAYLIST_LOAD` requests, for the
playlists at the container indices 0 and 1. -/
theorem playlistcontainer_load_fan_out_S1 :
    (playlistcontainer_callback (example_env S1_root)
        (container_loading (render S1_root)) 0 .CHANNEL_END []).2.requests =
      [{ type := .REQ_TYPE_PC_LOAD, state := .REQ_STATE_RETURNED, input := .null,
         output := .playlistcontainer, error := .SP_ERROR_OK, next_timeout := 2147483647 },
       added_result 0, added_result 1,
       load_request (example_env S1_root) 0, load_request (example_env S1_root) 1] ∧
    (playlistcontainer_callback (example_env S1_root)
        (container_loading (render S1_root)) 0 .CHANNEL_END
        []).2.playlistcontainer.playlists = [0, 1] := by
  obtain ⟨added, h1, -, h3, h4, -⟩ := playlistcontainer_load_fan_out (example_env S1_root)
    (container_loading (render S1_root)) 0 _ [] rfl rfl
  have hparsed : (playlistcontainer_parse_xml (example_env S1_root)
      (container_loading (render S1_root))).2.requests =
      (container_loading (render S1_root)).requests ++ [added_result 0, added_result 1] := by
    decide
  have hadded : added = [added_result 0, added_result 1] :=
    List.append_cancel_left (h1.symm.trans hparsed)
  have hplaylists : (playlistcontainer_parse_xml (example_env S1_root)
      (container_loading (render S1_root))).2.playlistcontainer.playlists = [0, 1] := by
    decide
  rw [h3, h4, hplaylists, hadded]
  exact ⟨by decide, rfl⟩

/-! ### The name of a playlist -/

theorem take_min_length {α : Type} (l : List α) (n : Nat) :
    l.take (min l.length n) = l.take n := by
  rcases Nat.le_total l.length n with h | h
  · rw [Nat.min_eq_left h, List.take_of_length_le h, List.take_of_length_le (Nat.le_refl _)]
  · rw [Nat.min_eq_right h]

theorem strncpy_eq (src : List Char) (n : Nat) :
    strncpy src n = src.take (min src.length n) ++
      List.replicate (n - min src.length n) (Char.ofNat 0) := by
  unfold strncpy
  rw [List.take_append_eq_append_take, take_min_length, List.take_replicate]
  congr 2
  omega

theorem c_string_append_zero (txt rest : List Char) (h : Char.ofNat 0 ∉ txt) :
    c_string (txt ++ Char.ofNat 0 :: rest) = txt := by
  unfold c_string
  induction txt with
  | nil => simp
  | cons c txt ih =>
    have hc : c ≠ Char.ofNat 0 := fun hc => h (by rw [hc]; exact List.mem_cons_self _ _)
    have ht : Char.ofNat 0 ∉ txt := fun ht => h (List.mem_cons_of_mem _ ht)
    simp [List.takeWhile_cons, hc]
    simpa using ih ht

/-- Claim C25. `playlist_set_name` leaves in the `name` array of the playlist
the first `min(length(name), sizeof(playlist->name) - 1)` bytes of the name
followed by zero bytes up to the end of the array, at least one, so the
playlist's name is that prefix, and the name itself when it fits; it posts
exactly one `REQ_TYPE_PLAYLIST_RENAME` result with `SP_ERROR_OK` and the
playlist as output. -/
theorem playlist_set_name_spec (env : environment) (s : sp_session) (q : Nat)
    (name : List Char) (hq : q < s.playlists.length) (hname : Char.ofNat 0 ∉ name)
    (hsize : 0 < env.sizeof_name) :
    name_array env name =
        name.take (min name.length (env.sizeof_name - 1)) ++
          List.replicate (env.sizeof_name - min name.length (env.sizeof_name - 1))
            (Char.ofNat 0) ∧
      (name_array env name).length = env.sizeof_name ∧
      (playlist_at (playlist_set_name env s q name).playlists q).name =
        c_string (name_array env name) ∧
      (playlist_at (playlist_set_name env s q name).playlists q).name =
        name.take (min name.length (env.sizeof_name - 1)) ∧
      (name.length ≤ env.sizeof_name - 1 →
        (playlist_at (playlist_set_name env s q name).playlists q).name = name) ∧
      (playlist_set_name env s q name).requests = s.requests ++ [rename_result q] := by
  have harray : name_array env name =
      name.take (min name.length (env.sizeof_name - 1)) ++
        List.replicate (env.sizeof_name - min name.length (env.sizeof_name - 1))
          (Char.ofNat 0) := by
    unfold name_array
    rw [strncpy_eq, List.append_assoc]
    congr 1
    have hcount : env.sizeof_name - min name.length (env.sizeof_name - 1) =
        (env.sizeof_name - 1 - min name.length (env.sizeof_name - 1)) + 1 := by omega
    rw [hcount, List.replicate_succ']
  have hstored : (playlist_at (playlist_set_name env s q name).playlists q).name =
      name.take (min name.length (env.sizeof_name - 1)) := by
    unfold playlist_set_name request_post_result
    simp only []
    rw [playlist_at_store, if_pos ⟨rfl, hq⟩, take_min_length]
  have hzero : ∃ k, env.sizeof_name - min name.length (env.sizeof_name - 1) = k + 1 :=
    ⟨env.sizeof_name - min name.length (env.sizeof_name - 1) - 1, by omega⟩
  refine ⟨harray, ?_, ?_, hstored, ?_, ?_⟩
  · rw [harray, List.length_append, List.length_replicate, List.length_take]
    omega
  · obtain ⟨k, hk⟩ := hzero
    rw [hstored, harray, hk, List.replicate_succ]
    exact (c_string_append_zero _ _ (fun h => hname (List.mem_of_mem_take h))).symm
  · intro hfit
    rw [hstored, Nat.min_eq_left hfit, List.take_of_length_le (Nat.le_refl _)]
  · unfold playlist_set_name request_post_result
    simp only [playlist_store_requests]
    rfl

set_option maxRecDepth 100000 in
/-- Two instances of claim C25 on the playlist of the example. With a `name`
array of 256 bytes the name `"Road trip"` is stored unchanged; with an array
of 5 bytes the first 4 bytes are stored. One result is posted. -/
theorem playlist_set_name_examples :
    (playlist_at (playlist_set_name (example_env S1_root)
        (one_request .REQ_TYPE_PLAYLIST_LOAD .REQ_STATE_RUNNING 0) 0
        "Road trip".toList).playlists 0).name = "Road trip".toList ∧
    (playlist_set_name (example_env S1_root)
        (one_request .REQ_TYPE_PLAYLIST_LOAD .REQ_STATE_RUNNING 0) 0
        "Road trip".toList).requests =
      (one_request .REQ_TYPE_PLAYLIST_LOAD .REQ_STATE_RUNNING 0).requests ++
        [rename_result 0] ∧
    (playlist_at (playlist_set_name { example_env S1_root with sizeof_name := 5 }
        (one_request .REQ_TYPE_PLAYLIST_LOAD .REQ_STATE_RUNNING 0) 0
        "Road trip".toList).playlists 0).name = "Road".toList ∧
    name_array { example_env S1_root with sizeof_name := 5 } "Road trip".toList =
      "Road".toList ++ [Char.ofNat 0] :=
  ⟨(playlist_set_name_spec (example_env S1_root)
      (one_request .REQ_TYPE_PLAYLIST_LOAD .REQ_STATE_RUNNING 0) 0 "Road trip".toList
      (by decide) (by decide) (by decide)).2.2.2.2.1 (by decide),
   (playlist_set_name_spec (example_env S1_root)
      (one_request .REQ_TYPE_PLAYLIST_LOAD .REQ_STATE_RUNNING 0) 0 "Road trip".toList
      (by decide) (by decide) (by decide)).2.2.2.2.2,
   ((playlist_set_name_spec { example_env S1_root with sizeof_name := 5 }
      (one_request .REQ_TYPE_PLAYLIST_LOAD .REQ_STATE_RUNNING 0) 0 "Road trip".toList
      (by decide) (by decide) (by decide)).2.2.2.1).trans (by decide),
   ((playlist_set_name_spec { example_env S1_root with sizeof_name := 5 }
      (one_request .REQ_TYPE_PLAYLIST_LOAD .REQ_STATE_RUNNING 0) 0 "Road trip".toList
      (by decide) (by decide) (by decide)).1).trans (by decide)⟩

/-! ### The tracks of a playlist -/

theorem hashtable_find_append {κ : Type} [DecidableEq κ] (table : List (κ × Nat)) (key k : κ)
    (v : Nat) :
    hashtable_find (table ++ [(k, v)]) key =
      match hashtable_find table key with
      | some found => some found
      | none => if k = key then some v else none := by
  unfold hashtable_find
  rw [List.find?_append]
  cases h : table.find? (fun e => decide (e.1 = key)) with
  | some e => simp
  | none =>
    by_cases hk : k = key
    · simp [hk]
    · simp [hk]

theorem hashtable_find_mem {κ : Type} [DecidableEq κ] (table : List (κ × Nat)) (key : κ)
    (v : Nat) (h : hashtable_find table key = some v) : ∃ e ∈ table, e.2 = v := by
  unfold hashtable_find at h
  cases hf : table.find? (fun e => decide (e.1 = key)) with
  | none => rw [hf] at h; exact absurd h (by simp)
  | some e =>
    rw [hf] at h
    exact ⟨e, List.mem_of_find?_eq_some hf, by simpa using h⟩

/-- What `osfy_track_add` does to the table and the heap of tracks. -/
theorem osfy_track_add_spec (s : sp_session) (id : List Nat) (hok : tracks_ok s) :
    hashtable_find (osfy_track_add s id).2.hashtable_tracks (id.take 16) =
        some (osfy_track_add s id).1 ∧
      (osfy_track_add s id).1 < (osfy_track_add s id).2.tracks.length ∧
      tracks_ok (osfy_track_add s id).2 ∧
      (∀ t, ref_count_of (osfy_track_add s id).2 t = ref_count_of s t) ∧
      (∀ k v, hashtable_find s.hashtable_tracks k = some v →
        hashtable_find (osfy_track_add s id).2.hashtable_tracks k = some v) := by
  unfold osfy_track_add
  cases hfind : hashtable_find s.hashtable_tracks (id.take 16) with
  | some track =>
    obtain ⟨e, he, hv⟩ := hashtable_find_mem _ _ _ hfind
    refine ⟨hfind, ?_, hok, fun _ => rfl, fun _ _ h => h⟩
    rw [← hv]
    exact hok e he
  | none =>
    refine ⟨?_, ?_, ?_, ?_, ?_⟩
    · show hashtable_find (s.hashtable_tracks ++ [(id.take 16, s.tracks.length)]) _ = _
      rw [hashtable_find_append, hfind]
      simp
    · show s.tracks.length < (s.tracks ++ [_]).length
      simp
    · intro e he
      have he2 : e ∈ s.hashtable_tracks ++ [(id.take 16, s.tracks.length)] := he
      show e.2 < (s.tracks ++ [_]).length
      rw [List.length_append, List.length_singleton]
      rcases List.mem_append.1 he2 with h | h
      · exact Nat.lt_succ_of_lt (hok e h)
      · rw [List.mem_singleton] at h
        rw [h]
        exact Nat.lt_succ_self _
    · intro t
      show (track_at (s.tracks ++ [_]) t).ref_count = (track_at s.tracks t).ref_count
      unfold track_at
      rw [List.getD_eq_getElem?_getD, List.getD_eq_getElem?_getD]
      by_cases ht : t < s.tracks.length
      · rw [List.getElem?_append_left ht]
      · rw [List.getElem?_eq_none (Nat.le_of_not_lt ht)]
        by_cases ht2 : t = s.tracks.length
        · rw [ht2, List.getElem?_append_right (Nat.le_refl _)]
          simp
          rfl
        · rw [List.getElem?_eq_none (by simp; omega)]
    · intro k v h
      show hashtable_find (s.hashtable_tracks ++ [(id.take 16, s.tracks.length)]) k = _
      rw [hashtable_find_append, h]

/-- What `sp_track_add_ref` does to the table and the heap of tracks. -/
theorem sp_track_add_ref_spec (s : sp_session) (track : Nat) (h : track < s.tracks.length) :
    (sp_track_add_ref s track).hashtable_tracks = s.hashtable_tracks ∧
      (sp_track_add_ref s track).tracks.length = s.tracks.length ∧
      (∀ t, ref_count_of (sp_track_add_ref s track) t =
        ref_count_of s t + if track = t then 1 else 0) := by
  obtain ⟨-, a2, a3, -⟩ := sp_track_add_ref_eq s track h
  refine ⟨?_, ?_, ?_⟩
  · unfold sp_track_add_ref
    split <;> rfl
  · unfold sp_track_add_ref
    split
    · rfl
    · simp
  · intro t
    unfold ref_count_of
    by_cases ht : track = t
    · rw [if_pos ht, ← ht]
      exact a2
    · rw [if_neg ht, a3 t (Ne.symm ht)]
      rfl

theorem fetch_from_eq (k : Nat) (l : List request) :
    fetch_from k l = (returned_from k l).head? := by
  induction l generalizing k with
  | nil => rfl
  | cons r rs ih =>
    unfold fetch_from returned_from
    split
    · rfl
    · exact ih (k + 1)

theorem returned_from_ge (k : Nat) (l : List request) : ∀ i ∈ returned_from k l, k ≤ i := by
  induction l generalizing k with
  | nil => intro i hi; simp [returned_from] at hi
  | cons r rs ih =>
    intro i hi
    unfold returned_from at hi
    split at hi
    · rcases List.mem_cons.1 hi with h | h
      · omega
      · have := ih (k + 1) i h
        omega
    · have := ih (k + 1) i hi
      omega

theorem returned_from_pairwise (k : Nat) (l : List request) :
    (returned_from k l).Pairwise (fun a b => a < b) := by
  induction l generalizing k with
  | nil => simp [returned_from]
  | cons r rs ih =>
    unfold returned_from
    split
    · refine List.Pairwise.cons ?_ (ih (k + 1))
      intro i hi
      have := returned_from_ge (k + 1) rs i hi
      omega
    · exact ih (k + 1)

theorem returned_from_mem (k : Nat) (l : List request) (i : Nat) :
    i ∈ returned_from k l ↔
      k ≤ i ∧ ∃ r, l[i - k]? = some r ∧ r.state = .REQ_STATE_RETURNED := by
  induction l generalizing k with
  | nil => simp [returned_from]
  | cons r rs ih =>
    have hstep : ∀ j, k + 1 ≤ j → (r :: rs)[j - k]? = rs[j - (k + 1)]? := by
      intro j hj
      have hjk : j - k = (j - (k + 1)) + 1 := by omega
      rw [hjk, List.getElem?_cons_succ]
    unfold returned_from
    split
    · rename_i hr
      rw [List.mem_cons, ih (k + 1)]
      constructor
      · rintro (h | ⟨h1, r1, h2, h3⟩)
        · refine ⟨by omega, r, ?_, hr⟩
          rw [h, Nat.sub_self]
          exact List.getElem?_cons_zero
        · exact ⟨by omega, r1, by rw [hstep i h1]; exact h2, h3⟩
      · rintro ⟨h1, r1, h2, h3⟩
        by_cases hik : i = k
        · exact Or.inl hik
        · right
          have hk1 : k + 1 ≤ i := by omega
          exact ⟨hk1, r1, by rw [← hstep i hk1]; exact h2, h3⟩
    · rename_i hr
      rw [ih (k + 1)]
      constructor
      · rintro ⟨h1, r1, h2, h3⟩
        exact ⟨by omega, r1, by rw [hstep i h1]; exact h2, h3⟩
      · rintro ⟨h1, r1, h2, h3⟩
        have hik : i ≠ k := by
          intro hik
          rw [hik, Nat.sub_self] at h2
          have hr1 : r = r1 := by simpa using h2
          exact hr (hr1 ▸ h3)
        have hk1 : k + 1 ≤ i := by omega
        exact ⟨hk1, r1, by rw [← hstep i hk1]; exact h2, h3⟩

theorem processed_state (r : request) : (processed r).state ≠ .REQ_STATE_RETURNED := by
  unfold processed
  split
  · show request_state.REQ_STATE_PROCESSED ≠ request_state.REQ_STATE_RETURNED
    decide
  · assumption

theorem processed_of_ne (r : request) (h : r.state ≠ .REQ_STATE_RETURNED) :
    processed r = r := by
  unfold processed
  rw [if_neg h]

theorem processed_idem (r : request) : processed (processed r) = processed r :=
  processed_of_ne _ (processed_state r)

theorem process_events_switch_processed (reg : registered) (s : sp_session) (r : request) :
    process_events_switch reg s (processed r) = process_events_switch reg s r := by
  unfold processed
  split <;> rfl

/-- Marking the first returned request leaves the later ones to be fetched. -/
theorem returned_from_set (k : Nat) (l : List request) (i : Nat) (rest : List Nat)
    (h : returned_from k l = i :: rest) :
    k ≤ i ∧ ∃ r, l[i - k]? = some r ∧
      returned_from k (l.set (i - k) (processed r)) = rest ∧
      (l.set (i - k) (processed r)).map processed = l.map processed := by
  induction l generalizing k with
  | nil => simp [returned_from] at h
  | cons r0 rs ih =>
    unfold returned_from at h
    split at h
    · rename_i hr
      have hi : i = k := by
        have := (List.cons.inj h).1
        omega
      have hrest : returned_from (k + 1) rs = rest := (List.cons.inj h).2
      rw [hi, Nat.sub_self]
      refine ⟨Nat.le_refl _, r0, List.getElem?_cons_zero, ?_, ?_⟩
      · rw [List.set_cons_zero]
        unfold returned_from
        rw [if_neg (processed_state r0)]
        exact hrest
      · rw [List.set_cons_zero, List.map_cons, List.map_cons, processed_idem]
    · rename_i hr
      obtain ⟨h1, r, h2, h3, h4⟩ := ih (k + 1) h
      have hik : i - k = (i - (k + 1)) + 1 := by omega
      refine ⟨by omega, r, ?_, ?_, ?_⟩
      · rw [hik, List.getElem?_cons_succ]
        exact h2
      · rw [hik, List.set_cons_succ]
        unfold returned_from
        rw [if_neg hr]
        exact h3
      · rw [hik, List.set_cons_succ, List.map_cons, List.map_cons, h4]

theorem returned_from_nil (k : Nat) (l : List request) (h : returned_from k l = []) :
    l.map processed = l := by
  induction l generalizing k with
  | nil => rfl
  | cons r rs ih =>
    unfold returned_from at h
    split at h
    · exact absurd h (by simp)
    · rename_i hr
      rw [List.map_cons, ih (k + 1) h]
      unfold processed
      rw [if_neg hr]

theorem getD_set_processed (l : List request) (n : Nat) (r : request) (h : l[n]? = some r)
    (j : Nat) :
    (l.set n (processed r)).getD j default = l.getD j default ∨
      (l.set n (processed r)).getD j default = processed (l.getD j default) := by
  have hlt := getElem?_lt_of_some _ _ _ h
  by_cases hj : j = n
  · right
    subst hj
    simp [List.getD_eq_getElem?_getD, List.getElem?_set, hlt, h]
  · left
    simp [List.getD_eq_getElem?_getD, List.getElem?_set, Ne.symm hj]

/-- The event loop, given enough fuel, delivers the returned requests in
queue order and leaves all of them processed. -/
theorem sp_session_process_events_eq (reg : registered) (fuel : Nat) :
    ∀ s : sp_session, (returned s).length < fuel →
    sp_session_process_events reg fuel s =
      some ((returned s).flatMap (delivery reg s), all_processed s) := by
  induction fuel with
  | zero => intro s h; omega
  | succ fuel ih =>
    intro s hfuel
    unfold sp_session_process_events
    have hfetch : request_fetch_next_result s = (returned s).head? := fetch_from_eq 0 _
    rw [hfetch]
    cases hret : returned s with
    | nil =>
      have hmap := returned_from_nil 0 s.requests hret
      simp only [List.head?_nil, List.flatMap_nil]
      unfold all_processed
      rw [hmap]
    | cons i rest =>
      obtain ⟨-, r, h2, h3, h4⟩ := returned_from_set 0 s.requests i rest hret
      rw [Nat.sub_zero] at h2 h3 h4
      have hmark : request_mark_processed s i = requests_set s i (processed r) :=
        request_store_eq s i r processed h2
      have hret1 : returned (requests_set s i (processed r)) = rest := h3
      have hih := ih (requests_set s i (processed r)) (by
        rw [hret1]
        rw [hret] at hfuel
        simp at hfuel
        omega)
      have hdel : delivery reg (requests_set s i (processed r)) = delivery reg s := by
        funext j
        unfold delivery
        have hsw : process_events_switch reg (requests_set s i (processed r))
            ((requests_set s i (processed r)).requests.getD j default) =
            process_events_switch reg s (s.requests.getD j default) := by
          rcases getD_set_processed s.requests i r h2 j with h | h
          · show process_events_switch reg s ((s.requests.set i (processed r)).getD j default) = _
            rw [h]
          · show process_events_switch reg s ((s.requests.set i (processed r)).getD j default) = _
            rw [h, process_events_switch_processed]
        rw [hsw]
      have hall : all_processed (requests_set s i (processed r)) = all_processed s := by
        unfold all_processed requests_set
        simp only []
        rw [h4]
      simp only [List.head?_cons]
      rw [hmark, hih, hret1, hdel, hall]
      simp [delivery, List.flatMap_cons]

theorem filterMap_marked_callbacks (calls : List callback_call) :
    (calls.map process_step.callback).filterMap marked = [] ∧
      (calls.map process_step.callback).filterMap fetched = [] := by
  induction calls with
  | nil => exact ⟨rfl, rfl⟩
  | cons c cs ih =>
    rw [List.map_cons, List.filterMap_cons, List.filterMap_cons]
    exact ih

theorem filterMap_delivery (reg : registered) (s : sp_session) (idxs : List Nat) :
    (idxs.flatMap (delivery reg s)).filterMap marked = idxs ∧
      (idxs.flatMap (delivery reg s)).filterMap fetched = idxs := by
  induction idxs with
  | nil => exact ⟨rfl, rfl⟩
  | cons i rest ih =>
    obtain ⟨c1, c2⟩ := filterMap_marked_callbacks
      (process_events_switch reg s (s.requests.getD i default))
    rw [List.flatMap_cons, List.filterMap_append, List.filterMap_append, ih.1, ih.2]
    unfold delivery
    rw [List.cons_append, List.filterMap_cons, List.filterMap_cons, List.filterMap_append,
      List.filterMap_append, c1, c2]
    exact ⟨rfl, rfl⟩

/-- Claim C24. Given enough fuel the event loop returns. Its steps are, for
every request in state RETURNED in queue order, the fetch of the request, the
callbacks of its type (none for a type without a case or with callbacks that
are not set) and then `request_mark_processed` for the request. So the
requests marked as processed are the requests fetched, each marked once and
after its callbacks, and they are the requests that were in state RETURNED;
afterwards all of them are PROCESSED and nothing else has changed. -/
theorem sp_session_process_events_marks (reg : registered) (s : sp_session) (fuel : Nat)
    (hfuel : (returned s).length < fuel) :
    ∃ steps, sp_session_process_events reg fuel s = some (steps, all_processed s) ∧
      steps = (returned s).flatMap (delivery reg s) ∧
      steps.filterMap fetched = returned s ∧
      steps.filterMap marked = returned s ∧
      (returned s).Nodup ∧
      (∀ req, (steps.filterMap marked).count req = if req ∈ returned s then 1 else 0) ∧
      (∀ req, req ∈ returned s ↔
        ∃ r, s.requests[req]? = some r ∧ r.state = .REQ_STATE_RETURNED) := by
  have hnodup : (returned s).Nodup :=
    (returned_from_pairwise 0 s.requests).imp (fun h => Nat.ne_of_lt h)
  obtain ⟨f1, f2⟩ := filterMap_delivery reg s (returned s)
  refine ⟨_, sp_session_process_events_eq reg fuel s hfuel, rfl, f2, f1, hnodup, ?_, ?_⟩
  · intro req
    rw [f1]
    split
    · rename_i h
      exact List.count_eq_one_of_mem hnodup h
    · rename_i h
      exact List.count_eq_zero_of_not_mem h
  · intro req
    have h := returned_from_mem 0 s.requests req
    rw [Nat.sub_zero] at h
    exact ⟨fun hm => (h.1 hm).2, fun hr => h.2 ⟨Nat.zero_le _, hr⟩⟩

set_option maxRecDepth 100000 in
/-- An instance of claim C24: of the four requests of the example the three
results are fetched and marked, also the login result, whose callback is not
set, and the user result, for whose type the loop has no case; the running
request is neither fetched nor marked. -/
theorem sp_session_process_events_marks_example :
    sp_session_process_events example_registered 4 events_example =
      some ([.request_fetch_next_result 0, .request_mark_processed 0,
             .request_fetch_next_result 1, .request_mark_processed 1,
             .request_fetch_next_result 3, .callback (.container_loaded 0),
             .request_mark_processed 3], all_processed events_example) ∧
    (all_processed events_example).requests.map (fun r => r.state) =
      [.REQ_STATE_PROCESSED, .REQ_STATE_PROCESSED, .REQ_STATE_RUNNING,
       .REQ_STATE_PROCESSED] := by
  obtain ⟨steps, h1, h2, -⟩ := sp_session_process_events_marks example_registered
    events_example 4 (by decide)
  have hsteps : (returned events_example).flatMap (delivery example_registered events_example) =
      [.request_fetch_next_result 0, .request_mark_processed 0,
       .request_fetch_next_result 1, .request_mark_processed 1,
       .request_fetch_next_result 3, .callback (.container_loaded 0),
       .request_mark_processed 3] := by
    decide
  rw [h1, h2, hsteps]
  exact ⟨rfl, by decide⟩

/-! ### The references of a browse -/

theorem ref_count_of_set (s : sp_session) (track : Nat) (t t1 : sp_track)
    (h : s.tracks[track]? = some t) (x : Nat) :
    (track_at (s.tracks.set track t1) x).ref_count =
      if track = x then t1.ref_count else ref_count_of s x := by
  have hlt := getElem?_lt_of_some _ _ _ h
  unfold ref_count_of track_at
  by_cases hx : track = x
  · subst hx
    simp [List.getD_eq_getElem?_getD, List.getElem?_set, hlt]
  · simp [List.getD_eq_getElem?_getD, List.getElem?_set, hx]

theorem tracks_ok_of_sublist (s s1 : sp_session)
    (htable : ∀ e ∈ s1.hashtable_tracks, e ∈ s.hashtable_tracks)
    (hlen : s.tracks.length ≤ s1.tracks.length) (hok : tracks_ok s) : tracks_ok s1 :=
  fun e he => Nat.lt_of_lt_of_le (hok e (htable e he)) hlen

/-- What `sp_track_release` does for a track that has a reference. -/
theorem sp_track_release_spec (s : sp_session) (track : Nat) (ht : track < s.tracks.length)
    (hrc : 0 < ref_count_of s track) :
    ∃ s1, sp_track_release s track = some s1 ∧
      (∀ x, ref_count_of s1 x + (if track = x then 1 else 0) = ref_count_of s x) ∧
      s1.playlists = s.playlists ∧ s1.tracks.length = s.tracks.length ∧
      (tracks_ok s → tracks_ok s1) ∧
      (1 < ref_count_of s track →
        s1.freed_tracks = s.freed_tracks ∧ s1.hashtable_tracks = s.hashtable_tracks) := by
  have hget : s.tracks[track]? = some (track_at s.tracks track) := by
    unfold track_at
    rw [List.getD_eq_getElem?_getD, List.getElem?_eq_getElem ht]
    rfl
  have hrc2 : 0 < (track_at s.tracks track).ref_count := hrc
  have hcount : ∀ (s1 : sp_session),
      s1.tracks = s.tracks.set track
        { track_at s.tracks track with ref_count := (track_at s.tracks track).ref_count - 1 } →
      ∀ x, ref_count_of s1 x + (if track = x then 1 else 0) = ref_count_of s x := by
    intro s1 hs1 x
    have h := ref_count_of_set s track _
      { track_at s.tracks track with ref_count := (track_at s.tracks track).ref_count - 1 }
      hget x
    unfold ref_count_of at h ⊢
    rw [hs1, h]
    by_cases hx : track = x
    · rw [if_pos hx, if_pos hx, ← hx]
      show (track_at s.tracks track).ref_count - 1 + 1 = _
      omega
    · rw [if_neg hx, if_neg hx]
      rfl
  unfold sp_track_release
  rw [hget]
  simp only []
  rw [if_pos hrc2]
  by_cases hzero : (track_at s.tracks track).ref_count - 1 ≠ 0
  · rw [if_pos hzero]
    refine ⟨_, rfl, hcount _ rfl, rfl, by simp, ?_, fun _ => ⟨rfl, rfl⟩⟩
    intro hok
    exact tracks_ok_of_sublist s _ (fun e he => he) (by simp) hok
  · rw [if_neg hzero]
    refine ⟨_, rfl, hcount _ rfl, rfl, ?_, ?_, ?_⟩
    · show (s.tracks.set track _).length = _
      simp
    · intro hok
      refine tracks_ok_of_sublist s _ ?_ ?_ hok
      · intro e he
        exact List.mem_of_mem_filter he
      · show s.tracks.length ≤ (s.tracks.set track _).length
        simp
    · intro h1
      have h2 : 1 < (track_at s.tracks track).ref_count := h1
      omega

theorem count_cons_if (t0 x : Nat) (rest : List Nat) :
    (t0 :: rest).count x = rest.count x + (if t0 = x then 1 else 0) := by
  rw [List.count_cons]
  by_cases h : t0 = x
  · simp [h]
  · have hne : (t0 == x) = false := by simpa using h
    rw [hne, if_neg h]
    simp

/-- The release loop over a list of indices into a fixed array of tracks. -/
theorem browse_release_fold (q b : Nat) (tracks : List Nat) (is : List Nat) :
    ∀ s : sp_session, (playlist_at s.playlists q).tracks = tracks →
    (∀ t ∈ is.map (fun i => tracks.getD (b + i) 0), t < s.tracks.length) →
    (∀ x, (is.map (fun i => tracks.getD (b + i) 0)).count x ≤ ref_count_of s x) →
    ∃ s1, is.foldlM (fun s i => sp_track_release s
        ((playlist_at s.playlists q).tracks.getD (b + i) 0)) s = some s1 ∧
      (∀ x, ref_count_of s1 x + (is.map (fun i => tracks.getD (b + i) 0)).count x =
        ref_count_of s x) ∧
      s1.playlists = s.playlists ∧ s1.tracks.length = s.tracks.length ∧
      (tracks_ok s → tracks_ok s1) ∧
      ((∀ x ∈ is.map (fun i => tracks.getD (b + i) 0),
          (is.map (fun i => tracks.getD (b + i) 0)).count x < ref_count_of s x) →
        s1.freed_tracks = s.freed_tracks) := by
  induction is with
  | nil =>
    intro s _ _ _
    exact ⟨s, rfl, fun x => by simp, rfl, rfl, fun h => h, fun _ => rfl⟩
  | cons i is ih =>
    intro s htracks hvalid hcount
    rw [List.map_cons] at hvalid hcount ⊢
    have h0 := hcount (tracks.getD (b + i) 0)
    rw [count_cons_if, if_pos rfl] at h0
    obtain ⟨s1, r1, r2, r3, r4, r5, r6⟩ := sp_track_release_spec s (tracks.getD (b + i) 0)
      (hvalid _ (List.mem_cons_self _ _)) (by omega)
    have htracks1 : (playlist_at s1.playlists q).tracks = tracks := by
      rw [r3]
      exact htracks
    obtain ⟨s2, f1, f2, f3, f4, f5, f6⟩ := ih s1 htracks1
      (fun t ht => by rw [r4]; exact hvalid t (List.mem_cons_of_mem _ ht))
      (fun x => by
        have h1 := hcount x
        have h2 := r2 x
        rw [count_cons_if] at h1
        omega)
    refine ⟨s2, ?_, ?_, f3.trans r3, f4.trans r4, fun hok => f5 (r5 hok), ?_⟩
    · rw [List.foldlM_cons, htracks, r1]
      exact f1
    · intro x
      have h1 := f2 x
      have h2 := r2 x
      rw [count_cons_if]
      omega
    · intro hlt
      have hfirst := hlt _ (List.mem_cons_self _ _)
      rw [count_cons_if, if_pos rfl] at hfirst
      have hfreed := (r6 (by omega)).1
      rw [← hfreed]
      apply f6
      intro x hx
      have h1 := hlt x (List.mem_cons_of_mem _ hx)
      have h2 := r2 x
      rw [count_cons_if] at h1
      omega

theorem map_range_getD_drop (tracks : List Nat) (b k : Nat) (h : b + k ≤ tracks.length) :
    (List.range k).map (fun i => tracks.getD (b + i) 0) = (tracks.drop b).take k := by
  apply List.ext_getElem
  · simp
    omega
  · intro i h1 h2
    simp only [List.length_map, List.length_range] at h1
    have hlt : b + i < tracks.length := by omega
    simp [List.getD_eq_getElem?_getD, List.getElem?_eq_getElem hlt]

theorem looks_up_refl (s : sp_session) : looks_up s s :=
  ⟨rfl, fun _ => rfl, Nat.le_refl _, rfl⟩

theorem looks_up_trans {s s1 s2 : sp_session} (h1 : looks_up s s1) (h2 : looks_up s1 s2) :
    looks_up s s2 :=
  ⟨h2.1.trans h1.1, fun x => (h2.2.1 x).trans (h1.2.1 x), Nat.le_trans h1.2.2.1 h2.2.2.1,
    h2.2.2.2.trans h1.2.2.2⟩

theorem looks_up_osfy_track_add (s : sp_session) (id : List Nat) (hok : tracks_ok s) :
    looks_up s (osfy_track_add s id).2 ∧ tracks_ok (osfy_track_add s id).2 := by
  obtain ⟨-, -, a3, a4, -⟩ := osfy_track_add_spec s id hok
  refine ⟨⟨osfy_track_add_playlists s id, a4, ?_, ?_⟩, a3⟩
  · unfold osfy_track_add
    split
    · exact Nat.le_refl _
    · show s.tracks.length ≤ (s.tracks ++ [_]).length
      simp
  · unfold osfy_track_add
    split <;> rfl

theorem looks_up_load_from_xml (s : sp_session) (track : Nat) (node : track_node)
    (hok : tracks_ok s) :
    looks_up s (osfy_track_load_from_xml s track node) ∧
      tracks_ok (osfy_track_load_from_xml s track node) := by
  unfold osfy_track_load_from_xml
  split
  · exact ⟨looks_up_refl s, hok⟩
  · rename_i t ht
    refine ⟨⟨rfl, ?_, ?_, rfl⟩, ?_⟩
    · intro x
      have h := ref_count_of_set s track t { t with is_loaded := true } ht x
      show (track_at (s.tracks.set track _) x).ref_count = _
      rw [h]
      split
      · rename_i hx
        rw [← hx]
        unfold ref_count_of track_at
        rw [List.getD_eq_getElem?_getD, ht]
        rfl
      · rfl
    · show s.tracks.length ≤ (s.tracks.set track _).length
      simp
    · exact tracks_ok_of_sublist s _ (fun e he => he)
        (by show s.tracks.length ≤ (s.tracks.set track _).length; simp) hok

theorem looks_up_browse_track_id (node : track_node) (st : List Nat × sp_session)
    (txt : List Char) (hok : tracks_ok st.2) :
    looks_up st.2 (browse_track_id node st txt).2 ∧
      tracks_ok (browse_track_id node st txt).2 := by
  obtain ⟨a1, a2⟩ := looks_up_osfy_track_add st.2 (hex_ascii_to_buffer txt st.1 16) hok
  unfold browse_track_id
  simp only []
  split
  · obtain ⟨l1, l2⟩ := looks_up_load_from_xml
      (osfy_track_add st.2 (hex_ascii_to_buffer txt st.1 16)).2
      (osfy_track_add st.2 (hex_ascii_to_buffer txt st.1 16)).1 node a2
    exact ⟨looks_up_trans a1 l1, l2⟩
  · exact ⟨a1, a2⟩

theorem looks_up_redirects (node : track_node) (txts : List (List Char)) :
    ∀ st : List Nat × sp_session, tracks_ok st.2 →
    looks_up st.2 (txts.foldl (browse_track_id node) st).2 ∧
      tracks_ok (txts.foldl (browse_track_id node) st).2 := by
  induction txts with
  | nil => exact fun st hok => ⟨looks_up_refl _, hok⟩
  | cons txt txts ih =>
    intro st hok
    obtain ⟨b1, b2⟩ := looks_up_browse_track_id node st txt hok
    obtain ⟨i1, i2⟩ := ih (browse_track_id node st txt) b2
    exact ⟨looks_up_trans b1 i1, i2⟩

/-- The loop of the browse parser over the `track` elements returns when
every element has an id, and then has only looked tracks up. -/
theorem looks_up_track_nodes (nodes : List track_node) :
    ∀ st : List Nat × sp_session, tracks_ok st.2 →
    ((∀ node ∈ nodes, node.id ≠ none) → ∃ st1, nodes.foldlM browse_track_node st = some st1) ∧
    (∀ st1, nodes.foldlM browse_track_node st = some st1 →
      looks_up st.2 st1.2 ∧ tracks_ok st1.2) := by
  induction nodes with
  | nil =>
    intro st hok
    refine ⟨fun _ => ⟨st, rfl⟩, ?_⟩
    intro st1 h
    have hst : st = st1 := by simpa using h
    rw [← hst]
    exact ⟨looks_up_refl _, hok⟩
  | cons node nodes ih =>
    intro st hok
    rw [List.foldlM_cons]
    unfold browse_track_node
    cases hid : node.id with
    | none =>
      refine ⟨fun h => absurd hid (h node (List.mem_cons_self _ _)), ?_⟩
      intro st1 h
      simp at h
    | some txt =>
      simp only []
      obtain ⟨b1, b2⟩ := looks_up_browse_track_id node st txt hok
      obtain ⟨r1, r2⟩ := looks_up_redirects node node.redirect (browse_track_id node st txt) b2
      obtain ⟨i1, i2⟩ := ih (node.redirect.foldl (browse_track_id node)
        (browse_track_id node st txt)) r2
      refine ⟨fun h => i1 (fun n hn => h n (List.mem_cons_of_mem _ hn)), ?_⟩
      intro st1 h
      obtain ⟨j1, j2⟩ := i2 st1 h
      exact ⟨looks_up_trans (looks_up_trans b1 r1) j1, j2⟩

theorem sp_track_release_some (s s1 : sp_session) (track : Nat)
    (h : sp_track_release s track = some s1) :
    track < s.tracks.length ∧ 0 < ref_count_of s track := by
  unfold sp_track_release at h
  split at h
  · exact absurd h (by simp)
  · rename_i t ht
    have hlt := getElem?_lt_of_some _ _ _ ht
    refine ⟨hlt, ?_⟩
    by_cases hpos : 0 < t.ref_count
    · unfold ref_count_of track_at
      rw [List.getD_eq_getElem?_getD, ht]
      exact hpos
    · rw [if_neg hpos] at h
      exact absurd h (by simp)

/-- A release loop that returns has released every track of the batch once. -/
theorem browse_release_fold_some (q b : Nat) (tracks : List Nat) (is : List Nat) :
    ∀ s s2 : sp_session, (playlist_at s.playlists q).tracks = tracks →
    is.foldlM (fun s i => sp_track_release s
      ((playlist_at s.playlists q).tracks.getD (b + i) 0)) s = some s2 →
    (∀ x, ref_count_of s2 x + (is.map (fun i => tracks.getD (b + i) 0)).count x =
        ref_count_of s x) ∧
      s2.playlists = s.playlists ∧ s2.tracks.length = s.tracks.length ∧
      (tracks_ok s → tracks_ok s2) ∧
      ((∀ x ∈ is.map (fun i => tracks.getD (b + i) 0),
          (is.map (fun i => tracks.getD (b + i) 0)).count x < ref_count_of s x) →
        s2.freed_tracks = s.freed_tracks) := by
  induction is with
  | nil =>
    intro s s2 _ h
    have hs : s = s2 := by simpa using h
    rw [← hs]
    exact ⟨fun x => by simp, rfl, rfl, fun h => h, fun _ => rfl⟩
  | cons i is ih =>
    intro s s2 htracks h
    rw [List.foldlM_cons, htracks] at h
    cases hrel : sp_track_release s (tracks.getD (b + i) 0) with
    | none =>
      rw [hrel] at h
      exact absurd h (by simp)
    | some s1 =>
      rw [hrel] at h
      obtain ⟨hlt, hpos⟩ := sp_track_release_some s s1 _ hrel
      obtain ⟨s1', r1, r2, r3, r4, r5, r6⟩ := sp_track_release_spec s _ hlt hpos
      have hs1 : s1' = s1 := Option.some.inj (r1.symm.trans hrel)
      rw [hs1] at r2 r3 r4 r5 r6
      have htracks1 : (playlist_at s1.playlists q).tracks = tracks := by
        rw [r3]
        exact htracks
      obtain ⟨f2, f3, f4, f5, f6⟩ := ih s1 s2 htracks1 h
      rw [List.map_cons]
      refine ⟨?_, f3.trans r3, f4.trans r4, fun hok => f5 (r5 hok), ?_⟩
      · intro x
        have h1 := f2 x
        have h2 := r2 x
        rw [count_cons_if]
        omega
      · intro hstrict
        have hfirst := hstrict _ (List.mem_cons_self _ _)
        rw [count_cons_if, if_pos rfl] at hfirst
        have hfreed := (r6 (by omega)).1
        rw [← hfreed]
        apply f6
        intro x hx
        have h1 := hstrict x (List.mem_cons_of_mem _ hx)
        have h2 := r2 x
        rw [count_cons_if] at h1
        omega

/-- A run of the browse parser: when it is successful it has released the
batch, the entries `tracks[b..b+k-1]`, once each; it is successful for a good
reply when the tracks of the batch have the references to release. -/
theorem osfy_playlist_browse_callback_run (env : environment) (s : sp_session)
    (brctx : browse_callback_ctx) (buf : List Nat) (tracks : List Nat)
    (htracks : (playlist_at s.playlists brctx.playlist).tracks = tracks)
    (hvalid : ∀ t ∈ tracks, t < s.tracks.length) (hok : tracks_ok s)
    (hbatch : brctx.num_browsed + brctx.num_in_request ≤ tracks.length) :
    (∀ s1, osfy_playlist_browse_callback env s brctx buf = some (0, s1) →
      (∀ x, ref_count_of s1 x +
          ((tracks.drop brctx.num_browsed).take brctx.num_in_request).count x =
        ref_count_of s x) ∧
      s1.playlists = s.playlists ∧ s.tracks.length ≤ s1.tracks.length ∧ tracks_ok s1 ∧
      ((∀ x ∈ (tracks.drop brctx.num_browsed).take brctx.num_in_request,
          ((tracks.drop brctx.num_browsed).take brctx.num_in_request).count x <
            ref_count_of s x) →
        s1.freed_tracks = s.freed_tracks)) ∧
    (good_reply env buf →
      (∀ x, ((tracks.drop brctx.num_browsed).take brctx.num_in_request).count x ≤
        ref_count_of s x) →
      ∃ s1, osfy_playlist_browse_callback env s brctx buf = some (0, s1)) := by
  have hmap := map_range_getD_drop tracks brctx.num_browsed brctx.num_in_request hbatch
  constructor
  · intro s1 h
    unfold osfy_playlist_browse_callback at h
    cases hinf : env.despotify_inflate buf with
    | none => rw [hinf] at h; exact absurd h (by simp)
    | some xml =>
      rw [hinf] at h
      simp only [] at h
      cases hroot : env.ezxml_parse_str xml with
      | none => rw [hroot] at h; exact absurd h (by simp)
      | some root =>
        rw [hroot] at h
        simp only [] at h
        cases hnodes : root.tracks.foldlM browse_track_node (env.stack.browse_id, s) with
        | none => rw [hnodes] at h; exact absurd h (by simp)
        | some st =>
          rw [hnodes] at h
          simp only [] at h
          cases hrel : browse_release st.2 brctx with
          | none => rw [hrel] at h; exact absurd h (by simp)
          | some s2 =>
            rw [hrel] at h
            have hs2 : s2 = s1 := by simpa using h
            rw [hs2] at hrel
            obtain ⟨l1, l2⟩ := (looks_up_track_nodes root.tracks (env.stack.browse_id, s) hok).2
              st hnodes
            have l1' : looks_up s st.2 := l1
            have htracks1 : (playlist_at st.2.playlists brctx.playlist).tracks = tracks := by
              rw [l1'.1]
              exact htracks
            obtain ⟨f2, f3, f4, f5, f6⟩ := browse_release_fold_some brctx.playlist
              brctx.num_browsed tracks (List.range brctx.num_in_request) st.2 s1 htracks1 hrel
            rw [hmap] at f2 f6
            refine ⟨?_, f3.trans l1'.1, ?_, f5 l2, ?_⟩
            · intro x
              rw [f2 x]
              exact l1'.2.1 x
            · rw [f4]
              exact l1'.2.2.1
            · intro hstrict
              rw [← l1'.2.2.2]
              apply f6
              intro x hx
              rw [l1'.2.1 x]
              exact hstrict x hx
  · intro hgood hcount
    obtain ⟨xml, root, hinf, hroot, hids⟩ := hgood
    obtain ⟨st, hnodes⟩ := (looks_up_track_nodes root.tracks (env.stack.browse_id, s) hok).1 hids
    obtain ⟨l1, -⟩ := (looks_up_track_nodes root.tracks (env.stack.browse_id, s) hok).2
      st hnodes
    have l1' : looks_up s st.2 := l1
    have htracks1 : (playlist_at st.2.playlists brctx.playlist).tracks = tracks := by
      rw [l1'.1]
      exact htracks
    obtain ⟨s1, f1, -⟩ := browse_release_fold brctx.playlist brctx.num_browsed tracks
      (List.range brctx.num_in_request) st.2 htracks1
      (by
        rw [hmap]
        intro t ht
        exact Nat.lt_of_lt_of_le
          (hvalid t (List.mem_of_mem_drop (List.mem_of_mem_take ht))) l1'.2.2.1)
      (by
        rw [hmap]
        intro x
        rw [l1'.2.1 x]
        exact hcount x)
    refine ⟨s1, ?_⟩
    unfold osfy_playlist_browse_callback
    rw [hinf]
    simp only []
    rw [hroot]
    simp only []
    rw [hnodes]
    simp only []
    have hrel : browse_release st.2 brctx = some s1 := f1
    rw [hrel]
    rfl

theorem sp_track_add_ref_fold (is : List Nat) (f : Nat → Nat) :
    ∀ s : sp_session, (∀ i ∈ is, f i < s.tracks.length) →
    (∀ x, ref_count_of (is.foldl (fun s i => sp_track_add_ref s (f i)) s) x =
        ref_count_of s x + (is.map f).count x) ∧
      (is.foldl (fun s i => sp_track_add_ref s (f i)) s).tracks.length = s.tracks.length ∧
      (is.foldl (fun s i => sp_track_add_ref s (f i)) s).hashtable_tracks =
        s.hashtable_tracks ∧
      (is.foldl (fun s i => sp_track_add_ref s (f i)) s).freed_tracks = s.freed_tracks := by
  induction is with
  | nil => exact fun s _ => ⟨fun x => by simp, rfl, rfl, rfl⟩
  | cons i is ih =>
    intro s hvalid
    obtain ⟨r1, r2, r3⟩ := sp_track_add_ref_spec s (f i) (hvalid i (List.mem_cons_self _ _))
    have r4 : (sp_track_add_ref s (f i)).freed_tracks = s.freed_tracks := by
      unfold sp_track_add_ref
      split <;> rfl
    obtain ⟨f1, f2, f3, f4⟩ := ih (sp_track_add_ref s (f i))
      (fun j hj => by rw [r2]; exact hvalid j (List.mem_cons_of_mem _ hj))
    rw [List.foldl_cons, List.map_cons]
    refine ⟨?_, f2.trans r2, f3.trans r1, f4.trans r4⟩
    intro x
    rw [f1 x, r3 x, count_cons_if]
    omega

/-- What `osfy_playlist_browse` does to the heap of tracks: one reference more
for every entry of the playlist's `tracks`. -/
theorem osfy_playlist_browse_refs (env : environment) (s : sp_session) (q : Nat)
    (hn : (playlist_at s.playlists q).num_tracks = (playlist_at s.playlists q).tracks.length)
    (hvalid : ∀ t ∈ (playlist_at s.playlists q).tracks, t < s.tracks.length) :
    (∀ x, ref_count_of (osfy_playlist_browse env s q) x =
        ref_count_of s x + (playlist_at s.playlists q).tracks.count x) ∧
      (osfy_playlist_browse env s q).tracks.length = s.tracks.length ∧
      (osfy_playlist_browse env s q).hashtable_tracks = s.hashtable_tracks ∧
      (osfy_playlist_browse env s q).freed_tracks = s.freed_tracks := by
  have hmap : (List.range (playlist_at s.playlists q).num_tracks).map
      (fun i => (playlist_at s.playlists q).tracks.getD i 0) =
      (playlist_at s.playlists q).tracks := by
    rw [hn]
    have h := map_range_getD (playlist_at s.playlists q).tracks 0 id
    simpa using h
  obtain ⟨f1, f2, f3, f4⟩ := sp_track_add_ref_fold
    (List.range (playlist_at s.playlists q).num_tracks)
    (fun i => (playlist_at s.playlists q).tracks.getD i 0) s
    (by
      intro i hi
      rw [List.mem_range, hn] at hi
      apply hvalid
      show (playlist_at s.playlists q).tracks.getD i 0 ∈ _
      rw [List.getD_eq_getElem?_getD, List.getElem?_eq_getElem hi]
      exact List.getElem_mem hi)
  rw [hmap] at f1
  exact ⟨f1, f2, f3, f4⟩

theorem count_drop_add (tracks : List Nat) (b k : Nat) (x : Nat) :
    (tracks.drop b).count x =
      ((tracks.drop b).take k).count x + (tracks.drop (b + k)).count x := by
  have h : tracks.drop b = (tracks.drop b).take k ++ tracks.drop (b + k) := by
    rw [← List.drop_drop, List.take_append_drop]
  conv => lhs; rw [h]
  rw [List.count_append]

/-- Successive runs of the browse parser over batches that cover the tracks
from index `b` on release the references of these tracks. -/
theorem browse_batches_spec (env : environment) (q num_total : Nat) (tracks : List Nat)
    (batches : List (Nat × List Nat)) :
    ∀ (b : Nat) (s : sp_session), (playlist_at s.playlists q).tracks = tracks →
    (∀ t ∈ tracks, t < s.tracks.length) → tracks_ok s →
    b + (batches.map Prod.fst).sum = tracks.length →
    (∀ batch ∈ batches, good_reply env batch.2) →
    (∀ x, (tracks.drop b).count x ≤ ref_count_of s x) →
    ∃ s1, browse_batches env q num_total batches b s = some s1 ∧
      (∀ x, ref_count_of s1 x + (tracks.drop b).count x = ref_count_of s x) ∧
      s1.playlists = s.playlists ∧
      ((∀ x ∈ tracks, (tracks.drop b).count x < ref_count_of s x) →
        s1.freed_tracks = s.freed_tracks) := by
  induction batches with
  | nil =>
    intro b s _ _ _ hsum _ _
    have hb : tracks.length ≤ b := by simp at hsum; omega
    refine ⟨s, rfl, ?_, rfl, fun _ => rfl⟩
    intro x
    rw [List.drop_of_length_le hb]
    simp
  | cons batch batches ih =>
    intro b s htracks hvalid hok hsum hgood hcount
    rw [List.map_cons, List.sum_cons] at hsum
    have hbatch : (browse_context q num_total b batch.1).num_browsed +
        (browse_context q num_total b batch.1).num_in_request ≤ tracks.length := by
      show b + batch.1 ≤ tracks.length
      omega
    obtain ⟨c1, c2⟩ := osfy_playlist_browse_callback_run env s
      (browse_context q num_total b batch.1) batch.2 tracks htracks hvalid hok hbatch
    have hsplit := count_drop_add tracks b batch.1
    obtain ⟨s1, hrun⟩ := c2 (hgood batch (List.mem_cons_self _ _)) (fun x => by
      show ((tracks.drop b).take batch.1).count x ≤ _
      have h1 := hcount x
      have h2 := hsplit x
      omega)
    obtain ⟨d1, d2, d3, d4, d5⟩ := c1 s1 hrun
    have d1' : ∀ x, ref_count_of s1 x + ((tracks.drop b).take batch.1).count x =
        ref_count_of s x := d1
    obtain ⟨s2, e1, e2, e3, e4⟩ := ih (b + batch.1) s1 (by rw [d2]; exact htracks)
      (fun t ht => Nat.lt_of_lt_of_le (hvalid t ht) d3) d4 (by omega)
      (fun x hx => hgood x (List.mem_cons_of_mem _ hx))
      (fun x => by
        have h1 := hcount x
        have h2 := hsplit x
        have h3 := d1' x
        omega)
    refine ⟨s2, ?_, ?_, e3.trans d2, ?_⟩
    · unfold browse_batches
      rw [hrun]
      simp only []
      rw [if_pos trivial]
      exact e1
    · intro x
      have h2 := hsplit x
      have h3 := d1' x
      have h4 := e2 x
      omega
    · intro hstrict
      have hfreed : s1.freed_tracks = s.freed_tracks := by
        apply d5
        intro x hx
        show ((tracks.drop b).take batch.1).count x < _
        have h1 := hstrict x (List.mem_of_mem_drop (List.mem_of_mem_take hx))
        have h2 := hsplit x
        omega
      rw [← hfreed]
      apply e4
      intro x hx
      have h1 := hstrict x hx
      have h2 := hsplit x
      have h3 := d1' x
      omega

/-- Claim C23. For a playlist whose entries point into the heap of tracks:
`osfy_playlist_browse` adds one reference to a track for each entry of
`tracks` that points to it; a successful run of
`osfy_playlist_browse_callback` with `num_browsed = b` and
`num_in_request = k` takes one reference from a track for each of the entries
`tracks[b..b+k-1]` that points to it and changes no other count; and after
the browse and the runs for batches that partition the track list, each with
a good reply, every count is what it was before the browse, and when the
playlist held a reference to each of its tracks no track has been freed. -/
theorem browse_references (env : environment) (s : sp_session) (q : Nat)
    (hn : (playlist_at s.playlists q).num_tracks = (playlist_at s.playlists q).tracks.length)
    (hvalid : ∀ t ∈ (playlist_at s.playlists q).tracks, t < s.tracks.length)
    (hok : tracks_ok s) :
    (∀ x, ref_count_of (osfy_playlist_browse env s q) x =
      ref_count_of s x + (playlist_at s.playlists q).tracks.count x) ∧
    (∀ (brctx : browse_callback_ctx) (buf : List Nat) (s1 : sp_session),
      brctx.playlist = q →
      brctx.num_browsed + brctx.num_in_request ≤ (playlist_at s.playlists q).tracks.length →
      osfy_playlist_browse_callback env s brctx buf = some (0, s1) →
      ∀ x, ref_count_of s1 x +
          (((playlist_at s.playlists q).tracks.drop brctx.num_browsed).take
            brctx.num_in_request).count x = ref_count_of s x) ∧
    (∀ (num_total : Nat) (batches : List (Nat × List Nat)),
      (batches.map Prod.fst).sum = (playlist_at s.playlists q).tracks.length →
      (∀ batch ∈ batches, good_reply env batch.2) →
      ∃ s1, browse_batches env q num_total batches 0 (osfy_playlist_browse env s q) = some s1 ∧
        (∀ x, ref_count_of s1 x = ref_count_of s x) ∧
        ((∀ x ∈ (playlist_at s.playlists q).tracks, 0 < ref_count_of s x) →
          s1.freed_tracks = s.freed_tracks)) := by
  obtain ⟨b1, b2, b3, b4⟩ := osfy_playlist_browse_refs env s q hn hvalid
  refine ⟨b1, ?_, ?_⟩
  · intro brctx buf s1 hq hbatch hrun
    have htracks : (playlist_at s.playlists brctx.playlist).tracks =
        (playlist_at s.playlists q).tracks := by rw [hq]
    exact ((osfy_playlist_browse_callback_run env s brctx buf _ htracks hvalid hok hbatch).1
      s1 hrun).1
  · intro num_total batches hsum hgood
    have hpl : (osfy_playlist_browse env s q).playlists = s.playlists :=
      (osfy_playlist_browse_eq env s q).1
    have hok1 : tracks_ok (osfy_playlist_browse env s q) := by
      intro e he
      rw [b3] at he
      rw [b2]
      exact hok e he
    obtain ⟨s1, e1, e2, -, e4⟩ := browse_batches_spec env q num_total
      (playlist_at s.playlists q).tracks batches 0 (osfy_playlist_browse env s q)
      (by rw [hpl]) (fun t ht => by rw [b2]; exact hvalid t ht) hok1
      (by rw [Nat.zero_add]; exact hsum) hgood
      (fun x => by
        rw [List.drop_zero, b1 x]
        omega)
    refine ⟨s1, e1, ?_, ?_⟩
    · intro x
      have h1 := e2 x
      have h2 := b1 x
      rw [List.drop_zero] at h1
      omega
    · intro hheld
      rw [← b4]
      apply e4
      intro x hx
      have h1 := hheld x hx
      have h2 := b1 x
      rw [List.drop_zero]
      omega

set_option maxRecDepth 100000 in
/-- An instance of claim C23. The playlist of the example lists the track 0
twice and the track 1 once; the browse takes their counts from 2 and 1 to 4
and 2, and the runs for a batch of two and a batch of one, whose replies also
intern the track `ee..ee` of a redirect, bring them back to 2 and 1 and free
no track. -/
theorem browse_references_example :
    ref_count_of (osfy_playlist_browse browse_env two_tracks 0) 0 = 4 ∧
    ref_count_of (osfy_playlist_browse browse_env two_tracks 0) 1 = 2 ∧
    (browse_batches browse_env 0 3 [(2, browse_payload), (1, browse_payload)] 0
        (osfy_playlist_browse browse_env two_tracks 0)).map
        (fun s1 => (s1.tracks.map (fun t => t.ref_count), s1.freed_tracks)) =
      some ([2, 1, 0], []) ∧
    ∃ s1, browse_batches browse_env 0 3 [(2, browse_payload), (1, browse_payload)] 0
        (osfy_playlist_browse browse_env two_tracks 0) = some s1 ∧
      (∀ x, ref_count_of s1 x = ref_count_of two_tracks x) ∧
      ((∀ x ∈ (playlist_at two_tracks.playlists 0).tracks, 0 < ref_count_of two_tracks x) →
        s1.freed_tracks = two_tracks.freed_tracks) :=
  ⟨((browse_references browse_env two_tracks 0 (by decide) (by decide)
      (by unfold tracks_ok; decide)).1 0).trans (by decide),
   ((browse_references browse_env two_tracks 0 (by decide) (by decide)
      (by unfold tracks_ok; decide)).1 1).trans (by decide),
   by decide,
   (browse_references browse_env two_tracks 0 (by decide) (by decide)
      (by unfold tracks_ok; decide)).2.2 3 [(2, browse_payload), (1, browse_payload)]
      (by decide)
      (fun batch hbatch => ⟨"<tracks/>".toList, browse_reply_root, by
        rcases List.mem_cons.1 hbatch with h | h
        · rw [h]; decide
        · rw [List.mem_singleton.1 h]; decide, by decide, by decide⟩)⟩

end OpenSpotify
